import Mathlib

/-!
# Whether-api: the station filters of `APIService`

A shallow embedding of the pure parts of `src/API_pobieranie.cpp`:
the city filter `filtrujStacjePoMiescie`, the haversine distance
`obliczOdleglosc` and the radius filter `filtrujStacjeWPromieniu`.

* JSON values are a tree (`QJsonValue`); a `QJsonObject` is an association
  list that is read by key (`QJsonObject.value`) and written by key
  (`QJsonObject.insert`).  The subscript of a local, non-const `QJsonObject`
  is `QJsonObject.index`: it creates a `Null` member when the key is absent.
* `double` is a type parameter carrying the primitive operations the code
  uses (`QDouble`).  Two instances are given: `Float` (the executable one)
  and `ℝ` (exact arithmetic, used where a statement is a fact of the
  formula rather than of the control flow).
* Library routines whose code is not part of the repository are parameters:
  `QString::toLower`, `QString::toDouble` and `std::sort`.
-/

namespace WhetherApi

/-! ## Strings -/

/-- A `QString`. -/
abbrev QString := String

/-- The call `QString::contains(const QString &)` with the default case
sensitivity: `sub` occurs in `s` as a contiguous run of characters. The empty
string occurs in every string. -/
def qContains (s sub : QString) : Bool :=
  s.toList.tails.any (fun t => sub.toList.isPrefixOf t)

/-! ## JSON values -/

/-- A `QJsonValue`; `α` is the type of `double`. -/
inductive QJsonValue (α : Type) where
  | null
  | bool (b : Bool)
  | double (d : α)
  | string (s : QString)
  | array (items : List (QJsonValue α))
  | object (members : List (QString × QJsonValue α))
  | undefined

/-- A `QJsonArray`. -/
abbrev QJsonArray (α : Type) := List (QJsonValue α)

/-- A `QJsonObject`: the members, read and written by key. -/
abbrev QJsonObject (α : Type) := List (QString × QJsonValue α)

/-- The call `QJsonValue::isObject()`. -/
def QJsonValue.isObject {α : Type} : QJsonValue α → Bool
  | .object _ => true
  | _ => false

/-- The call `QJsonValue::toObject()`: the object, or the empty object when
the value is not an object. -/
def QJsonValue.toObject {α : Type} : QJsonValue α → QJsonObject α
  | .object members => members
  | _ => []

/-- The call `QJsonValue::toString()`: the string, or the null string when the
value is not a string. -/
def QJsonValue.toQString {α : Type} : QJsonValue α → QString
  | .string s => s
  | _ => ""

/-- The call `QJsonObject::contains(key)`. -/
def QJsonObject.contains {α : Type} (o : QJsonObject α) (key : QString) : Bool :=
  (o.lookup key).isSome

/-- The call `QJsonObject::operator[](key) const`, which is `value(key)`: the
value stored under `key`, or `Undefined` when the key is absent. It is the
overload chosen for a `const QJsonObject&`. -/
def QJsonObject.value {α : Type} (o : QJsonObject α) (key : QString) : QJsonValue α :=
  match o.lookup key with
  | some v => v
  | none => .undefined

/-- The assignment `obj[key] = v`: replaces the value stored under `key`, or
adds the member when the key is absent. -/
def QJsonObject.insert {α : Type} : QJsonObject α → QString → QJsonValue α → QJsonObject α
  | [], key, v => [(key, v)]
  | (k, w) :: rest, key, v =>
    if k = key then (key, v) :: rest else (k, w) :: QJsonObject.insert rest key v

/-- The non-const `QJsonObject::operator[](key)`, the overload chosen for a
local `QJsonObject` variable: it yields a reference to the member stored under
`key`, and when the key is absent it first creates the member with the value
`Null`. The result is the object afterwards and the value read through the
reference. -/
def QJsonObject.index {α : Type} (o : QJsonObject α) (key : QString) :
    QJsonObject α × QJsonValue α :=
  match o.lookup key with
  | some v => (o, v)
  | none => (QJsonObject.insert o key QJsonValue.null, QJsonValue.null)

/-! ## City filter -/

/-- The city name of a station, the string at `city.name`; the null string
when a step of the path is missing or is not of the expected kind. -/
def nazwaMiasta {α : Type} (val : QJsonValue α) : QString :=
  (QJsonObject.value (QJsonObject.value val.toObject "city").toObject "name").toQString

/-- The test of the loop body of `filtrujStacjePoMiescie`:
`aktualneMiasto.contains(szukaneMiasto)` for one element `val`. -/
def miastoPasuje {α : Type} (toLower : QString → QString) (miasto : QString)
    (val : QJsonValue α) : Bool :=
  let szukaneMiasto := toLower miasto
  let stacja := val.toObject
  let city := (QJsonObject.index stacja "city").2.toObject
  let aktualneMiasto := toLower (QJsonObject.index city "name").2.toQString
  qContains aktualneMiasto szukaneMiasto

/-- `APIService::filtrujStacjePoMiescie` (API_pobieranie.cpp:271-286). The
parameter `toLower` is `QString::toLower`. The object appended is the local
`stacja` as it is after the access `stacja["city"]`. -/
def filtrujStacjePoMiescie {α : Type} (toLower : QString → QString)
    (stacje : QJsonArray α) (miasto : QString) : QJsonArray α :=
  stacje.filterMap (fun val =>
    let stacja := (QJsonObject.index val.toObject "city").1
    if miastoPasuje toLower miasto val then some (QJsonValue.object stacja) else none)

/-! ## Doubles -/

/-- The primitive operations on `double` that the code uses: the arithmetic
operators, integer literals, `M_PI`, `qSin`, `qCos`, `qSqrt`, `qAtan2` and the
comparisons `<` and `<=`. -/
class QDouble (α : Type) extends Add α, Sub α, Mul α, Div α where
  /-- The double with the value of an integer literal. -/
  lit : Nat → α
  /-- The constant `M_PI`. -/
  pi : α
  qSin : α → α
  qCos : α → α
  qSqrt : α → α
  /-- `qAtan2 y x`. -/
  qAtan2 : α → α → α
  /-- The comparison `x < y`. -/
  lt : α → α → Bool
  /-- The comparison `x <= y`. -/
  le : α → α → Bool

open QDouble (lit pi qSin qCos qSqrt qAtan2)

/-- The Qt function `qDegreesToRadians(double)`: `degrees * (M_PI / 180)`. -/
def qDegreesToRadians {α : Type} [QDouble α] (degrees : α) : α :=
  degrees * (pi / lit 180)

/-- `APIService::obliczOdleglosc` (API_pobieranie.cpp:423-436). -/
def obliczOdleglosc {α : Type} [QDouble α] (lat1 lon1 lat2 lon2 : α) : α :=
  let R : α := lit 6371
  let dLat := qDegreesToRadians (lat2 - lat1)
  let dLon := qDegreesToRadians (lon2 - lon1)
  let a := qSin (dLat / lit 2) * qSin (dLat / lit 2) +
           qCos (qDegreesToRadians lat1) * qCos (qDegreesToRadians lat2) *
             qSin (dLon / lit 2) * qSin (dLon / lit 2)
  let c := lit 2 * qAtan2 (qSqrt a) (qSqrt (lit 1 - a))
  R * c

/-- The call `QJsonValue::toDouble()`: the number, or `0` when the value is
not a number. -/
def QJsonValue.toDouble {α : Type} [QDouble α] : QJsonValue α → α
  | .double d => d
  | _ => QDouble.lit 0

/-- The laws of the comparisons of IEEE doubles that sorting relies on. A NaN
is a value `x` with `le x x = false`; the laws hold with NaN present. -/
structure DoubleOrderLaws (α : Type) [QDouble α] : Prop where
  lt_iff : ∀ x y : α, QDouble.lt x y = true ↔ (QDouble.le x y = true ∧ QDouble.le y x = false)
  le_trans : ∀ x y z : α, QDouble.le x y = true → QDouble.le y z = true → QDouble.le x z = true
  le_total : ∀ x y : α, QDouble.le x x = true → QDouble.le y y = true →
    QDouble.le x y = true ∨ QDouble.le y x = true
  le_self_of_le : ∀ x y : α, QDouble.le x y = true → QDouble.le x x = true

/-- IEEE doubles, executable. -/
instance instQDoubleFloat : QDouble Float where
  lit n := Float.ofNat n
  pi := 3.14159265358979323846
  qSin := Float.sin
  qCos := Float.cos
  qSqrt := Float.sqrt
  qAtan2 := Float.atan2
  lt x y := decide (x < y)
  le x y := decide (x ≤ y)

/-- Exact real arithmetic: `qAtan2 y x` is the argument of `x + y i`, which is
the angle in `(-π, π]` that `atan2(y, x)` of the C library denotes. Nothing is
rounded and there is no NaN (the square root of a negative number is 0): a
theorem at this instance is about the formulas in exact arithmetic. Rounding
and NaN are in `instQDoubleBinary64`. -/
noncomputable instance instQDoubleReal : QDouble ℝ where
  lit n := (n : ℝ)
  pi := Real.pi
  qSin := Real.sin
  qCos := Real.cos
  qSqrt := Real.sqrt
  qAtan2 y x := Complex.arg ⟨x, y⟩
  lt x y := decide (x < y)
  le x y := decide (x ≤ y)

/-! ## `std::sort` -/

/-- The requirement `std::sort` puts on its comparator, for the values being
sorted: a strict weak ordering (irreflexive, transitive, and transitive in its
negation). -/
def StrictWeakOn {β : Type} (comp : β → β → Bool) (l : List β) : Prop :=
  (∀ a ∈ l, comp a a = false) ∧
  (∀ a ∈ l, ∀ b ∈ l, ∀ c ∈ l, comp a b = true → comp b c = true → comp a c = true) ∧
  (∀ a ∈ l, ∀ b ∈ l, ∀ c ∈ l, comp a b = false → comp b c = false → comp a c = false)

/-- What the C++ standard guarantees of `std::sort(first, last, comp)`: when
`comp` is a strict weak ordering of the values, the range afterwards holds the
same values, and no element is `comp`-less than an element before it. The
order of equivalent elements is not part of the guarantee. -/
def StdSortSpec {β : Type} (stdSort : (β → β → Bool) → List β → List β) : Prop :=
  ∀ comp l, StrictWeakOn comp l →
    (stdSort comp l).Perm l ∧ (stdSort comp l).Pairwise (fun a b => comp b a = false)

/-- Insertion step of `insertionSortLate`: `x` goes behind every leading
element it is not less than. -/
def insertLate {β : Type} (comp : β → β → Bool) (x : β) : List β → List β
  | [] => [x]
  | y :: ys => if comp x y then x :: y :: ys else y :: insertLate comp x ys

/-- A sorting routine that meets `StdSortSpec`: insertion sort from the back
of the range. -/
def insertionSortLate {β : Type} (comp : β → β → Bool) (l : List β) : List β :=
  l.foldr (insertLate comp) []

/-! ## Cache -/

/-- A `QJsonDocument`: null, an array or an object. -/
inductive QJsonDocument (α : Type) where
  | null
  | array (a : QJsonArray α)
  | object (o : QJsonObject α)

/-- The call `QJsonDocument::array()`: the array, or the empty array when the
document is not an array. -/
def QJsonDocument.toArray {α : Type} : QJsonDocument α → QJsonArray α
  | .array a => a
  | _ => []

/-- The `QCache<QString, QJsonDocument>` member `cache`: its capacity and its
entries. -/
structure QCache (α : Type) where
  maxCost : Nat
  entries : List (QString × QJsonDocument α)

/-- The lookup `cache[key]`: the document stored under `key`, if any. -/
def QCache.object {α : Type} (cache : QCache α) (key : QString) : Option (QJsonDocument α) :=
  cache.entries.lookup key

/-- The call `cache.contains(key)`. -/
def QCache.contains {α : Type} (cache : QCache α) (key : QString) : Bool :=
  (cache.object key).isSome

/-- The request URL of the full station list. -/
def urlFindAll : QString := "https://api.gios.gov.pl/pjp-api/rest/station/findAll"

/-! ## Radius filter -/

/-- The distance computed in the loop body of `filtrujStacjeWPromieniu` for one
element `val` (lines 455-458). The parameter `toDouble` is
`QString::toDouble`. -/
def odlegloscStacji {α : Type} [QDouble α] (toDouble : QString → α) (lat lon : α)
    (val : QJsonValue α) : α :=
  let stacja := val.toObject
  let naLat := QJsonObject.index stacja "gegrLat"
  let sLat := toDouble naLat.2.toQString
  let naLon := QJsonObject.index naLat.1 "gegrLon"
  let sLon := toDouble naLon.2.toQString
  obliczOdleglosc lat lon sLat sLon

/-- The local `stacja` of the loop body after the accesses `stacja["gegrLat"]`
and `stacja["gegrLon"]` (lines 455-457). -/
def stacjaPoOdczycie {α : Type} (val : QJsonValue α) : QJsonObject α :=
  (QJsonObject.index (QJsonObject.index val.toObject "gegrLat").1 "gegrLon").1

/-- The comparator handed to `std::sort` (lines 472-474). -/
def mniejszaOdleglosc {α : Type} [QDouble α] (a b : QJsonObject α) : Bool :=
  QDouble.lt (QJsonObject.value a "distance").toDouble (QJsonObject.value b "distance").toDouble

/-- `APIService::filtrujStacjeWPromieniu` (API_pobieranie.cpp:446-482): the
array carried by the signal `daneStacjiPobrane`, or `none` when the function
returns without emitting. The parameters `stdSort` and `toDouble` are
`std::sort` and `QString::toDouble`. -/
def filtrujStacjeWPromieniu {α : Type} [QDouble α]
    (stdSort : (QJsonObject α → QJsonObject α → Bool) → List (QJsonObject α) → List (QJsonObject α))
    (toDouble : QString → α) (cache : QCache α) (lat lon promienKm : α) :
    Option (QJsonArray α) :=
  if cache.contains urlFindAll = false then none
  else
    match cache.object urlFindAll with
    | none => none
    | some doc =>
      let wszystkieStacje := doc.toArray
      let stacjeWPromieniu : QJsonArray α := wszystkieStacje.filterMap (fun val =>
        let stacja := stacjaPoOdczycie val
        let odleglosc := odlegloscStacji toDouble lat lon val
        if QDouble.le odleglosc promienKm then
          let kopia := QJsonObject.insert stacja "distance" (QJsonValue.double odleglosc)
          some (QJsonValue.object kopia)
        else none)
      let stacjeList : List (QJsonObject α) := stacjeWPromieniu.map QJsonValue.toObject
      let sorted := stdSort mniejszaOdleglosc stacjeList
      let sortedArray : QJsonArray α := sorted.map QJsonValue.object
      some sortedArray

/-- The copy of a station that the loop appends (lines 460-462): the local
`stacja` with `distance` set to the computed distance. -/
def zOdlegloscia {α : Type} [QDouble α] (toDouble : QString → α) (lat lon : α)
    (val : QJsonValue α) : QJsonValue α :=
  QJsonValue.object
    (QJsonObject.insert (stacjaPoOdczycie val) "distance"
      (QJsonValue.double (odlegloscStacji toDouble lat lon val)))

/-- The distance field of an emitted station, read the way the comparator
reads it. -/
def poleDistance {α : Type} [QDouble α] (e : QJsonValue α) : α :=
  (QJsonObject.value e.toObject "distance").toDouble

/-! ## A reader of decimal literals, for concrete inputs -/

/-- An instance of `QString::toLower` for concrete inputs: the ASCII letters
are lower-cased. -/
def toLowerAscii (s : QString) : QString :=
  String.mk (s.toList.map Char.toLower)


/-- The value of a run of decimal digits, most significant first; `none` when
a character is not a digit. -/
def digitsValue : List Char → Option Nat
  | [] => some 0
  | cs => cs.foldl (fun acc c =>
      match acc with
      | some n => if c.isDigit then some (10 * n + (c.toNat - 48)) else none
      | none => none) (some 0)

/-- Reads `[+-]digits[.digits]`: the sign, the digits as one number and the
count of digits behind the point. -/
def readDecimal (s : QString) : Option (Bool × Nat × Nat) :=
  let cs := s.toList
  let (neg, body) : Bool × List Char :=
    match cs with
    | '-' :: r => (true, r)
    | '+' :: r => (false, r)
    | _ => (false, cs)
  let whole := body.takeWhile (fun c => c != '.')
  let frac := (body.dropWhile (fun c => c != '.')).drop 1
  if (whole ++ frac).isEmpty then none
  else
    match digitsValue (whole ++ frac) with
    | some m => some (neg, m, frac.length)
    | none => none

/-- An instance of `QString::toDouble` over the reals for decimal literals:
the number read, or `0` when the text is not a decimal literal. -/
noncomputable def toDoubleReal (s : QString) : ℝ :=
  match readDecimal s with
  | some (neg, m, e) => if neg then -((m : ℝ) / 10 ^ e) else (m : ℝ) / 10 ^ e
  | none => 0

/-- The same reader for `Float`. -/
def toDoubleFloat (s : QString) : Float :=
  match readDecimal s with
  | some (neg, m, e) =>
    if neg then -(OfScientific.ofScientific m true e) else OfScientific.ofScientific m true e
  | none => 0

/-! ## Sample data -/

/-- A station in Warszawa. -/
def stacjaA {α : Type} [QDouble α] : QJsonValue α :=
  .object [("id", .double (QDouble.lit 1)), ("stationName", .string "Stacja A"),
    ("gegrLat", .string "52.0"), ("gegrLon", .string "21.0"),
    ("city", .object [("id", .double (QDouble.lit 10)), ("name", .string "Warszawa")])]

/-- A second station at the coordinates of `stacjaA`. -/
def stacjaB {α : Type} [QDouble α] : QJsonValue α :=
  .object [("id", .double (QDouble.lit 2)), ("stationName", .string "Stacja B"),
    ("gegrLat", .string "52.0"), ("gegrLon", .string "21.0"),
    ("city", .object [("id", .double (QDouble.lit 10)), ("name", .string "Warszawa")])]

/-- A station in Kraków. -/
def stacjaK {α : Type} [QDouble α] : QJsonValue α :=
  .object [("id", .double (QDouble.lit 3)), ("stationName", .string "Stacja K"),
    ("gegrLat", .string "50.0"), ("gegrLon", .string "20.0"),
    ("city", .object [("id", .double (QDouble.lit 20)), ("name", .string "Kraków")])]

/-- A cache holding the three sample stations under the station-list URL. -/
def cacheABK {α : Type} [QDouble α] : QCache α :=
  { maxCost := 100, entries := [(urlFindAll, .array [stacjaA, stacjaB, stacjaK])] }

/-- A cache holding `stacjaA` and `stacjaB`, in this order. -/
def cacheAB {α : Type} [QDouble α] : QCache α :=
  { maxCost := 100, entries := [(urlFindAll, .array [stacjaA, stacjaB])] }

/-- A cache holding `stacjaA` alone. -/
def cacheA {α : Type} [QDouble α] : QCache α :=
  { maxCost := 100, entries := [(urlFindAll, .array [stacjaA])] }

/-! ## More of JSON and of the cache -/

/-- The call `QJsonDocument::isNull()`. -/
def QJsonDocument.isNull {α : Type} : QJsonDocument α → Bool
  | .null => true
  | _ => false

/-- The call `QJsonDocument::isArray()`. -/
def QJsonDocument.isArray {α : Type} : QJsonDocument α → Bool
  | .array _ => true
  | _ => false

/-- The call `QJsonDocument::isObject()`. -/
def QJsonDocument.isObject {α : Type} : QJsonDocument α → Bool
  | .object _ => true
  | _ => false

/-- The call `QJsonDocument::object()`: the object, or the empty object when
the document is not an object. -/
def QJsonDocument.toObject {α : Type} : QJsonDocument α → QJsonObject α
  | .object o => o
  | _ => []

/-- The call `QJsonValue::toArray()`: the array, or the empty array when the
value is not an array. -/
def QJsonValue.toArray {α : Type} : QJsonValue α → QJsonArray α
  | .array items => items
  | _ => []

/-- The call `QJsonObject::keys()`. -/
def QJsonObject.keys {α : Type} (o : QJsonObject α) : List QString :=
  o.map Prod.fst

/-- Modelled from the spec: `QCache::insert(key, object)` with the default cost
1; the container is Qt code and not part of the repository. The spec: "`put(key,
document)` evicts the oldest/least-recently-used entry when size would exceed
100", "cache keys are unique by construction (one entry per URL)". The entries
are kept most recently used first: an entry stored under `key` is removed, the
least recently used entries are dropped until one more fits, and the new entry
is put in front. With capacity 0 nothing is stored. -/
def QCache.insert {α : Type} (cache : QCache α) (key : QString) (doc : QJsonDocument α) :
    QCache α :=
  let rest := cache.entries.filter (fun e => e.1 != key)
  if cache.maxCost < 1 then { cache with entries := rest }
  else { cache with entries := (key, doc) :: rest.take (cache.maxCost - 1) }

/-- Modelled from the spec: the side effect of the lookup `cache[key]` on the
use order ("least-recently-used"); the container is Qt code and not part of the
repository. An entry found under `key` becomes the most recently used one. -/
def QCache.relink {α : Type} (cache : QCache α) (key : QString) : QCache α :=
  match cache.entries.find? (fun e => e.1 == key) with
  | some e => { cache with entries := e :: cache.entries.filter (fun e => e.1 != key) }
  | none => cache

/-- The call `cache.keys()`. -/
def QCache.keys {α : Type} (cache : QCache α) : List QString :=
  cache.entries.map Prod.fst

/-- The cache as the constructor makes it: `cache(100)`, no entries. -/
def QCache.pusty {α : Type} : QCache α :=
  { maxCost := 100, entries := [] }

/-! ## URLs -/

/-- The call `QUrl::query()` on a URL given as text: what stands between the
first `?` and the fragment. -/
def zapytanieUrl (url : QString) : QString :=
  let bezFragmentu := url.toList.takeWhile (fun c => c != '#')
  String.mk ((bezFragmentu.dropWhile (fun c => c != '?')).drop 1)

/-- The parts of a text between the occurrences of a separator character, as
`QString::split` gives them (empty parts kept). -/
def podziel (sep : Char) : List Char → List (List Char)
  | [] => [[]]
  | c :: cs =>
    if c = sep then [] :: podziel sep cs
    else
      match podziel sep cs with
      | [] => [[c]]
      | p :: ps => (c :: p) :: ps

/-- The expression `query.split("=")[1]`: the second part, when there is
one. -/
def drugaCzesc (query : QString) : Option QString :=
  match podziel '=' query.toList with
  | _ :: p :: _ => some (String.mk p)
  | _ => none

/-! ## The service: state, requests, replies, effects -/

/-- A signal of `APIService` (API_pobieranie.h:116-163). -/
inductive Sygnal (α : Type) where
  | daneStacjiPobrane (stacje : QJsonArray α)
  | daneStanowiskPobrane (stanowiska : QJsonArray α)
  | danePomiarowePobrane (pomiary : QJsonArray α) (parametrKod : QString)
  | indeksJakosciPobrany (indeks : QJsonObject α)
  | blad (opisBledu : QString)
  | daneZapisane (sukces : Bool)
  | daneWczytane (sukces : Bool)
  | daneAutomatycznieZapisane

/-- A `QNetworkRequest`, with what the service sets on it and reads from it:
the URL, the raw header `X-Geo-Filtr` (empty when not set) and the attributes
`User`, `UserMax` and `HttpPipeliningAllowedAttribute`. -/
structure QNetworkRequest (α : Type) where
  url : QString
  naglowekGeoFiltr : QString
  atrybutUser : Option α
  atrybutUserMax : Option α
  atrybutHttpPipeliningAllowed : Option α

/-- The request `QNetworkRequest request(url)`: no header, no attribute. -/
def QNetworkRequest.prosty {α : Type} (url : QString) : QNetworkRequest α :=
  { url := url, naglowekGeoFiltr := "", atrybutUser := none, atrybutUserMax := none,
    atrybutHttpPipeliningAllowed := none }

/-- The call `QVariant::toDouble()` on an attribute: `0` when it is not set. -/
def atrybutToDouble {α : Type} [QDouble α] : Option α → α
  | some d => d
  | none => QDouble.lit 0

/-- A finished `QNetworkReply`: `error` is `none` for `NoError` and the
`errorString()` otherwise; `url` is `reply->url().toString()`; `readAll` stands
for the body, given as the document `QJsonDocument::fromJson` reads from it
(the null document when the body is not valid JSON). -/
structure QNetworkReply (α : Type) where
  error : Option QString
  url : QString
  request : QNetworkRequest α
  readAll : QJsonDocument α

/-- What a call does besides changing the members of the service, in the order
it happens: a signal emitted, a request handed to `networkManager->get`, a
file written, a line logged with `qWarning` or `qDebug`. -/
inductive Efekt (α : Type) where
  | sygnal (s : Sygnal α)
  | zadanie (request : QNetworkRequest α)
  | zapis (sciezka : QString) (tresc : QJsonDocument α)
  | qWarning (tekst : QString) (sciezka : QString)
  | qDebug (tekst : QString)

/-- The members of `APIService` that the operations read and write
(API_pobieranie.h:174, 214). -/
structure APIService (α : Type) where
  cache : QCache α
  aktualneDane : QJsonObject α

/-- The member `sciezkaPliku` (API_pobieranie.h:213). -/
def sciezkaPliku : QString := "dane_pomiarowe.json"

/-- `APIService::zapiszDaneAutomatycznie` (API_pobieranie.cpp:43-54). The
parameter `otwarty` tells whether the file can be opened for writing. -/
def APIService.zapiszDaneAutomatycznie {α : Type} (otwarty : Bool) (s : APIService α) :
    List (Efekt α) :=
  if otwarty = false then
    [Efekt.qWarning "Nie można otworzyć pliku do zapisu:" sciezkaPliku]
  else
    [Efekt.zapis sciezkaPliku (QJsonDocument.object s.aktualneDane),
     Efekt.qDebug "Dane zostały automatycznie zapisane do pliku",
     Efekt.sygnal Sygnal.daneAutomatycznieZapisane]

/-- `APIService::przetworzOdpowiedzStacje` (API_pobieranie.cpp:197-206). The
bytes `odpowiedz` are given as the document read from them. -/
def APIService.przetworzOdpowiedzStacje {α : Type} (otwarty : Bool)
    (odpowiedz : QJsonDocument α) (s : APIService α) : APIService α × List (Efekt α) :=
  let doc := odpowiedz
  if doc.isArray = false then
    (s, [Efekt.sygnal (Sygnal.blad "Oczekiwano tablicy JSON")])
  else
    let s1 : APIService α :=
      { s with aktualneDane :=
          QJsonObject.insert s.aktualneDane "stacje" (QJsonValue.array doc.toArray) }
    (s1, s1.zapiszDaneAutomatycznie otwarty ++
      [Efekt.sygnal (Sygnal.daneStacjiPobrane doc.toArray)])

/-- `APIService::przetworzOdpowiedzStanowiska` (API_pobieranie.cpp:213-222). -/
def APIService.przetworzOdpowiedzStanowiska {α : Type} (otwarty : Bool)
    (odpowiedz : QJsonDocument α) (s : APIService α) : APIService α × List (Efekt α) :=
  let doc := odpowiedz
  if doc.isArray = false then
    (s, [Efekt.sygnal (Sygnal.blad "Oczekiwano tablicy JSON")])
  else
    let s1 : APIService α :=
      { s with aktualneDane :=
          QJsonObject.insert s.aktualneDane "stanowiska" (QJsonValue.array doc.toArray) }
    (s1, s1.zapiszDaneAutomatycznie otwarty ++
      [Efekt.sygnal (Sygnal.daneStanowiskPobrane doc.toArray)])

/-- `APIService::przetworzOdpowiedzPomiary` (API_pobieranie.cpp:229-246). -/
def APIService.przetworzOdpowiedzPomiary {α : Type} (otwarty : Bool)
    (odpowiedz : QJsonDocument α) (s : APIService α) : APIService α × List (Efekt α) :=
  let doc := odpowiedz
  if doc.isObject = false then
    (s, [Efekt.sygnal (Sygnal.blad "Oczekiwano obiektu JSON")])
  else
    let obj := doc.toObject
    if QJsonObject.contains obj "key" = false || QJsonObject.contains obj "values" = false then
      (s, [Efekt.sygnal (Sygnal.blad "Brak wymaganych danych pomiarowych")])
    else
      let naKey := QJsonObject.index obj "key"
      let parametrKod := naKey.2.toQString
      let s1 : APIService α :=
        { s with aktualneDane :=
            QJsonObject.insert s.aktualneDane "pomiary" (QJsonValue.object naKey.1) }
      let naValues := QJsonObject.index naKey.1 "values"
      (s1, s1.zapiszDaneAutomatycznie otwarty ++
        [Efekt.sygnal (Sygnal.danePomiarowePobrane naValues.2.toArray parametrKod)])

/-- `APIService::przetworzOdpowiedzIndeks` (API_pobieranie.cpp:253-262). -/
def APIService.przetworzOdpowiedzIndeks {α : Type} (otwarty : Bool)
    (odpowiedz : QJsonDocument α) (s : APIService α) : APIService α × List (Efekt α) :=
  let doc := odpowiedz
  if doc.isObject = false then
    (s, [Efekt.sygnal (Sygnal.blad "Oczekiwano obiektu JSON")])
  else
    let s1 : APIService α :=
      { s with aktualneDane :=
          QJsonObject.insert s.aktualneDane "indeks" (QJsonValue.object doc.toObject) }
    (s1, s1.zapiszDaneAutomatycznie otwarty ++
      [Efekt.sygnal (Sygnal.indeksJakosciPobrany doc.toObject)])

/-- `APIService::filtrujStacjeWPromieniu` as a member function: the signal it
emits and the use of the cache entry it reads. -/
def APIService.filtrujStacjeWPromieniu {α : Type} [QDouble α]
    (stdSort : (QJsonObject α → QJsonObject α → Bool) → List (QJsonObject α) → List (QJsonObject α))
    (toDouble : QString → α) (lat lon promienKm : α) (s : APIService α) :
    APIService α × List (Efekt α) :=
  match WhetherApi.filtrujStacjeWPromieniu stdSort toDouble s.cache lat lon promienKm with
  | none => (s, [])
  | some sortedArray =>
    ({ s with cache := s.cache.relink urlFindAll },
      [Efekt.sygnal (Sygnal.daneStacjiPobrane sortedArray)])

/-- `APIService::onReplyFinished` (API_pobieranie.cpp:141-190). The result is
`none` when `query().split("=")[1]` reads past the end of the list. The
parameters `toLower`, `toDouble` and `stdSort` are the library routines,
`otwarty` tells whether the autosave can open its file. -/
def APIService.onReplyFinished {α : Type} [QDouble α]
    (toLower : QString → QString)
    (stdSort : (QJsonObject α → QJsonObject α → Bool) → List (QJsonObject α) → List (QJsonObject α))
    (toDouble : QString → α) (otwarty : Bool) (reply : QNetworkReply α) (s : APIService α) :
    Option (APIService α × List (Efekt α)) :=
  match reply.error with
  | some errorString =>
    some (s, [Efekt.sygnal (Sygnal.blad ("Błąd sieci: " ++ errorString))])
  | none =>
    let response := reply.readAll
    let url := reply.url
    let doc := response
    if doc.isNull then
      some (s, [Efekt.sygnal (Sygnal.blad "Nieprawidłowy format JSON")])
    else
      let s1 : APIService α := { s with cache := s.cache.insert url doc }
      if reply.request.naglowekGeoFiltr = "1" then
        let lat := atrybutToDouble reply.request.atrybutUser
        let lon := atrybutToDouble reply.request.atrybutUserMax
        let promienKm := atrybutToDouble reply.request.atrybutHttpPipeliningAllowed
        some (s1.filtrujStacjeWPromieniu stdSort toDouble lat lon promienKm)
      else if qContains url "station/findAll" then
        if qContains (zapytanieUrl reply.request.url) "miasto" then
          match drugaCzesc (zapytanieUrl reply.request.url) with
          | some miasto =>
            let przefiltrowane := filtrujStacjePoMiescie toLower doc.toArray miasto
            some (s1, [Efekt.sygnal (Sygnal.daneStacjiPobrane przefiltrowane)])
          | none => none
        else some (s1.przetworzOdpowiedzStacje otwarty response)
      else if qContains url "station/sensors" then
        some (s1.przetworzOdpowiedzStanowiska otwarty response)
      else if qContains url "data/getData" then
        some (s1.przetworzOdpowiedzPomiary otwarty response)
      else if qContains url "aqindex/getIndex" then
        some (s1.przetworzOdpowiedzIndeks otwarty response)
      else some (s1, [])

/-- `APIService::pobierzWszystkieStacje` (API_pobieranie.cpp:60-74), the worker
and the queued call run one after the other. The bytes `toJson()` gives are
given as the document they are read back to. -/
def APIService.pobierzWszystkieStacje {α : Type} (otwarty : Bool) (s : APIService α) :
    APIService α × List (Efekt α) :=
  let url := urlFindAll
  if s.cache.contains url then
    match s.cache.object url with
    | some doc =>
      APIService.przetworzOdpowiedzStacje otwarty doc { s with cache := s.cache.relink url }
    | none => (s, [])
  else
    (s, [Efekt.zadanie (QNetworkRequest.prosty url)])

/-- `APIService::pobierzStacjeWMiescie` (API_pobieranie.cpp:82-100), the worker
and the queued call run one after the other. -/
def APIService.pobierzStacjeWMiescie {α : Type} (toLower : QString → QString)
    (miasto : QString) (s : APIService α) : APIService α × List (Efekt α) :=
  let url := urlFindAll
  if s.cache.contains url then
    match s.cache.object url with
    | some doc =>
      let wszystkieStacje := doc.toArray
      let przefiltrowane := filtrujStacjePoMiescie toLower wszystkieStacje miasto
      ({ s with cache := s.cache.relink url },
        [Efekt.sygnal (Sygnal.daneStacjiPobrane przefiltrowane)])
    | none => (s, [])
  else
    (s, [Efekt.zadanie (QNetworkRequest.prosty url)])

/-- The loop of `zapiszDaneDoPliku` (lines 303-307) over the keys: the cache
after the lookups and the object `cacheObject` built. -/
def zbierzCache {α : Type} :
    List QString → QCache α × QJsonObject α → QCache α × QJsonObject α
  | [], acc => acc
  | url :: rest, (cache, cacheObject) =>
    match cache.object url with
    | some doc =>
      zbierzCache rest
        (cache.relink url, QJsonObject.insert cacheObject url (QJsonValue.object doc.toObject))
    | none => zbierzCache rest (cache, cacheObject)

/-- `APIService::zapiszDaneDoPliku` (API_pobieranie.cpp:294-321), the worker and
the queued call run one after the other: the value returned, the service
afterwards and the effects. The parameter `otwarty` tells whether the file can
be opened for writing. -/
def APIService.zapiszDaneDoPliku {α : Type} (otwarty : Bool) (sciezka : QString)
    (s : APIService α) : Bool × APIService α × List (Efekt α) :=
  if otwarty then
    let zebrane := zbierzCache s.cache.keys (s.cache, [])
    let cacheObject := zebrane.2
    let mainObject : QJsonObject α :=
      QJsonObject.insert [] "cache" (QJsonValue.object cacheObject)
    (true, { s with cache := zebrane.1 },
      [Efekt.zapis sciezka (QJsonDocument.object mainObject),
       Efekt.sygnal (Sygnal.daneZapisane true)])
  else
    (true, s, [Efekt.sygnal (Sygnal.daneZapisane false)])

/-- The loop of `wczytajDaneZPliku` (lines 343-345) over the keys of
`cacheObject`. -/
def wstawZPliku {α : Type} (cacheObject : QJsonObject α) : List QString → QCache α → QCache α
  | [], cache => cache
  | url :: rest, cache =>
    let na := QJsonObject.index cacheObject url
    wstawZPliku na.1 rest (cache.insert url (QJsonDocument.object na.2.toObject))

/-- `APIService::wczytajDaneZPliku` (API_pobieranie.cpp:329-360), the worker and
the queued call run one after the other: the value returned, the service
afterwards and the effects. The parameter `plik` is `none` when the file cannot
be opened, and otherwise the document read from its bytes (the null document
when they are not valid JSON). -/
def APIService.wczytajDaneZPliku {α : Type} (plik : Option (QJsonDocument α))
    (s : APIService α) : Bool × APIService α × List (Efekt α) :=
  match plik with
  | none => (true, s, [Efekt.sygnal (Sygnal.daneWczytane false)])
  | some doc =>
    if doc.isNull = false && doc.isObject then
      let mainObject := doc.toObject
      if QJsonObject.contains mainObject "cache" then
        let cacheObject := (QJsonObject.index mainObject "cache").2.toObject
        (true,
          { s with cache := wstawZPliku cacheObject (QJsonObject.keys cacheObject) s.cache },
          [Efekt.sygnal (Sygnal.daneWczytane true)])
      else (true, s, [Efekt.sygnal (Sygnal.daneWczytane true)])
    else (true, s, [Efekt.sygnal (Sygnal.daneWczytane false)])

/-- Inserting entries one after the other, the first of the list first. -/
def QCache.insertAll {α : Type} (cache : QCache α) (kvs : List (QString × QJsonDocument α)) :
    QCache α :=
  kvs.foldl (fun c kv => c.insert kv.1 kv.2) cache

/-- A key made of `n` letters; different `n` give different keys. -/
def kluczNr (n : Nat) : QString :=
  String.mk (List.replicate n 'a')

/-! ## The kinds of reply, for stating what the router and the handlers do -/

/-- The four kinds of reply that the URL of a reply can name. -/
inductive Rodzaj where
  | stacje
  | stanowiska
  | pomiary
  | indeks

/-- The kind of a reply URL: the first of the four path fragments, in the order
`station/findAll`, `station/sensors`, `data/getData`, `aqindex/getIndex`, that
the URL contains. -/
def klasyfikuj (url : QString) : Option Rodzaj :=
  if qContains url "station/findAll" then some Rodzaj.stacje
  else if qContains url "station/sensors" then some Rodzaj.stanowiska
  else if qContains url "data/getData" then some Rodzaj.pomiary
  else if qContains url "aqindex/getIndex" then some Rodzaj.indeks
  else none

/-- The right shape of a payload for its kind: an array for stations and
sensors, an object with the keys `key` and `values` for measurements, an object
for the index. -/
def Rodzaj.ksztaltPoprawny {α : Type} (r : Rodzaj) (doc : QJsonDocument α) : Bool :=
  match r with
  | .stacje => doc.isArray
  | .stanowiska => doc.isArray
  | .pomiary =>
    doc.isObject && QJsonObject.contains doc.toObject "key" &&
      QJsonObject.contains doc.toObject "values"
  | .indeks => doc.isObject

/-- The field of `aktualneDane` that belongs to a kind. -/
def Rodzaj.pole (r : Rodzaj) : QString :=
  match r with
  | .stacje => "stacje"
  | .stanowiska => "stanowiska"
  | .pomiary => "pomiary"
  | .indeks => "indeks"

/-- The decoded payload of a kind: the array, or the object. -/
def Rodzaj.ladunek {α : Type} (r : Rodzaj) (doc : QJsonDocument α) : QJsonValue α :=
  match r with
  | .stacje => QJsonValue.array doc.toArray
  | .stanowiska => QJsonValue.array doc.toArray
  | .pomiary => QJsonValue.object doc.toObject
  | .indeks => QJsonValue.object doc.toObject

/-- The result signal of a kind, carrying the payload; for measurements the
array under `values` and the string under `key`. -/
def Rodzaj.zdarzenie {α : Type} (r : Rodzaj) (doc : QJsonDocument α) : Sygnal α :=
  match r with
  | .stacje => Sygnal.daneStacjiPobrane doc.toArray
  | .stanowiska => Sygnal.daneStanowiskPobrane doc.toArray
  | .pomiary =>
    Sygnal.danePomiarowePobrane (QJsonObject.value doc.toObject "values").toArray
      (QJsonObject.value doc.toObject "key").toQString
  | .indeks => Sygnal.indeksJakosciPobrany doc.toObject

/-- The handler of a kind. -/
def Rodzaj.obsluga {α : Type} (r : Rodzaj) (otwarty : Bool) (odpowiedz : QJsonDocument α)
    (s : APIService α) : APIService α × List (Efekt α) :=
  match r with
  | .stacje => s.przetworzOdpowiedzStacje otwarty odpowiedz
  | .stanowiska => s.przetworzOdpowiedzStanowiska otwarty odpowiedz
  | .pomiary => s.przetworzOdpowiedzPomiary otwarty odpowiedz
  | .indeks => s.przetworzOdpowiedzIndeks otwarty odpowiedz

/-! ## More sample data -/

/-- The service right after construction, with no snapshot file read. -/
def serwisPusty {α : Type} : APIService α :=
  { cache := QCache.pusty, aktualneDane := [] }

/-- A service whose cache holds `stacjaA` under the station-list URL. -/
def serwisA {α : Type} [QDouble α] : APIService α :=
  { cache := cacheA, aktualneDane := [] }

/-- A reply to the plain station-list request with the stations `stacjaA` and
`stacjaK`. -/
def odpowiedzStacjeAK {α : Type} [QDouble α] : QNetworkReply α :=
  { error := none, url := urlFindAll, request := QNetworkRequest.prosty urlFindAll,
    readAll := QJsonDocument.array [stacjaA, stacjaK] }

/-- A reply to the plain station-list request whose body is the empty
object. -/
def odpowiedzObiekt {α : Type} : QNetworkReply α :=
  { error := none, url := urlFindAll, request := QNetworkRequest.prosty urlFindAll,
    readAll := QJsonDocument.object [] }

/-! ## The fetches by identifier and the radius search -/

/-- The text that `QString::arg(int)` puts in the place of `%1`: the number in
decimal. -/
def argInt (n : Int) : QString :=
  toString n

/-- The URL of `pobierzStanowiskaDlaStacji` (line 108). -/
def urlStanowiska (stacjaId : Int) : QString :=
  "https://api.gios.gov.pl/pjp-api/rest/station/sensors/" ++ argInt stacjaId

/-- The URL of `pobierzDanePomiarowe` (line 119). -/
def urlPomiary (stanowiskoId : Int) : QString :=
  "https://api.gios.gov.pl/pjp-api/rest/data/getData/" ++ argInt stanowiskoId

/-- The URL of `pobierzIndeksJakosciPowietrza` (line 130). -/
def urlIndeks (stacjaId : Int) : QString :=
  "https://api.gios.gov.pl/pjp-api/rest/aqindex/getIndex/" ++ argInt stacjaId

/-- `APIService::pobierzStanowiskaDlaStacji` (API_pobieranie.cpp:107-111). -/
def APIService.pobierzStanowiskaDlaStacji {α : Type} (stacjaId : Int) (s : APIService α) :
    APIService α × List (Efekt α) :=
  let url := urlStanowiska stacjaId
  let request : QNetworkRequest α := QNetworkRequest.prosty url
  (s, [Efekt.zadanie request])

/-- `APIService::pobierzDanePomiarowe` (API_pobieranie.cpp:118-122). -/
def APIService.pobierzDanePomiarowe {α : Type} (stanowiskoId : Int) (s : APIService α) :
    APIService α × List (Efekt α) :=
  let url := urlPomiary stanowiskoId
  let request : QNetworkRequest α := QNetworkRequest.prosty url
  (s, [Efekt.zadanie request])

/-- `APIService::pobierzIndeksJakosciPowietrza` (API_pobieranie.cpp:129-133). -/
def APIService.pobierzIndeksJakosciPowietrza {α : Type} (stacjaId : Int) (s : APIService α) :
    APIService α × List (Efekt α) :=
  let url := urlIndeks stacjaId
  let request : QNetworkRequest α := QNetworkRequest.prosty url
  (s, [Efekt.zadanie request])

/-- The request that `znajdzStacjeWPromieniu` builds when the station list is
not cached (lines 399-405): the station-list URL, the three attributes and the
header `X-Geo-Filtr: 1`. -/
def zadanieZPromieniem {α : Type} (lat lon promienKm : α) : QNetworkRequest α :=
  { url := urlFindAll, naglowekGeoFiltr := "1", atrybutUser := some lat,
    atrybutUserMax := some lon, atrybutHttpPipeliningAllowed := some promienKm }

/-- What the geocoding service gives `znajdzStacjeWPromieniu`: no geocoding
manager, a reply with an error, or the locations found (latitude and longitude
of each). -/
inductive WynikGeokodowania (α : Type) where
  | brakUslugi
  | blad (errorString : QString)
  | lokalizacje (locations : List (α × α))

/-- `APIService::znajdzStacjeWPromieniu` (API_pobieranie.cpp:368-412), with the
answer of the geocoding service as the parameter `geo`; the callback and the
worker run one after the other. -/
def APIService.znajdzStacjeWPromieniu {α : Type} [QDouble α]
    (stdSort : (QJsonObject α → QJsonObject α → Bool) → List (QJsonObject α) → List (QJsonObject α))
    (toDouble : QString → α) (geo : WynikGeokodowania α) (promienKm : α) (s : APIService α) :
    APIService α × List (Efekt α) :=
  match geo with
  | .brakUslugi =>
    (s, [Efekt.sygnal (Sygnal.blad "Nie można zainicjować usługi geokodowania")])
  | .blad errorString =>
    (s, [Efekt.sygnal (Sygnal.blad ("Błąd geokodowania: " ++ errorString))])
  | .lokalizacje [] =>
    (s, [Efekt.sygnal (Sygnal.blad "Nie znaleziono lokalizacji")])
  | .lokalizacje (coord :: _) =>
    if s.cache.contains urlFindAll then
      s.filtrujStacjeWPromieniu stdSort toDouble coord.1 coord.2 promienKm
    else
      (s, [Efekt.zadanie (zadanieZPromieniem coord.1 coord.2 promienKm)])

/-! ## The value `a` of the distance -/

/-- The local `a` of `obliczOdleglosc` (lines 429-431). -/
def wartoscA {α : Type} [QDouble α] (lat1 lon1 lat2 lon2 : α) : α :=
  let dLat := qDegreesToRadians (lat2 - lat1)
  let dLon := qDegreesToRadians (lon2 - lon1)
  qSin (dLat / lit 2) * qSin (dLat / lit 2) +
    qCos (qDegreesToRadians lat1) * qCos (qDegreesToRadians lat2) *
      qSin (dLon / lit 2) * qSin (dLon / lit 2)

/-! ## Measurements -/

/-- The call `QJsonValue::isNull()`. -/
def QJsonValue.isNull {α : Type} : QJsonValue α → Bool
  | .null => true
  | _ => false

/-- The members of `DanePomiarowe` (Dane_pomiarowe.h:90-94); `δ` is the type
`QDateTime`, and a `float` is given as the double of the same value. -/
structure DanePomiarowe (δ α : Type) where
  m_data : δ
  m_wartosc : α
  m_parametr : QString

/-- `DanePomiarowe::fromJson` (Dane_pomiarowe.cpp:35-41). The parameters are
`QDateTime::fromString(text, Qt::ISODate)` and the conversion
`static_cast<float>(double)`. -/
def DanePomiarowe.fromJson {δ α : Type} [QDouble α] (fromStringISO : QString → δ)
    (naFloat : α → α) (json : QJsonObject α) : DanePomiarowe δ α :=
  let data := fromStringISO (QJsonObject.value json "date").toQString
  let wartosc :=
    if (QJsonObject.value json "value").isNull then QDouble.lit 0
    else naFloat (QJsonObject.value json "value").toDouble
  let parametr := (QJsonObject.value json "key").toQString
  { m_data := data, m_wartosc := wartosc, m_parametr := parametr }

/-! ## Sample data for the last theorems -/

/-- A measurement with no reading: `value` is `null`. -/
def pomiarNull {α : Type} : QJsonObject α :=
  [("date", QJsonValue.string "2024-05-01 12:00:00"), ("value", QJsonValue.null)]

/-- The same measurement with the reading 0. -/
def pomiarZero {α : Type} [QDouble α] : QJsonObject α :=
  [("date", QJsonValue.string "2024-05-01 12:00:00"), ("value", QJsonValue.double (QDouble.lit 0))]

/-- A reply to the radius-tagged station-list request whose body is the empty
object. -/
def odpowiedzZPromieniemObiekt {α : Type} [QDouble α] : QNetworkReply α :=
  { error := none, url := urlFindAll,
    request := zadanieZPromieniem (QDouble.lit 52) (QDouble.lit 21) (QDouble.lit 10),
    readAll := QJsonDocument.object [] }

/-- A reply with a transport error. -/
def odpowiedzBladSieci {α : Type} : QNetworkReply α :=
  { error := some "Host not found", url := urlFindAll,
    request := QNetworkRequest.prosty urlFindAll, readAll := QJsonDocument.null }

/-- A reply to a measurement request whose body is an object without
`values`. -/
def odpowiedzPomiarBezValues {α : Type} : QNetworkReply α :=
  { error := none, url := "https://api.gios.gov.pl/pjp-api/rest/data/getData/92",
    request := QNetworkRequest.prosty "https://api.gios.gov.pl/pjp-api/rest/data/getData/92",
    readAll := QJsonDocument.object [("key", QJsonValue.string "PM10")] }

/-- A reply whose body is not valid JSON. -/
def odpowiedzNieJson {α : Type} : QNetworkReply α :=
  { error := none, url := urlFindAll, request := QNetworkRequest.prosty urlFindAll,
    readAll := QJsonDocument.null }

/-! ## `std::sort` as GNU libstdc++ 12 implements it

The functions of `bits/stl_algo.h` and `bits/stl_heap.h` that `std::sort`
runs, on the range given as a list and positions counted from its start. A loop
of the headers is a function by recursion on a bound of its turns. -/

/-- The comparison `comp(a, b)` of the elements at two positions. -/
def Gnu.porownaj {β : Type} (comp : β → β → Bool) (l : List β) (a b : Nat) : Bool :=
  match l[a]?, l[b]? with
  | some x, some y => comp x y
  | _, _ => false

/-- The call `std::iter_swap(a, b)`. -/
def Gnu.iterSwap {β : Type} (l : List β) (a b : Nat) : List β :=
  match l[a]?, l[b]? with
  | some x, some y => (l.set a y).set b x
  | _, _ => l

/-- The function `__move_median_to_first` (bits/stl_algo.h:82-101). -/
def Gnu.moveMedianToFirst {β : Type} (comp : β → β → Bool) (l : List β)
    (result a b c : Nat) : List β :=
  if Gnu.porownaj comp l a b then
    if Gnu.porownaj comp l b c then Gnu.iterSwap l result b
    else if Gnu.porownaj comp l a c then Gnu.iterSwap l result c
    else Gnu.iterSwap l result a
  else if Gnu.porownaj comp l a c then Gnu.iterSwap l result a
  else if Gnu.porownaj comp l b c then Gnu.iterSwap l result c
  else Gnu.iterSwap l result b

/-- The loop of `__unguarded_linear_insert`: `fuel` bounds the steps, which are
at most `last`. The source has no test for the start of the range; here the
loop also ends there. -/
def Gnu.unguardedLinearInsertLoop {β : Type} (comp : β → β → Bool) (val : β) :
    Nat → List β → Nat → List β
  | 0, l, last => l.set last val
  | fuel + 1, l, last =>
    if last = 0 then l.set last val
    else
      match l[last - 1]? with
      | some y =>
        if comp val y then Gnu.unguardedLinearInsertLoop comp val fuel (l.set last y) (last - 1)
        else l.set last val
      | none => l.set last val

/-- The function `__unguarded_linear_insert` (bits/stl_algo.h:1782-1797). -/
def Gnu.unguardedLinearInsert {β : Type} (comp : β → β → Bool) (l : List β) (last : Nat) :
    List β :=
  match l[last]? with
  | some val => Gnu.unguardedLinearInsertLoop comp val last l last
  | none => l

/-- The three statements of `__insertion_sort` that move `*i` to the front:
`val = *i; move_backward(first, i, i + 1); *first = val`. -/
def Gnu.moveToFront {β : Type} (l : List β) (first i : Nat) : List β :=
  match l[i]? with
  | some val => l.take first ++ val :: ((l.drop first).take (i - first) ++ l.drop (i + 1))
  | none => l

/-- The loop of `__insertion_sort` from position `i` on; `fuel` is the number
of positions left. -/
def Gnu.insertionSortLoop {β : Type} (comp : β → β → Bool) (first : Nat) :
    Nat → List β → Nat → List β
  | 0, l, _ => l
  | fuel + 1, l, i =>
    if Gnu.porownaj comp l i first then
      Gnu.insertionSortLoop comp first fuel (Gnu.moveToFront l first i) (i + 1)
    else
      Gnu.insertionSortLoop comp first fuel (Gnu.unguardedLinearInsert comp l i) (i + 1)

/-- The function `__insertion_sort` (bits/stl_algo.h:1802-1821). -/
def Gnu.insertionSort {β : Type} (comp : β → β → Bool) (l : List β) (first last : Nat) :
    List β :=
  if first = last then l
  else Gnu.insertionSortLoop comp first (last - (first + 1)) l (first + 1)

/-- The function `__unguarded_insertion_sort` (bits/stl_algo.h:1826-1832);
`fuel` is the number of positions left. -/
def Gnu.unguardedInsertionSort {β : Type} (comp : β → β → Bool) :
    Nat → List β → Nat → List β
  | 0, l, _ => l
  | fuel + 1, l, i =>
    Gnu.unguardedInsertionSort comp fuel (Gnu.unguardedLinearInsert comp l i) (i + 1)

/-- The constant `_S_threshold` (bits/stl_algo.h:1838). -/
def Gnu.S_threshold : Nat := 16

/-- The function `__final_insertion_sort` (bits/stl_algo.h:1844-1855). -/
def Gnu.finalInsertionSort {β : Type} (comp : β → β → Bool) (l : List β) (first last : Nat) :
    List β :=
  if last - first > Gnu.S_threshold then
    Gnu.unguardedInsertionSort comp (last - (first + Gnu.S_threshold))
      (Gnu.insertionSort comp l first (first + Gnu.S_threshold)) (first + Gnu.S_threshold)
  else Gnu.insertionSort comp l first last

/-- The loop `while (comp(first, pivot)) ++first;`. -/
def Gnu.naprzod {β : Type} (comp : β → β → Bool) (l : List β) (pivot : Nat) :
    Nat → Nat → Nat
  | 0, first => first
  | fuel + 1, first =>
    if Gnu.porownaj comp l first pivot then Gnu.naprzod comp l pivot fuel (first + 1) else first

/-- The loop `while (comp(pivot, last)) --last;`. -/
def Gnu.wstecz {β : Type} (comp : β → β → Bool) (l : List β) (pivot : Nat) :
    Nat → Nat → Nat
  | 0, last => last
  | fuel + 1, last =>
    if Gnu.porownaj comp l pivot last then Gnu.wstecz comp l pivot fuel (last - 1) else last

/-- The function `__unguarded_partition` (bits/stl_algo.h:1861-1878): the range
afterwards and the position returned. `fuel` bounds the turns of the outer
loop. -/
def Gnu.unguardedPartition {β : Type} (comp : β → β → Bool) (pivot : Nat) :
    Nat → List β → Nat → Nat → List β × Nat
  | 0, l, first, _ => (l, first)
  | fuel + 1, l, first, last =>
    let first1 := Gnu.naprzod comp l pivot l.length first
    let last1 := Gnu.wstecz comp l pivot l.length (last - 1)
    if first1 < last1 then
      Gnu.unguardedPartition comp pivot fuel (Gnu.iterSwap l first1 last1) (first1 + 1) last1
    else (l, first1)

/-- The function `__unguarded_partition_pivot` (bits/stl_algo.h:1883-1890). -/
def Gnu.unguardedPartitionPivot {β : Type} (comp : β → β → Bool) (l : List β)
    (first last : Nat) : List β × Nat :=
  let mid := first + (last - first) / 2
  let l1 := Gnu.moveMedianToFirst comp l first (first + 1) mid (last - 1)
  Gnu.unguardedPartition comp first l1.length l1 (first + 1) last

/-- The loop of `__push_heap` (bits/stl_heap.h:135-148); positions are counted
from `first`. -/
def Gnu.pushHeapLoop {β : Type} (comp : β → β → Bool) (first topIndex : Nat) (value : β) :
    Nat → List β → Nat → List β
  | 0, l, holeIndex => l.set (first + holeIndex) value
  | fuel + 1, l, holeIndex =>
    let parent := (holeIndex - 1) / 2
    match l[first + parent]? with
    | some p =>
      if topIndex < holeIndex && comp p value then
        Gnu.pushHeapLoop comp first topIndex value fuel (l.set (first + holeIndex) p) parent
      else l.set (first + holeIndex) value
    | none => l.set (first + holeIndex) value

/-- The function `__push_heap` (bits/stl_heap.h:135-148). -/
def Gnu.pushHeap {β : Type} (comp : β → β → Bool) (l : List β)
    (first holeIndex topIndex : Nat) (value : β) : List β :=
  Gnu.pushHeapLoop comp first topIndex value (holeIndex + 1) l holeIndex

/-- The first loop of `__adjust_heap` (bits/stl_heap.h:229-237): the range and
the values of `holeIndex` and `secondChild` afterwards. -/
def Gnu.adjustHeapLoop {β : Type} (comp : β → β → Bool) (first len : Nat) :
    Nat → List β → Nat → Nat → List β × Nat × Nat
  | 0, l, holeIndex, secondChild => (l, holeIndex, secondChild)
  | fuel + 1, l, holeIndex, secondChild =>
    if secondChild < (len - 1) / 2 then
      let sc := 2 * (secondChild + 1)
      let sc1 := if Gnu.porownaj comp l (first + sc) (first + (sc - 1)) then sc - 1 else sc
      match l[first + sc1]? with
      | some x => Gnu.adjustHeapLoop comp first len fuel (l.set (first + holeIndex) x) sc1 sc1
      | none => (l, holeIndex, secondChild)
    else (l, holeIndex, secondChild)

/-- The function `__adjust_heap` (bits/stl_heap.h:224-249). -/
def Gnu.adjustHeap {β : Type} (comp : β → β → Bool) (l : List β)
    (first holeIndex len : Nat) (value : β) : List β :=
  let topIndex := holeIndex
  let po := Gnu.adjustHeapLoop comp first len len l holeIndex holeIndex
  let l1 := po.1
  let holeIndex1 := po.2.1
  let secondChild1 := po.2.2
  if len % 2 = 0 ∧ secondChild1 = (len - 2) / 2 then
    let sc := 2 * (secondChild1 + 1)
    match l1[first + (sc - 1)]? with
    | some x =>
      Gnu.pushHeap comp (l1.set (first + holeIndex1) x) first (sc - 1) topIndex value
    | none => l1
  else Gnu.pushHeap comp l1 first holeIndex1 topIndex value

/-- The function `__pop_heap` (bits/stl_heap.h:254-268). -/
def Gnu.popHeap {β : Type} (comp : β → β → Bool) (l : List β) (first last result : Nat) :
    List β :=
  match l[result]?, l[first]? with
  | some value, some f => Gnu.adjustHeap comp (l.set result f) first 0 (last - first) value
  | _, _ => l

/-- The loop of `__make_heap` (bits/stl_heap.h:351-359). -/
def Gnu.makeHeapLoop {β : Type} (comp : β → β → Bool) (first len : Nat) :
    Nat → List β → List β
  | 0, l =>
    match l[first]? with
    | some value => Gnu.adjustHeap comp l first 0 len value
    | none => l
  | parent + 1, l =>
    match l[first + (parent + 1)]? with
    | some value =>
      Gnu.makeHeapLoop comp first len parent (Gnu.adjustHeap comp l first (parent + 1) len value)
    | none => l

/-- The function `__make_heap` (bits/stl_heap.h:340-360). -/
def Gnu.makeHeap {β : Type} (comp : β → β → Bool) (l : List β) (first last : Nat) : List β :=
  if last - first < 2 then l
  else Gnu.makeHeapLoop comp first (last - first) ((last - first - 2) / 2) l

/-- The function `__sort_heap` (bits/stl_heap.h:419-428); `fuel` bounds the
turns of the loop. -/
def Gnu.sortHeap {β : Type} (comp : β → β → Bool) (first : Nat) :
    Nat → List β → Nat → List β
  | 0, l, _ => l
  | fuel + 1, l, last =>
    if last - first > 1 then
      Gnu.sortHeap comp first fuel (Gnu.popHeap comp l first (last - 1) (last - 1)) (last - 1)
    else l

/-- The loop of `__heap_select` (bits/stl_algo.h:1630-1632). -/
def Gnu.heapSelectLoop {β : Type} (comp : β → β → Bool) (first middle : Nat) :
    Nat → List β → Nat → List β
  | 0, l, _ => l
  | fuel + 1, l, i =>
    if Gnu.porownaj comp l i first then
      Gnu.heapSelectLoop comp first middle fuel (Gnu.popHeap comp l first middle i) (i + 1)
    else Gnu.heapSelectLoop comp first middle fuel l (i + 1)

/-- The function `__heap_select` (bits/stl_algo.h:1625-1633). -/
def Gnu.heapSelect {β : Type} (comp : β → β → Bool) (l : List β) (first middle last : Nat) :
    List β :=
  Gnu.heapSelectLoop comp first middle (last - middle) (Gnu.makeHeap comp l first middle) middle

/-- The function `__partial_sort` (bits/stl_algo.h:1895-1902). -/
def Gnu.partialSort {β : Type} (comp : β → β → Bool) (l : List β) (first middle last : Nat) :
    List β :=
  Gnu.sortHeap comp first (middle - first) (Gnu.heapSelect comp l first middle last) middle

/-- The function `__introsort_loop` (bits/stl_algo.h:1908-1926), by recursion on
`depth_limit`; a turn of the loop is the call with `last = cut`. -/
def Gnu.introsortLoop {β : Type} (comp : β → β → Bool) :
    Nat → List β → Nat → Nat → List β
  | 0, l, first, last =>
    if last - first > Gnu.S_threshold then Gnu.partialSort comp l first last last else l
  | depthLimit + 1, l, first, last =>
    if last - first > Gnu.S_threshold then
      let po := Gnu.unguardedPartitionPivot comp l first last
      let l2 := Gnu.introsortLoop comp depthLimit po.1 po.2 last
      Gnu.introsortLoop comp depthLimit l2 first po.2
    else l

/-- The function `std::__lg` on a positive number: the position of its highest
bit; `fuel` bounds the halvings. -/
def Gnu.lgLoop : Nat → Nat → Nat
  | 0, _ => 0
  | fuel + 1, n => if 2 ≤ n then Gnu.lgLoop fuel (n / 2) + 1 else 0

/-- The function `std::__lg`. -/
def Gnu.lg (n : Nat) : Nat :=
  Gnu.lgLoop n n

/-- The function `std::sort` of GNU libstdc++, `__sort` (bits/stl_algo.h:1932-1942),
on the whole range. -/
def Gnu.sort {β : Type} (comp : β → β → Bool) (l : List β) : List β :=
  if l.length = 0 then l
  else
    Gnu.finalInsertionSort comp
      (Gnu.introsortLoop comp (Gnu.lg l.length * 2) l 0 l.length) 0 l.length

/-! ## Seventeen stations at one place -/

/-- The station number `nr` of a list of stations that all stand at the
coordinates 52.0, 21.0. -/
def stacjaNr {α : Type} [QDouble α] (nr : Nat) : QJsonValue α :=
  .object [("id", .double (QDouble.lit nr)), ("stationName", .string "Stacja"),
    ("gegrLat", .string "52.0"), ("gegrLon", .string "21.0"),
    ("city", .object [("id", .double (QDouble.lit 10)), ("name", .string "Warszawa")])]

/-- A cache holding the stations number 0 to 16, in this order, under the
station-list URL. -/
def cache17 {α : Type} [QDouble α] : QCache α :=
  { maxCost := 100, entries := [(urlFindAll, .array ((List.range 17).map stacjaNr))] }

/-! ## IEEE 754 doubles -/

/-- A value of the IEEE 754 format binary64: not a number, an infinity with its
sign, or a finite number. The two zeros are one value here; no operation of
`obliczOdleglosc` tells them apart. -/
inductive Binary64 where
  | nan
  | inf (ujemna : Bool)
  | liczba (q : ℚ)

/-- Rounding of a real to an integer, a tie to the even one. -/
noncomputable def doParzystej (x : ℝ) : ℤ :=
  if x - ⌊x⌋ < 1 / 2 then ⌊x⌋
  else if 1 / 2 < x - ⌊x⌋ then ⌊x⌋ + 1
  else if ⌊x⌋ % 2 = 0 then ⌊x⌋ else ⌊x⌋ + 1

/-- The rounding `roundTiesToEven` of IEEE 754 to binary64: 53 bits of
precision, least exponent -1022 (below it the numbers are subnormal), and
infinity from `2 ^ 1024` on. -/
noncomputable def zaokraglij (r : ℝ) : Binary64 :=
  if r = 0 then Binary64.liczba 0
  else
    let e : ℤ := max (Int.log 2 |r|) (-1022)
    let m : ℤ := doParzystej (|r| / (2 : ℝ) ^ (e - 52))
    let q : ℚ := (m : ℚ) * (2 : ℚ) ^ (e - 52)
    if (2 : ℚ) ^ (1024 : ℕ) ≤ q then Binary64.inf (decide (r < 0))
    else Binary64.liczba (if r < 0 then -q else q)

/-- The negation of a double. -/
def Binary64.neg : Binary64 → Binary64
  | .nan => .nan
  | .inf ujemna => .inf (!ujemna)
  | .liczba q => .liczba (-q)

/-- The addition of IEEE 754. -/
noncomputable def Binary64.add : Binary64 → Binary64 → Binary64
  | .nan, _ => .nan
  | _, .nan => .nan
  | .inf s, .inf t => if s = t then .inf s else .nan
  | .inf s, .liczba _ => .inf s
  | .liczba _, .inf t => .inf t
  | .liczba p, .liczba q => zaokraglij ((p + q : ℚ) : ℝ)

/-- The multiplication of IEEE 754. -/
noncomputable def Binary64.mul : Binary64 → Binary64 → Binary64
  | .nan, _ => .nan
  | _, .nan => .nan
  | .inf s, .inf t => .inf (s != t)
  | .inf s, .liczba q => if q = 0 then .nan else .inf (s != decide (q < 0))
  | .liczba p, .inf t => if p = 0 then .nan else .inf (decide (p < 0) != t)
  | .liczba p, .liczba q => zaokraglij ((p * q : ℚ) : ℝ)

/-- The division of IEEE 754; a zero divisor counts as the positive zero. -/
noncomputable def Binary64.div : Binary64 → Binary64 → Binary64
  | .nan, _ => .nan
  | _, .nan => .nan
  | .inf _, .inf _ => .nan
  | .inf s, .liczba q => .inf (s != decide (q < 0))
  | .liczba _, .inf _ => .liczba 0
  | .liczba p, .liczba q =>
    if q = 0 then (if p = 0 then .nan else .inf (decide (p < 0)))
    else zaokraglij ((p / q : ℚ) : ℝ)

/-- The sine, rounded correctly. -/
noncomputable def Binary64.sin : Binary64 → Binary64
  | .liczba q => zaokraglij (Real.sin (q : ℝ))
  | _ => .nan

/-- The cosine, rounded correctly. -/
noncomputable def Binary64.cos : Binary64 → Binary64
  | .liczba q => zaokraglij (Real.cos (q : ℝ))
  | _ => .nan

/-- The square root of IEEE 754: not a number below zero. -/
noncomputable def Binary64.sqrt : Binary64 → Binary64
  | .nan => .nan
  | .inf ujemna => if ujemna then .nan else .inf false
  | .liczba q => if q < 0 then .nan else zaokraglij (Real.sqrt (q : ℝ))

/-- The function `atan2(y, x)` of the C library (C11 F.10.1.4), rounded
correctly; a zero counts as the positive zero. -/
noncomputable def Binary64.atan2 : Binary64 → Binary64 → Binary64
  | .nan, _ => .nan
  | _, .nan => .nan
  | .inf s, .inf t =>
    if t then zaokraglij (if s then -(3 * Real.pi / 4) else 3 * Real.pi / 4)
    else zaokraglij (if s then -(Real.pi / 4) else Real.pi / 4)
  | .inf s, .liczba _ => zaokraglij (if s then -(Real.pi / 2) else Real.pi / 2)
  | .liczba y, .inf t =>
    if t then zaokraglij (if y < 0 then -Real.pi else Real.pi) else .liczba 0
  | .liczba y, .liczba x => zaokraglij (Complex.arg ⟨(x : ℝ), (y : ℝ)⟩)

/-- The comparison `x < y` of IEEE 754: false when one side is not a number. -/
def Binary64.lt : Binary64 → Binary64 → Bool
  | .nan, _ => false
  | _, .nan => false
  | .inf s, .inf t => s && !t
  | .inf s, .liczba _ => s
  | .liczba _, .inf t => !t
  | .liczba p, .liczba q => decide (p < q)

/-- The comparison `x <= y` of IEEE 754: false when one side is not a number. -/
def Binary64.le : Binary64 → Binary64 → Bool
  | .nan, _ => false
  | _, .nan => false
  | .inf s, .inf t => s || !t
  | .inf s, .liczba _ => s
  | .liczba _, .inf t => !t
  | .liczba p, .liczba q => decide (p ≤ q)

/-- The comparison `x == y` of IEEE 754: false when one side is not a number. -/
def Binary64.rowne : Binary64 → Binary64 → Bool
  | .nan, _ => false
  | _, .nan => false
  | .inf s, .inf t => s == t
  | .inf _, .liczba _ => false
  | .liczba _, .inf _ => false
  | .liczba p, .liczba q => decide (p = q)

/-- IEEE 754 doubles with the elementary functions rounded correctly; `M_PI` is
the literal `3.14159265358979323846` of the C headers, rounded as the compiler
rounds it. -/
noncomputable instance instQDoubleBinary64 : QDouble Binary64 where
  add := Binary64.add
  sub x y := Binary64.add x (Binary64.neg y)
  mul := Binary64.mul
  div := Binary64.div
  lit n := zaokraglij (n : ℝ)
  pi := zaokraglij (314159265358979323846 / 100000000000000000000)
  qSin := Binary64.sin
  qCos := Binary64.cos
  qSqrt := Binary64.sqrt
  qAtan2 := Binary64.atan2
  lt := Binary64.lt
  le := Binary64.le

/-! ## Theorems: JSON objects -/

theorem QJsonObject.lookup_insert_same {α : Type} (o : QJsonObject α) (key : QString)
    (v : QJsonValue α) : List.lookup key (QJsonObject.insert o key v) = some v := by
  induction o with
  | nil => simp [QJsonObject.insert, List.lookup]
  | cons p rest ih =>
    obtain ⟨k, w⟩ := p
    unfold QJsonObject.insert
    split
    · simp [List.lookup]
    · rename_i hk
      have hk2 : (key == k) = false := by
        simpa using fun h : key = k => hk h.symm
      simpa [List.lookup, hk2] using ih

theorem QJsonObject.lookup_insert_other {α : Type} (o : QJsonObject α) (key other : QString)
    (v : QJsonValue α) (hne : other ≠ key) :
    List.lookup other (QJsonObject.insert o key v) = List.lookup other o := by
  induction o with
  | nil =>
    have : (other == key) = false := by simpa using hne
    simp [QJsonObject.insert, List.lookup, this]
  | cons p rest ih =>
    obtain ⟨k, w⟩ := p
    unfold QJsonObject.insert
    split
    · rename_i hk
      subst hk
      have : (other == k) = false := by simpa using hne
      simp [List.lookup, this]
    · cases hok : other == k
      · simpa [List.lookup, hok] using ih
      · simp [List.lookup, hok]

theorem QJsonObject.value_insert_same {α : Type} (o : QJsonObject α) (key : QString)
    (v : QJsonValue α) : QJsonObject.value (QJsonObject.insert o key v) key = v := by
  unfold QJsonObject.value
  rw [QJsonObject.lookup_insert_same]

theorem QJsonObject.value_insert_other {α : Type} (o : QJsonObject α) (key other : QString)
    (v : QJsonValue α) (hne : other ≠ key) :
    QJsonObject.value (QJsonObject.insert o key v) other = QJsonObject.value o other := by
  unfold QJsonObject.value
  rw [QJsonObject.lookup_insert_other _ _ _ _ hne]

/-- Reading a string through the reference gives what `value(key)` gives. -/
theorem QJsonObject.index_snd_toQString {α : Type} (o : QJsonObject α) (key : QString) :
    (QJsonObject.index o key).2.toQString = (QJsonObject.value o key).toQString := by
  unfold QJsonObject.index QJsonObject.value
  cases List.lookup key o <;> rfl

/-- Reading an object through the reference gives what `value(key)` gives. -/
theorem QJsonObject.index_snd_toObject {α : Type} (o : QJsonObject α) (key : QString) :
    (QJsonObject.index o key).2.toObject = (QJsonObject.value o key).toObject := by
  unfold QJsonObject.index QJsonObject.value
  cases List.lookup key o <;> rfl

/-- The access leaves an object that has the key as it is. -/
theorem QJsonObject.index_fst_of_contains {α : Type} (o : QJsonObject α) (key : QString)
    (h : QJsonObject.contains o key = true) : (QJsonObject.index o key).1 = o := by
  unfold QJsonObject.contains at h
  unfold QJsonObject.index
  cases hl : List.lookup key o
  · rw [hl] at h
    exact absurd h (by simp)
  · rfl

theorem QJsonObject.lookup_index_fst_same {α : Type} (o : QJsonObject α) (key : QString) :
    List.lookup key (QJsonObject.index o key).1 = some (QJsonObject.index o key).2 := by
  unfold QJsonObject.index
  cases hl : List.lookup key o
  · exact QJsonObject.lookup_insert_same o key QJsonValue.null
  · exact hl

theorem QJsonObject.lookup_index_fst_other {α : Type} (o : QJsonObject α) (key other : QString)
    (hne : other ≠ key) :
    List.lookup other (QJsonObject.index o key).1 = List.lookup other o := by
  unfold QJsonObject.index
  cases hl : List.lookup key o
  · exact QJsonObject.lookup_insert_other o key other QJsonValue.null hne
  · rfl

/-- The access keeps every member the object has. -/
theorem QJsonObject.lookup_index_fst_of_contains {α : Type} (o : QJsonObject α)
    (key other : QString) (h : QJsonObject.contains o other = true) :
    List.lookup other (QJsonObject.index o key).1 = List.lookup other o := by
  by_cases hne : other = key
  · subst hne
    rw [QJsonObject.index_fst_of_contains o other h]
  · exact QJsonObject.lookup_index_fst_other o key other hne

/-- A second access by the same key changes nothing. -/
theorem QJsonObject.index_index_fst {α : Type} (o : QJsonObject α) (key : QString) :
    QJsonObject.index (QJsonObject.index o key).1 key = QJsonObject.index o key := by
  have h := QJsonObject.lookup_index_fst_same o key
  generalize QJsonObject.index o key = r at h ⊢
  unfold QJsonObject.index
  rw [h]

/-! ## Theorems: city filter -/

/-- `qContains` decides the substring relation on the characters. -/
theorem qContains_iff (s sub : QString) :
    qContains s sub = true ↔ sub.toList <:+: s.toList := by
  unfold qContains
  rw [List.any_eq_true, List.infix_iff_prefix_suffix]
  constructor
  · rintro ⟨t, ht, hp⟩
    exact ⟨t, List.isPrefixOf_iff_prefix.mp hp, (List.mem_tails _ _).mp ht⟩
  · rintro ⟨t, hp, ht⟩
    exact ⟨t, (List.mem_tails _ _).mpr ht, List.isPrefixOf_iff_prefix.mpr hp⟩

theorem object_toObject {α : Type} (v : QJsonValue α) (h : v.isObject = true) :
    QJsonValue.object v.toObject = v := by
  cases v <;> simp_all [QJsonValue.isObject, QJsonValue.toObject]

/-- The test gives the same answer on the object the filter appends. -/
theorem miastoPasuje_appended {α : Type} (toLower : QString → QString)
    (miasto : QString) (v : QJsonValue α) :
    miastoPasuje toLower miasto (QJsonValue.object (QJsonObject.index v.toObject "city").1) =
      miastoPasuje toLower miasto v := by
  simp only [miastoPasuje, QJsonValue.toObject, QJsonObject.index_index_fst]

theorem miastoPasuje_iff {α : Type} (toLower : QString → QString)
    (miasto : QString) (v : QJsonValue α) :
    miastoPasuje toLower miasto v = true ↔
      (toLower miasto).toList <:+: (toLower (nazwaMiasta v)).toList := by
  simp only [miastoPasuje, nazwaMiasta, qContains_iff, QJsonObject.index_snd_toQString,
    QJsonObject.index_snd_toObject]

/-- The filter keeps the matching elements, each as the object it is after the
access to `city`. -/
theorem filtrujStacjePoMiescie_eq_map_filter {α : Type} (toLower : QString → QString)
    (stacje : QJsonArray α) (miasto : QString) :
    filtrujStacjePoMiescie toLower stacje miasto =
      (stacje.filter (miastoPasuje toLower miasto)).map
        (fun v => QJsonValue.object (QJsonObject.index v.toObject "city").1) := by
  induction stacje with
  | nil => rfl
  | cons v rest ih =>
    unfold filtrujStacjePoMiescie at ih ⊢
    cases h : miastoPasuje toLower miasto v <;> simp [List.filterMap_cons, List.filter_cons, h, ih]

/-- On an array of objects that have a `city` member the filter is
`List.filter`. -/
theorem filtrujStacjePoMiescie_eq_filter {α : Type} (toLower : QString → QString)
    (stacje : QJsonArray α) (miasto : QString)
    (hst : ∀ v ∈ stacje, v.isObject = true ∧ QJsonObject.contains v.toObject "city" = true) :
    filtrujStacjePoMiescie toLower stacje miasto = stacje.filter (miastoPasuje toLower miasto) := by
  rw [filtrujStacjePoMiescie_eq_map_filter]
  conv_rhs => rw [← List.map_id (stacje.filter (miastoPasuje toLower miasto))]
  apply List.map_congr_left
  intro v hv
  have h := hst v (List.mem_of_mem_filter hv)
  rw [QJsonObject.index_fst_of_contains _ _ h.2]
  exact object_toObject v h.1

/-- C1. For an array of stations (objects with a `city` member) and any query,
a station is in the output of `filtrujStacjePoMiescie` if and only if it is in
the input and its `city.name`, lower-cased, contains the lower-cased query. -/
theorem filtrujStacjePoMiescie_mem_iff {α : Type} (toLower : QString → QString)
    (stacje : QJsonArray α) (miasto : QString)
    (hst : ∀ v ∈ stacje, v.isObject = true ∧ QJsonObject.contains v.toObject "city" = true)
    (s : QJsonValue α) :
    s ∈ filtrujStacjePoMiescie toLower stacje miasto ↔
      s ∈ stacje ∧ (toLower miasto).toList <:+: (toLower (nazwaMiasta s)).toList := by
  rw [filtrujStacjePoMiescie_eq_filter toLower stacje miasto hst, List.mem_filter,
    miastoPasuje_iff]

/-- C2. For an array of stations (objects with a `city` member) and any query,
the output of `filtrujStacjePoMiescie` is the input with the stations that do
not match left out: it lists exactly the stations whose `city.name`, lower-cased,
contains the lower-cased query, each as often as the input has it and in the
order of the input. So the output is a subsequence of the input. -/
theorem filtrujStacjePoMiescie_matching_in_order {α : Type} (toLower : QString → QString)
    (stacje : QJsonArray α) (miasto : QString)
    (hst : ∀ v ∈ stacje, v.isObject = true ∧ QJsonObject.contains v.toObject "city" = true) :
    filtrujStacjePoMiescie toLower stacje miasto =
        stacje.filter (fun v =>
          decide ((toLower miasto).toList <:+: (toLower (nazwaMiasta v)).toList)) ∧
      List.Sublist (filtrujStacjePoMiescie toLower stacje miasto) stacje := by
  have hfilter : stacje.filter (miastoPasuje toLower miasto) =
      stacje.filter (fun v =>
        decide ((toLower miasto).toList <:+: (toLower (nazwaMiasta v)).toList)) := by
    apply List.filter_congr
    intro v _
    rw [Bool.eq_iff_iff, miastoPasuje_iff, decide_eq_true_eq]
  rw [filtrujStacjePoMiescie_eq_filter toLower stacje miasto hst]
  exact ⟨hfilter, List.filter_sublist stacje⟩

/-- C3. `filtrujStacjePoMiescie` is idempotent: filtering its output again by
the same query gives the same array. -/
theorem filtrujStacjePoMiescie_idempotent {α : Type} (toLower : QString → QString)
    (stacje : QJsonArray α) (miasto : QString) :
    filtrujStacjePoMiescie toLower (filtrujStacjePoMiescie toLower stacje miasto) miasto =
      filtrujStacjePoMiescie toLower stacje miasto := by
  induction stacje with
  | nil => rfl
  | cons v rest ih =>
    unfold filtrujStacjePoMiescie at ih ⊢
    cases h : miastoPasuje toLower miasto v
    · simpa [List.filterMap_cons, h] using ih
    · simp only [List.filterMap_cons, h, if_true, miastoPasuje_appended]
      rw [ih]
      simp [QJsonValue.toObject, QJsonObject.index_index_fst]

/-! ## Theorems: the sorting routine -/

theorem StrictWeakOn.asymm {β : Type} {comp : β → β → Bool} {l : List β}
    (h : StrictWeakOn comp l) {a b : β} (ha : a ∈ l) (hb : b ∈ l) (hab : comp a b = true) :
    comp b a = false := by
  cases hba : comp b a
  · rfl
  · have := h.2.1 a ha b hb a ha hab hba
    rw [h.1 a ha] at this
    exact absurd this (by simp)

theorem StrictWeakOn.mono {β : Type} {comp : β → β → Bool} {l l2 : List β}
    (h : StrictWeakOn comp l) (hsub : ∀ a ∈ l2, a ∈ l) : StrictWeakOn comp l2 :=
  ⟨fun a ha => h.1 a (hsub a ha),
   fun a ha b hb c hc => h.2.1 a (hsub a ha) b (hsub b hb) c (hsub c hc),
   fun a ha b hb c hc => h.2.2 a (hsub a ha) b (hsub b hb) c (hsub c hc)⟩

theorem insertLate_perm {β : Type} (comp : β → β → Bool) (x : β) (l : List β) :
    (insertLate comp x l).Perm (x :: l) := by
  induction l with
  | nil => exact List.Perm.refl _
  | cons y ys ih =>
    unfold insertLate
    split
    · exact List.Perm.refl _
    · exact (List.Perm.cons y ih).trans (List.Perm.swap x y ys)

theorem insertionSortLate_perm {β : Type} (comp : β → β → Bool) (l : List β) :
    (insertionSortLate comp l).Perm l := by
  induction l with
  | nil => exact List.Perm.refl _
  | cons x xs ih =>
    show (insertLate comp x (insertionSortLate comp xs)).Perm (x :: xs)
    exact (insertLate_perm comp x _).trans (List.Perm.cons x ih)

theorem insertLate_pairwise {β : Type} (comp : β → β → Bool) (x : β) (l : List β)
    (hsw : StrictWeakOn comp (x :: l)) (hs : l.Pairwise (fun a b => comp b a = false)) :
    (insertLate comp x l).Pairwise (fun a b => comp b a = false) := by
  induction l with
  | nil => simp [insertLate]
  | cons y ys ih =>
    have hx : x ∈ x :: y :: ys := List.mem_cons_self _ _
    have hy : y ∈ x :: y :: ys := List.mem_cons_of_mem _ (List.mem_cons_self _ _)
    rw [List.pairwise_cons] at hs
    unfold insertLate
    split
    · rename_i hxy
      refine List.Pairwise.cons ?_ (List.Pairwise.cons hs.1 hs.2)
      intro b hb
      rcases List.mem_cons.mp hb with rfl | hbys
      · exact hsw.asymm hx hy hxy
      · have hbm : b ∈ x :: y :: ys := List.mem_cons_of_mem _ (List.mem_cons_of_mem _ hbys)
        cases hbx : comp b x
        · rfl
        · have hby := hsw.2.1 b hbm x hx y hy hbx hxy
          rw [hs.1 b hbys] at hby
          exact absurd hby (by simp)
    · rename_i hxy
      have hxy2 : comp x y = false := by simpa using hxy
      refine List.Pairwise.cons ?_ ?_
      · intro b hb
        rcases List.mem_cons.mp ((insertLate_perm comp x ys).mem_iff.mp hb) with rfl | hbys
        · exact hxy2
        · exact hs.1 b hbys
      · apply ih _ hs.2
        apply hsw.mono
        intro a ha
        rcases List.mem_cons.mp ha with rfl | h2
        · exact hx
        · exact List.mem_cons_of_mem _ (List.mem_cons_of_mem _ h2)

theorem insertionSortLate_pairwise {β : Type} (comp : β → β → Bool) (l : List β)
    (hsw : StrictWeakOn comp l) :
    (insertionSortLate comp l).Pairwise (fun a b => comp b a = false) := by
  induction l with
  | nil => exact List.Pairwise.nil
  | cons x xs ih =>
    show (insertLate comp x (insertionSortLate comp xs)).Pairwise _
    apply insertLate_pairwise
    · apply hsw.mono
      intro a ha
      rcases List.mem_cons.mp ha with rfl | h2
      · exact List.mem_cons_self _ _
      · exact List.mem_cons_of_mem _ ((insertionSortLate_perm comp xs).mem_iff.mp h2)
    · exact ih (hsw.mono (fun a ha => List.mem_cons_of_mem _ ha))

/-- The sorting routine `insertionSortLate` gives what `std::sort` guarantees. -/
theorem insertionSortLate_spec {β : Type} :
    StdSortSpec (insertionSortLate : (β → β → Bool) → List β → List β) :=
  fun comp l hsw => ⟨insertionSortLate_perm comp l, insertionSortLate_pairwise comp l hsw⟩

/-! ## Theorems: comparisons of doubles -/

theorem DoubleOrderLaws.le_of_not_lt {α : Type} [QDouble α] (laws : DoubleOrderLaws α)
    {x y : α} (hx : QDouble.le x x = true) (hy : QDouble.le y y = true)
    (h : QDouble.lt y x = false) : QDouble.le x y = true := by
  rcases laws.le_total x y hx hy with hxy | hyx
  · exact hxy
  · cases hxy : QDouble.le x y
    · have := (laws.lt_iff y x).mpr ⟨hyx, hxy⟩
      rw [h] at this
      exact absurd this (by simp)
    · rfl

/-- The order laws hold in exact real arithmetic. -/
theorem doubleOrderLaws_real : DoubleOrderLaws ℝ where
  lt_iff x y := by
    show decide (x < y) = true ↔ (decide (x ≤ y) = true ∧ decide (y ≤ x) = false)
    simp only [decide_eq_true_eq, decide_eq_false_iff_not, not_le]
    exact ⟨fun h => ⟨le_of_lt h, h⟩, fun h => h.2⟩
  le_trans x y z := by
    show decide (x ≤ y) = true → decide (y ≤ z) = true → decide (x ≤ z) = true
    simp only [decide_eq_true_eq]
    exact le_trans
  le_total x y _ _ := by
    show decide (x ≤ y) = true ∨ decide (y ≤ x) = true
    simp only [decide_eq_true_eq]
    exact le_total x y
  le_self_of_le x y _ := by
    show decide (x ≤ x) = true
    simp

/-- A comparator that compares non-NaN keys with `<` is a strict weak ordering. -/
theorem strictWeakOn_of_keys {α β : Type} [QDouble α] (laws : DoubleOrderLaws α)
    (key : β → α) (l : List β) (hkey : ∀ b ∈ l, QDouble.le (key b) (key b) = true) :
    StrictWeakOn (fun a b => QDouble.lt (key a) (key b)) l := by
  have hirr : ∀ x : α, QDouble.lt x x = false := by
    intro x
    cases h : QDouble.lt x x
    · rfl
    · have := (laws.lt_iff x x).mp h
      rw [this.1] at this
      exact absurd this.2 (by simp)
  refine ⟨fun a _ => hirr _, ?_, ?_⟩
  · intro a _ b _ c _ hab hbc
    have h1 := (laws.lt_iff _ _).mp hab
    have h2 := (laws.lt_iff _ _).mp hbc
    apply (laws.lt_iff _ _).mpr
    refine ⟨laws.le_trans _ _ _ h1.1 h2.1, ?_⟩
    cases hca : QDouble.le (key c) (key a)
    · rfl
    · have := laws.le_trans _ _ _ hca h1.1
      rw [h2.2] at this
      exact absurd this (by simp)
  · intro a ha b hb c hc hab hbc
    have hba := laws.le_of_not_lt (hkey b hb) (hkey a ha) hab
    have hcb := laws.le_of_not_lt (hkey c hc) (hkey b hb) hbc
    have hca := laws.le_trans _ _ _ hcb hba
    show QDouble.lt (key a) (key c) = false
    cases hac : QDouble.lt (key a) (key c)
    · rfl
    · have := ((laws.lt_iff _ _).mp hac).2
      rw [hca] at this
      exact absurd this (by simp)

/-! ## Theorems: radius filter -/

theorem map_filterMap_ite {β γ δ : Type} (p : β → Bool) (g : β → γ) (f : γ → δ) (l : List β) :
    (l.filterMap (fun v => if p v = true then some (g v) else none)).map f =
      (l.filter p).map (fun v => f (g v)) := by
  induction l with
  | nil => rfl
  | cons v rest ih =>
    cases h : p v <;> simp [List.filterMap_cons, List.filter_cons, h, ih]

/-- The objects handed to `std::sort`: the stations within the radius, in cache
order, each with its distance attached. -/
theorem filtrujStacjeWPromieniu_eq {α : Type} [QDouble α]
    (stdSort : (QJsonObject α → QJsonObject α → Bool) → List (QJsonObject α) → List (QJsonObject α))
    (toDouble : QString → α) (cache : QCache α) (doc : QJsonDocument α)
    (hdoc : cache.object urlFindAll = some doc) (lat lon promienKm : α) :
    filtrujStacjeWPromieniu stdSort toDouble cache lat lon promienKm =
      some ((stdSort mniejszaOdleglosc
        ((doc.toArray.filter
            (fun v => QDouble.le (odlegloscStacji toDouble lat lon v) promienKm)).map
          (fun v => (zOdlegloscia toDouble lat lon v).toObject))).map QJsonValue.object) := by
  unfold filtrujStacjeWPromieniu
  simp only [QCache.contains, hdoc, Option.isSome_some]
  simp only [Bool.true_eq_false, if_false]
  rw [map_filterMap_ite]
  rfl

/-- The distance of the loop body is `obliczOdleglosc` from the reference to
the coordinates read from `gegrLat` and `gegrLon` of the cached element. -/
theorem odlegloscStacji_eq {α : Type} [QDouble α] (toDouble : QString → α) (lat lon : α)
    (val : QJsonValue α) :
    odlegloscStacji toDouble lat lon val =
      obliczOdleglosc lat lon
        (toDouble (QJsonObject.value val.toObject "gegrLat").toQString)
        (toDouble (QJsonObject.value val.toObject "gegrLon").toQString) := by
  have h : QJsonObject.value (QJsonObject.index val.toObject "gegrLat").1 "gegrLon" =
      QJsonObject.value val.toObject "gegrLon" := by
    unfold QJsonObject.value
    rw [QJsonObject.lookup_index_fst_other _ _ _ (by decide)]
  simp only [odlegloscStacji, QJsonObject.index_snd_toQString, h]

/-- The accesses to the coordinates leave a station that has both members as
it is. -/
theorem stacjaPoOdczycie_of_contains {α : Type} (val : QJsonValue α)
    (hlat : QJsonObject.contains val.toObject "gegrLat" = true)
    (hlon : QJsonObject.contains val.toObject "gegrLon" = true) :
    stacjaPoOdczycie val = val.toObject := by
  unfold stacjaPoOdczycie
  rw [QJsonObject.index_fst_of_contains _ _ hlat, QJsonObject.index_fst_of_contains _ _ hlon]

/-- The accesses to the coordinates keep every member the station has, and
every key other than `gegrLat` and `gegrLon`. -/
theorem value_stacjaPoOdczycie {α : Type} (val : QJsonValue α) (key : QString)
    (h : QJsonObject.contains val.toObject key = true ∨ (key ≠ "gegrLat" ∧ key ≠ "gegrLon")) :
    QJsonObject.value (stacjaPoOdczycie val) key = QJsonObject.value val.toObject key := by
  unfold QJsonObject.value stacjaPoOdczycie
  rcases h with h | ⟨h1, h2⟩
  · have h3 : QJsonObject.contains (QJsonObject.index val.toObject "gegrLat").1 key = true := by
      unfold QJsonObject.contains
      rw [QJsonObject.lookup_index_fst_of_contains _ _ _ h]
      exact h
    rw [QJsonObject.lookup_index_fst_of_contains _ _ _ h3,
      QJsonObject.lookup_index_fst_of_contains _ _ _ h]
  · rw [QJsonObject.lookup_index_fst_other _ _ _ h2, QJsonObject.lookup_index_fst_other _ _ _ h1]

theorem poleDistance_zOdlegloscia {α : Type} [QDouble α] (toDouble : QString → α)
    (lat lon : α) (val : QJsonValue α) :
    poleDistance (zOdlegloscia toDouble lat lon val) = odlegloscStacji toDouble lat lon val := by
  unfold poleDistance zOdlegloscia
  simp only [QJsonValue.toObject]
  rw [QJsonObject.value_insert_same]
  rfl

/-- What `std::sort` returns in `filtrujStacjeWPromieniu`: a rearrangement of
the retained stations with no later element strictly nearer than an earlier
one. -/
theorem filtrujStacjeWPromieniu_sorted {α : Type} [QDouble α]
    (stdSort : (QJsonObject α → QJsonObject α → Bool) → List (QJsonObject α) → List (QJsonObject α))
    (hsort : StdSortSpec stdSort) (laws : DoubleOrderLaws α)
    (toDouble : QString → α) (cache : QCache α) (doc : QJsonDocument α)
    (hdoc : cache.object urlFindAll = some doc) (lat lon promienKm : α) :
    ∃ out, filtrujStacjeWPromieniu stdSort toDouble cache lat lon promienKm = some out ∧
      out.Perm ((doc.toArray.filter
        (fun v => QDouble.le (odlegloscStacji toDouble lat lon v) promienKm)).map
          (zOdlegloscia toDouble lat lon)) ∧
      out.Pairwise (fun a b => QDouble.lt (poleDistance b) (poleDistance a) = false) := by
  refine ⟨_, filtrujStacjeWPromieniu_eq stdSort toDouble cache doc hdoc lat lon promienKm, ?_, ?_⟩
  all_goals
    have hsw : StrictWeakOn (mniejszaOdleglosc : QJsonObject α → QJsonObject α → Bool)
        ((doc.toArray.filter
            (fun v => QDouble.le (odlegloscStacji toDouble lat lon v) promienKm)).map
          (fun v => (zOdlegloscia toDouble lat lon v).toObject)) := by
      apply strictWeakOn_of_keys laws (fun o => poleDistance (QJsonValue.object o))
      intro o ho
      obtain ⟨v, hv, rfl⟩ := List.mem_map.mp ho
      have hle := (List.mem_filter.mp hv).2
      have hd : poleDistance (QJsonValue.object (zOdlegloscia toDouble lat lon v).toObject) =
          odlegloscStacji toDouble lat lon v := poleDistance_zOdlegloscia toDouble lat lon v
      rw [hd]
      exact laws.le_self_of_le _ _ hle
    have hs := hsort _ _ hsw
  · have := hs.1.map QJsonValue.object
    rw [List.map_map] at this
    exact this
  · rw [List.pairwise_map]
    exact hs.2

/-- C4. With the station list cached, `filtrujStacjeWPromieniu` emits exactly
the cached stations whose distance from the reference is `<=` the radius
(boundary included), each once and with its distance attached: the emitted
list is a rearrangement of the retained stations of the cached list. -/
theorem filtrujStacjeWPromieniu_exactly_within_radius {α : Type} [QDouble α]
    (stdSort : (QJsonObject α → QJsonObject α → Bool) → List (QJsonObject α) → List (QJsonObject α))
    (hsort : StdSortSpec stdSort) (laws : DoubleOrderLaws α)
    (toDouble : QString → α) (cache : QCache α) (doc : QJsonDocument α)
    (hdoc : cache.object urlFindAll = some doc) (lat lon promienKm : α) :
    ∃ out, filtrujStacjeWPromieniu stdSort toDouble cache lat lon promienKm = some out ∧
      out.Perm ((doc.toArray.filter (fun val =>
          QDouble.le
            (obliczOdleglosc lat lon
              (toDouble (QJsonObject.value val.toObject "gegrLat").toQString)
              (toDouble (QJsonObject.value val.toObject "gegrLon").toQString))
            promienKm)).map (zOdlegloscia toDouble lat lon)) := by
  obtain ⟨out, h1, h2, _⟩ :=
    filtrujStacjeWPromieniu_sorted stdSort hsort laws toDouble cache doc hdoc lat lon promienKm
  simp only [odlegloscStacji_eq] at h2
  exact ⟨out, h1, h2⟩

/-- C5. With the station list cached, the list `filtrujStacjeWPromieniu` emits
is sorted non-decreasing by the attached distance: the distance of every
station is `<=` that of each station after it. -/
theorem filtrujStacjeWPromieniu_sorted_by_distance {α : Type} [QDouble α]
    (stdSort : (QJsonObject α → QJsonObject α → Bool) → List (QJsonObject α) → List (QJsonObject α))
    (hsort : StdSortSpec stdSort) (laws : DoubleOrderLaws α)
    (toDouble : QString → α) (cache : QCache α) (doc : QJsonDocument α)
    (hdoc : cache.object urlFindAll = some doc) (lat lon promienKm : α) :
    ∃ out, filtrujStacjeWPromieniu stdSort toDouble cache lat lon promienKm = some out ∧
      out.Pairwise (fun a b =>
        QDouble.le (QJsonObject.value a.toObject "distance").toDouble
          (QJsonObject.value b.toObject "distance").toDouble = true) := by
  obtain ⟨out, h1, h2, h3⟩ :=
    filtrujStacjeWPromieniu_sorted stdSort hsort laws toDouble cache doc hdoc lat lon promienKm
  refine ⟨out, h1, h3.imp_of_mem ?_⟩
  intro a b ha hb hab
  have hnan : ∀ e ∈ out, QDouble.le (poleDistance e) (poleDistance e) = true := by
    intro e he
    obtain ⟨v, hv, rfl⟩ := List.mem_map.mp (h2.mem_iff.mp he)
    rw [poleDistance_zOdlegloscia]
    exact laws.le_self_of_le _ _ (List.mem_filter.mp hv).2
  exact laws.le_of_not_lt (hnan a ha) (hnan b hb) hab

/-- C8. Every station `filtrujStacjeWPromieniu` emits comes from a cached
station: its field `distance` is `obliczOdleglosc` from the reference to the
`gegrLat`/`gegrLon` of the station, every other field of the cached station
reads unchanged, and when the cached station has the members `gegrLat` and
`gegrLon` the emitted station equals the cached object with `distance` set. -/
theorem filtrujStacjeWPromieniu_attaches_distance {α : Type} [QDouble α]
    (stdSort : (QJsonObject α → QJsonObject α → Bool) → List (QJsonObject α) → List (QJsonObject α))
    (hsort : StdSortSpec stdSort) (laws : DoubleOrderLaws α)
    (toDouble : QString → α) (cache : QCache α) (doc : QJsonDocument α)
    (hdoc : cache.object urlFindAll = some doc) (lat lon promienKm : α) :
    ∃ out, filtrujStacjeWPromieniu stdSort toDouble cache lat lon promienKm = some out ∧
      ∀ e ∈ out, ∃ val ∈ doc.toArray,
        QJsonObject.value e.toObject "distance" =
          QJsonValue.double (obliczOdleglosc lat lon
            (toDouble (QJsonObject.value val.toObject "gegrLat").toQString)
            (toDouble (QJsonObject.value val.toObject "gegrLon").toQString)) ∧
        (∀ key : QString, key ≠ "distance" →
          (QJsonObject.contains val.toObject key = true ∨
            (key ≠ "gegrLat" ∧ key ≠ "gegrLon")) →
          QJsonObject.value e.toObject key = QJsonObject.value val.toObject key) ∧
        (QJsonObject.contains val.toObject "gegrLat" = true →
          QJsonObject.contains val.toObject "gegrLon" = true →
          e = QJsonValue.object (QJsonObject.insert val.toObject "distance"
                (QJsonValue.double (obliczOdleglosc lat lon
                  (toDouble (QJsonObject.value val.toObject "gegrLat").toQString)
                  (toDouble (QJsonObject.value val.toObject "gegrLon").toQString))))) := by
  obtain ⟨out, h1, h2, _⟩ :=
    filtrujStacjeWPromieniu_sorted stdSort hsort laws toDouble cache doc hdoc lat lon promienKm
  refine ⟨out, h1, ?_⟩
  intro e he
  obtain ⟨v, hv, rfl⟩ := List.mem_map.mp (h2.mem_iff.mp he)
  refine ⟨v, List.mem_of_mem_filter hv, ?_, ?_, ?_⟩
  · rw [← odlegloscStacji_eq]
    exact QJsonObject.value_insert_same _ _ _
  · intro key hkey hmem
    rw [← value_stacjaPoOdczycie v key hmem]
    exact QJsonObject.value_insert_other _ _ _ _ hkey
  · intro hlat hlon
    rw [← odlegloscStacji_eq, ← stacjaPoOdczycie_of_contains v hlat hlon]
    rfl

/-! ## Theorems: the distance in exact real arithmetic -/

/-- The value `a` of `obliczOdleglosc` over the reals. -/
theorem obliczOdleglosc_real (lat1 lon1 lat2 lon2 : ℝ) :
    obliczOdleglosc lat1 lon1 lat2 lon2 =
      6371 * (2 * Complex.arg
        ⟨Real.sqrt (1 - (Real.sin ((lat2 - lat1) * (Real.pi / 180) / 2) *
              Real.sin ((lat2 - lat1) * (Real.pi / 180) / 2) +
            Real.cos (lat1 * (Real.pi / 180)) * Real.cos (lat2 * (Real.pi / 180)) *
              Real.sin ((lon2 - lon1) * (Real.pi / 180) / 2) *
              Real.sin ((lon2 - lon1) * (Real.pi / 180) / 2))),
         Real.sqrt (Real.sin ((lat2 - lat1) * (Real.pi / 180) / 2) *
              Real.sin ((lat2 - lat1) * (Real.pi / 180) / 2) +
            Real.cos (lat1 * (Real.pi / 180)) * Real.cos (lat2 * (Real.pi / 180)) *
              Real.sin ((lon2 - lon1) * (Real.pi / 180) / 2) *
              Real.sin ((lon2 - lon1) * (Real.pi / 180) / 2))⟩) := by
  show ((6371 : ℕ) : ℝ) * (((2 : ℕ) : ℝ) * Complex.arg
        ⟨Real.sqrt (((1 : ℕ) : ℝ) - (Real.sin ((lat2 - lat1) * (Real.pi / ((180 : ℕ) : ℝ)) / ((2 : ℕ) : ℝ)) *
              Real.sin ((lat2 - lat1) * (Real.pi / ((180 : ℕ) : ℝ)) / ((2 : ℕ) : ℝ)) +
            Real.cos (lat1 * (Real.pi / ((180 : ℕ) : ℝ))) * Real.cos (lat2 * (Real.pi / ((180 : ℕ) : ℝ))) *
              Real.sin ((lon2 - lon1) * (Real.pi / ((180 : ℕ) : ℝ)) / ((2 : ℕ) : ℝ)) *
              Real.sin ((lon2 - lon1) * (Real.pi / ((180 : ℕ) : ℝ)) / ((2 : ℕ) : ℝ)))),
         Real.sqrt (Real.sin ((lat2 - lat1) * (Real.pi / ((180 : ℕ) : ℝ)) / ((2 : ℕ) : ℝ)) *
              Real.sin ((lat2 - lat1) * (Real.pi / ((180 : ℕ) : ℝ)) / ((2 : ℕ) : ℝ)) +
            Real.cos (lat1 * (Real.pi / ((180 : ℕ) : ℝ))) * Real.cos (lat2 * (Real.pi / ((180 : ℕ) : ℝ))) *
              Real.sin ((lon2 - lon1) * (Real.pi / ((180 : ℕ) : ℝ)) / ((2 : ℕ) : ℝ)) *
              Real.sin ((lon2 - lon1) * (Real.pi / ((180 : ℕ) : ℝ)) / ((2 : ℕ) : ℝ)))⟩) = _
  simp only [Nat.cast_ofNat, Nat.cast_one]

/-- Over the reals the distance is never negative. -/
theorem obliczOdleglosc_real_nonneg (lat1 lon1 lat2 lon2 : ℝ) :
    0 ≤ obliczOdleglosc lat1 lon1 lat2 lon2 := by
  rw [obliczOdleglosc_real]
  have h : 0 ≤ Complex.arg
        ⟨Real.sqrt (1 - (Real.sin ((lat2 - lat1) * (Real.pi / 180) / 2) *
              Real.sin ((lat2 - lat1) * (Real.pi / 180) / 2) +
            Real.cos (lat1 * (Real.pi / 180)) * Real.cos (lat2 * (Real.pi / 180)) *
              Real.sin ((lon2 - lon1) * (Real.pi / 180) / 2) *
              Real.sin ((lon2 - lon1) * (Real.pi / 180) / 2))),
         Real.sqrt (Real.sin ((lat2 - lat1) * (Real.pi / 180) / 2) *
              Real.sin ((lat2 - lat1) * (Real.pi / 180) / 2) +
            Real.cos (lat1 * (Real.pi / 180)) * Real.cos (lat2 * (Real.pi / 180)) *
              Real.sin ((lon2 - lon1) * (Real.pi / 180) / 2) *
              Real.sin ((lon2 - lon1) * (Real.pi / 180) / 2))⟩ :=
    Complex.arg_nonneg_iff.mpr (Real.sqrt_nonneg _)
  positivity

/-- Over the reals the distance from a point to itself is `0`. -/
theorem obliczOdleglosc_real_self (lat lon : ℝ) : obliczOdleglosc lat lon lat lon = 0 := by
  rw [obliczOdleglosc_real]
  have h : (⟨1, 0⟩ : ℂ) = 1 := rfl
  simp [h]

/-- In exact real arithmetic `obliczOdleglosc` is symmetric: the distance from A
to B equals the distance from B to A. -/
theorem obliczOdleglosc_real_symmetric (lat1 lon1 lat2 lon2 : ℝ) :
    obliczOdleglosc lat1 lon1 lat2 lon2 = obliczOdleglosc lat2 lon2 lat1 lon1 := by
  rw [obliczOdleglosc_real, obliczOdleglosc_real]
  have hs : ∀ x y : ℝ, Real.sin ((x - y) * (Real.pi / 180) / 2) *
      Real.sin ((x - y) * (Real.pi / 180) / 2) =
      Real.sin ((y - x) * (Real.pi / 180) / 2) * Real.sin ((y - x) * (Real.pi / 180) / 2) := by
    intro x y
    have : (x - y) * (Real.pi / 180) / 2 = -((y - x) * (Real.pi / 180) / 2) := by ring
    rw [this, Real.sin_neg]
    ring
  have ha : Real.sin ((lat2 - lat1) * (Real.pi / 180) / 2) *
              Real.sin ((lat2 - lat1) * (Real.pi / 180) / 2) +
            Real.cos (lat1 * (Real.pi / 180)) * Real.cos (lat2 * (Real.pi / 180)) *
              Real.sin ((lon2 - lon1) * (Real.pi / 180) / 2) *
              Real.sin ((lon2 - lon1) * (Real.pi / 180) / 2) =
            Real.sin ((lat1 - lat2) * (Real.pi / 180) / 2) *
              Real.sin ((lat1 - lat2) * (Real.pi / 180) / 2) +
            Real.cos (lat2 * (Real.pi / 180)) * Real.cos (lat1 * (Real.pi / 180)) *
              Real.sin ((lon1 - lon2) * (Real.pi / 180) / 2) *
              Real.sin ((lon1 - lon2) * (Real.pi / 180) / 2) := by
    rw [hs lat2 lat1, mul_assoc (Real.cos (lat1 * (Real.pi / 180)) * _), hs lon2 lon1]
    ring
  rw [ha]

/-- C10. Over the reals `obliczOdleglosc` of a coordinate and itself is
exactly `0`. -/
theorem obliczOdleglosc_self_eq_zero (lat lon : ℝ) : obliczOdleglosc lat lon lat lon = 0 :=
  obliczOdleglosc_real_self lat lon

/-! ## Concrete runs -/

theorem toDoubleReal_52 : toDoubleReal "52.0" = 52 := by
  have h : readDecimal "52.0" = some (false, 520, 1) := by decide
  simp only [toDoubleReal, h]
  norm_num

theorem toDoubleReal_21 : toDoubleReal "21.0" = 21 := by
  have h : readDecimal "21.0" = some (false, 210, 1) := by decide
  simp only [toDoubleReal, h]
  norm_num

theorem odlegloscStacji_stacjaA : odlegloscStacji toDoubleReal 52 21 stacjaA = 0 := by
  have h1 : (QJsonObject.value (stacjaA : QJsonValue ℝ).toObject "gegrLat").toQString = "52.0" := by
    decide
  have h2 : (QJsonObject.value (stacjaA : QJsonValue ℝ).toObject "gegrLon").toQString = "21.0" := by
    decide
  rw [odlegloscStacji_eq, h1, h2, toDoubleReal_52, toDoubleReal_21]
  exact obliczOdleglosc_real_self 52 21

theorem odlegloscStacji_stacjaB : odlegloscStacji toDoubleReal 52 21 stacjaB = 0 := by
  have h1 : (QJsonObject.value (stacjaB : QJsonValue ℝ).toObject "gegrLat").toQString = "52.0" := by
    decide
  have h2 : (QJsonObject.value (stacjaB : QJsonValue ℝ).toObject "gegrLon").toQString = "21.0" := by
    decide
  rw [odlegloscStacji_eq, h1, h2, toDoubleReal_52, toDoubleReal_21]
  exact obliczOdleglosc_real_self 52 21

theorem cacheAB_object :
    (cacheAB : QCache ℝ).object urlFindAll = some (QJsonDocument.array [stacjaA, stacjaB]) := by
  simp [cacheAB, QCache.object, List.lookup]

theorem cacheA_object :
    (cacheA : QCache ℝ).object urlFindAll = some (QJsonDocument.array [stacjaA]) := by
  simp [cacheA, QCache.object, List.lookup]

theorem cacheABK_object :
    (cacheABK : QCache ℝ).object urlFindAll =
      some (QJsonDocument.array [stacjaA, stacjaB, stacjaK]) := by
  simp [cacheABK, QCache.object, List.lookup]

theorem not_sublist_swap {β : Type} {a b : β} (hne : a ≠ b) : ¬ List.Sublist [a, b] [b, a] := by
  intro hs
  cases hs with
  | cons _ h =>
    have := h.length_le
    simp at this
  | cons₂ _ h => exact hne rfl

/-- The run of the radius filter on `cacheAB` from the coordinates of
its stations, sorted by `insertionSortLate`: both stations are retained and
`stacjaB` is emitted first. -/
theorem filtrujStacjeWPromieniu_cacheAB (promienKm : ℝ) (hr : 0 ≤ promienKm) :
    filtrujStacjeWPromieniu insertionSortLate toDoubleReal cacheAB 52 21 promienKm =
      some [zOdlegloscia toDoubleReal 52 21 stacjaB, zOdlegloscia toDoubleReal 52 21 stacjaA] := by
  rw [filtrujStacjeWPromieniu_eq insertionSortLate toDoubleReal cacheAB _ cacheAB_object]
  have hle : QDouble.le (0 : ℝ) promienKm = true := by
    show decide ((0 : ℝ) ≤ promienKm) = true
    simpa using hr
  have hlt : mniejszaOdleglosc (zOdlegloscia toDoubleReal 52 21 stacjaA).toObject
      (zOdlegloscia toDoubleReal 52 21 stacjaB).toObject = false := by
    have hA := poleDistance_zOdlegloscia toDoubleReal 52 21 stacjaA
    have hB := poleDistance_zOdlegloscia toDoubleReal 52 21 stacjaB
    unfold poleDistance at hA hB
    unfold mniejszaOdleglosc
    rw [hA, hB, odlegloscStacji_stacjaA, odlegloscStacji_stacjaB]
    show decide ((0 : ℝ) < 0) = false
    simp
  simp only [QJsonDocument.toArray, List.filter_cons, List.filter_nil, odlegloscStacji_stacjaA,
    odlegloscStacji_stacjaB, hle, if_true, List.map_cons, List.map_nil, insertionSortLate,
    List.foldr_cons, List.foldr_nil, insertLate, hlt]
  rfl

/-- The guarantee of `std::sort` alone does not fix the order of two stations
at equal distance: with the routine `insertionSortLate`, which meets it,
`stacjaA` stands before `stacjaB` in the cache, both are at distance 0, and the
emitted list is `stacjaB`, `stacjaA`. -/
theorem filtrujStacjeWPromieniu_insertionSortLate_ties :
    StdSortSpec (insertionSortLate :
      (QJsonObject ℝ → QJsonObject ℝ → Bool) → List (QJsonObject ℝ) → List (QJsonObject ℝ)) ∧
    (cacheAB : QCache ℝ).object urlFindAll = some (QJsonDocument.array [stacjaA, stacjaB]) ∧
    odlegloscStacji toDoubleReal 52 21 stacjaA = odlegloscStacji toDoubleReal 52 21 stacjaB ∧
    filtrujStacjeWPromieniu insertionSortLate toDoubleReal cacheAB 52 21 1 =
      some [zOdlegloscia toDoubleReal 52 21 stacjaB, zOdlegloscia toDoubleReal 52 21 stacjaA] ∧
    ¬ List.Sublist
        [zOdlegloscia toDoubleReal 52 21 stacjaA, zOdlegloscia toDoubleReal 52 21 stacjaB]
        [zOdlegloscia toDoubleReal 52 21 stacjaB, zOdlegloscia toDoubleReal 52 21 stacjaA] := by
  refine ⟨insertionSortLate_spec, cacheAB_object, ?_, ?_, ?_⟩
  · rw [odlegloscStacji_stacjaA, odlegloscStacji_stacjaB]
  · exact filtrujStacjeWPromieniu_cacheAB 1 (by norm_num)
  · have hne : zOdlegloscia toDoubleReal 52 21 (stacjaA : QJsonValue ℝ) ≠
        zOdlegloscia toDoubleReal 52 21 stacjaB := by
      intro h
      have h2 := congrArg (fun e => (QJsonObject.value e.toObject "stationName").toQString) h
      simp only [zOdlegloscia, QJsonValue.toObject] at h2
      rw [QJsonObject.value_insert_other _ _ _ _ (by decide),
        QJsonObject.value_insert_other _ _ _ _ (by decide)] at h2
      revert h2
      decide
    exact not_sublist_swap hne

/-- C6, amended. With the station list cached, the emitted list is a
rearrangement of the retained stations in which a station with a strictly
smaller distance is never behind one with a larger distance; the order of
stations at equal distance is left to `std::sort`. -/
theorem filtrujStacjeWPromieniu_nearer_first {α : Type} [QDouble α]
    (stdSort : (QJsonObject α → QJsonObject α → Bool) → List (QJsonObject α) → List (QJsonObject α))
    (hsort : StdSortSpec stdSort) (laws : DoubleOrderLaws α)
    (toDouble : QString → α) (cache : QCache α) (doc : QJsonDocument α)
    (hdoc : cache.object urlFindAll = some doc) (lat lon promienKm : α) :
    ∃ out, filtrujStacjeWPromieniu stdSort toDouble cache lat lon promienKm = some out ∧
      out.Perm ((doc.toArray.filter
        (fun v => QDouble.le (odlegloscStacji toDouble lat lon v) promienKm)).map
          (zOdlegloscia toDouble lat lon)) ∧
      ∀ a b : QJsonValue α,
        QDouble.lt (QJsonObject.value a.toObject "distance").toDouble
          (QJsonObject.value b.toObject "distance").toDouble = true →
        ¬ List.Sublist [b, a] out := by
  obtain ⟨out, h1, h2, h3⟩ :=
    filtrujStacjeWPromieniu_sorted stdSort hsort laws toDouble cache doc hdoc lat lon promienKm
  refine ⟨out, h1, h2, ?_⟩
  intro a b hab hsub
  have := List.pairwise_iff_forall_sublist.mp h3 hsub
  unfold poleDistance at this
  rw [hab] at this
  exact absurd this (by simp)

/-- C6, amended: a run. -/
theorem filtrujStacjeWPromieniu_nearer_first_witness :
    StdSortSpec (insertionSortLate :
      (QJsonObject ℝ → QJsonObject ℝ → Bool) → List (QJsonObject ℝ) → List (QJsonObject ℝ)) ∧
    DoubleOrderLaws ℝ ∧
    (cacheABK : QCache ℝ).object urlFindAll =
      some (QJsonDocument.array [stacjaA, stacjaB, stacjaK]) ∧
    ∃ out, filtrujStacjeWPromieniu insertionSortLate toDoubleReal cacheABK 52 21 100 = some out ∧
      out.Perm (((QJsonDocument.array [stacjaA, stacjaB, stacjaK]).toArray.filter
        (fun v => QDouble.le (odlegloscStacji toDoubleReal 52 21 v) 100)).map
          (zOdlegloscia toDoubleReal 52 21)) ∧
      ∀ a b : QJsonValue ℝ,
        QDouble.lt (QJsonObject.value a.toObject "distance").toDouble
          (QJsonObject.value b.toObject "distance").toDouble = true →
        ¬ List.Sublist [b, a] out :=
  ⟨insertionSortLate_spec, doubleOrderLaws_real, cacheABK_object,
    filtrujStacjeWPromieniu_nearer_first insertionSortLate insertionSortLate_spec
      doubleOrderLaws_real toDoubleReal cacheABK _ cacheABK_object 52 21 100⟩

/-- C7, counterexample. With radius `0` and a cached station at the reference
coordinate, the emitted list is not empty: it holds that station, at
distance 0. -/
theorem filtrujStacjeWPromieniu_radius_zero_nonempty :
    (cacheA : QCache ℝ).object urlFindAll = some (QJsonDocument.array [stacjaA]) ∧
    QDouble.le (0 : ℝ) 0 = true ∧
    filtrujStacjeWPromieniu insertionSortLate toDoubleReal cacheA 52 21 0 =
      some [zOdlegloscia toDoubleReal 52 21 stacjaA] ∧
    filtrujStacjeWPromieniu insertionSortLate toDoubleReal cacheA 52 21 0 ≠ some [] := by
  have hle : QDouble.le (0 : ℝ) 0 = true := by
    show decide ((0 : ℝ) ≤ 0) = true
    simp
  have hrun : filtrujStacjeWPromieniu insertionSortLate toDoubleReal cacheA 52 21 0 =
      some [zOdlegloscia toDoubleReal 52 21 stacjaA] := by
    rw [filtrujStacjeWPromieniu_eq insertionSortLate toDoubleReal cacheA _ cacheA_object]
    simp only [QJsonDocument.toArray, List.filter_cons, List.filter_nil, odlegloscStacji_stacjaA,
      hle, if_true, List.map_cons, List.map_nil, insertionSortLate, List.foldr_cons,
      List.foldr_nil, insertLate]
    rfl
  refine ⟨cacheA_object, hle, hrun, ?_⟩
  rw [hrun]
  simp

/-- C7, amended. Over the reals, with the station list cached,
`filtrujStacjeWPromieniu` called with a radius `< 0` emits the empty station
list. -/
theorem filtrujStacjeWPromieniu_negative_radius
    (stdSort : (QJsonObject ℝ → QJsonObject ℝ → Bool) → List (QJsonObject ℝ) → List (QJsonObject ℝ))
    (hsort : StdSortSpec stdSort)
    (toDouble : QString → ℝ) (cache : QCache ℝ) (doc : QJsonDocument ℝ)
    (hdoc : cache.object urlFindAll = some doc) (lat lon promienKm : ℝ) (hr : promienKm < 0) :
    filtrujStacjeWPromieniu stdSort toDouble cache lat lon promienKm = some [] := by
  rw [filtrujStacjeWPromieniu_eq stdSort toDouble cache doc hdoc]
  have hnone : doc.toArray.filter
      (fun v => QDouble.le (odlegloscStacji toDouble lat lon v) promienKm) = [] := by
    apply List.filter_eq_nil_iff.mpr
    intro v _
    show ¬ (decide (odlegloscStacji toDouble lat lon v ≤ promienKm) = true)
    have h0 : 0 ≤ odlegloscStacji toDouble lat lon v := obliczOdleglosc_real_nonneg _ _ _ _
    simp only [decide_eq_true_eq, not_le]
    linarith
  rw [hnone]
  have hsw : StrictWeakOn (mniejszaOdleglosc : QJsonObject ℝ → QJsonObject ℝ → Bool) [] :=
    ⟨fun a ha => absurd ha (List.not_mem_nil a), fun a ha => absurd ha (List.not_mem_nil a),
      fun a ha => absurd ha (List.not_mem_nil a)⟩
  have hnil := (hsort mniejszaOdleglosc [] hsw).1.eq_nil
  simp only [List.map_nil]
  rw [hnil]
  rfl

/-- C7, amended: a run with radius `-1`. -/
theorem filtrujStacjeWPromieniu_negative_radius_witness :
    StdSortSpec (insertionSortLate :
      (QJsonObject ℝ → QJsonObject ℝ → Bool) → List (QJsonObject ℝ) → List (QJsonObject ℝ)) ∧
    (cacheA : QCache ℝ).object urlFindAll = some (QJsonDocument.array [stacjaA]) ∧
    (-1 : ℝ) < 0 ∧
    filtrujStacjeWPromieniu insertionSortLate toDoubleReal cacheA 52 21 (-1) = some [] :=
  ⟨insertionSortLate_spec, cacheA_object, by norm_num,
    filtrujStacjeWPromieniu_negative_radius insertionSortLate insertionSortLate_spec
      toDoubleReal cacheA _ cacheA_object 52 21 (-1) (by norm_num)⟩

/-! ## Runs of the general theorems -/

/-- C1: a run on the three sample stations with the query `WARSZ`. -/
theorem filtrujStacjePoMiescie_mem_iff_witness :
    (∀ v ∈ ([stacjaA, stacjaB, stacjaK] : QJsonArray ℝ),
      v.isObject = true ∧ QJsonObject.contains v.toObject "city" = true) ∧
    ∀ s : QJsonValue ℝ,
      s ∈ filtrujStacjePoMiescie toLowerAscii [stacjaA, stacjaB, stacjaK] "WARSZ" ↔
        s ∈ ([stacjaA, stacjaB, stacjaK] : QJsonArray ℝ) ∧
          (toLowerAscii "WARSZ").toList <:+: (toLowerAscii (nazwaMiasta s)).toList :=
  ⟨by decide,
    filtrujStacjePoMiescie_mem_iff toLowerAscii [stacjaA, stacjaB, stacjaK] "WARSZ" (by decide)⟩

/-- C2: a run on the three sample stations with the query `WARSZ`. -/
theorem filtrujStacjePoMiescie_matching_in_order_witness :
    (∀ v ∈ ([stacjaA, stacjaB, stacjaK] : QJsonArray ℝ),
      v.isObject = true ∧ QJsonObject.contains v.toObject "city" = true) ∧
    filtrujStacjePoMiescie toLowerAscii ([stacjaA, stacjaB, stacjaK] : QJsonArray ℝ) "WARSZ" =
        ([stacjaA, stacjaB, stacjaK] : QJsonArray ℝ).filter (fun v =>
          decide ((toLowerAscii "WARSZ").toList <:+: (toLowerAscii (nazwaMiasta v)).toList)) ∧
      List.Sublist (filtrujStacjePoMiescie toLowerAscii [stacjaA, stacjaB, stacjaK] "WARSZ")
        ([stacjaA, stacjaB, stacjaK] : QJsonArray ℝ) :=
  ⟨by decide,
    filtrujStacjePoMiescie_matching_in_order toLowerAscii [stacjaA, stacjaB, stacjaK] "WARSZ"
      (by decide)⟩

/-- C4: a run on the three sample stations with radius 100. -/
theorem filtrujStacjeWPromieniu_exactly_within_radius_witness :
    StdSortSpec (insertionSortLate :
      (QJsonObject ℝ → QJsonObject ℝ → Bool) → List (QJsonObject ℝ) → List (QJsonObject ℝ)) ∧
    DoubleOrderLaws ℝ ∧
    (cacheABK : QCache ℝ).object urlFindAll =
      some (QJsonDocument.array [stacjaA, stacjaB, stacjaK]) ∧
    ∃ out, filtrujStacjeWPromieniu insertionSortLate toDoubleReal cacheABK 52 21 100 = some out ∧
      out.Perm (((QJsonDocument.array [stacjaA, stacjaB, stacjaK]).toArray.filter (fun val =>
          QDouble.le
            (obliczOdleglosc 52 21
              (toDoubleReal (QJsonObject.value val.toObject "gegrLat").toQString)
              (toDoubleReal (QJsonObject.value val.toObject "gegrLon").toQString))
            100)).map (zOdlegloscia toDoubleReal 52 21)) :=
  ⟨insertionSortLate_spec, doubleOrderLaws_real, cacheABK_object,
    filtrujStacjeWPromieniu_exactly_within_radius insertionSortLate insertionSortLate_spec
      doubleOrderLaws_real toDoubleReal cacheABK _ cacheABK_object 52 21 100⟩

/-- C5: a run on the three sample stations with radius 100. -/
theorem filtrujStacjeWPromieniu_sorted_by_distance_witness :
    StdSortSpec (insertionSortLate :
      (QJsonObject ℝ → QJsonObject ℝ → Bool) → List (QJsonObject ℝ) → List (QJsonObject ℝ)) ∧
    DoubleOrderLaws ℝ ∧
    (cacheABK : QCache ℝ).object urlFindAll =
      some (QJsonDocument.array [stacjaA, stacjaB, stacjaK]) ∧
    ∃ out, filtrujStacjeWPromieniu insertionSortLate toDoubleReal cacheABK 52 21 100 = some out ∧
      out.Pairwise (fun a b =>
        QDouble.le (QJsonObject.value a.toObject "distance").toDouble
          (QJsonObject.value b.toObject "distance").toDouble = true) :=
  ⟨insertionSortLate_spec, doubleOrderLaws_real, cacheABK_object,
    filtrujStacjeWPromieniu_sorted_by_distance insertionSortLate insertionSortLate_spec
      doubleOrderLaws_real toDoubleReal cacheABK _ cacheABK_object 52 21 100⟩

/-- C8: a run on the three sample stations with radius 100. -/
theorem filtrujStacjeWPromieniu_attaches_distance_witness :
    StdSortSpec (insertionSortLate :
      (QJsonObject ℝ → QJsonObject ℝ → Bool) → List (QJsonObject ℝ) → List (QJsonObject ℝ)) ∧
    DoubleOrderLaws ℝ ∧
    (cacheABK : QCache ℝ).object urlFindAll =
      some (QJsonDocument.array [stacjaA, stacjaB, stacjaK]) ∧
    ∃ out, filtrujStacjeWPromieniu insertionSortLate toDoubleReal cacheABK 52 21 100 = some out ∧
      ∀ e ∈ out, ∃ val ∈ (QJsonDocument.array [stacjaA, stacjaB, stacjaK]).toArray,
        QJsonObject.value e.toObject "distance" =
          QJsonValue.double (obliczOdleglosc 52 21
            (toDoubleReal (QJsonObject.value val.toObject "gegrLat").toQString)
            (toDoubleReal (QJsonObject.value val.toObject "gegrLon").toQString)) ∧
        (∀ key : QString, key ≠ "distance" →
          (QJsonObject.contains val.toObject key = true ∨
            (key ≠ "gegrLat" ∧ key ≠ "gegrLon")) →
          QJsonObject.value e.toObject key = QJsonObject.value val.toObject key) ∧
        (QJsonObject.contains val.toObject "gegrLat" = true →
          QJsonObject.contains val.toObject "gegrLon" = true →
          e = QJsonValue.object (QJsonObject.insert val.toObject "distance"
                (QJsonValue.double (obliczOdleglosc 52 21
                  (toDoubleReal (QJsonObject.value val.toObject "gegrLat").toQString)
                  (toDoubleReal (QJsonObject.value val.toObject "gegrLon").toQString))))) :=
  ⟨insertionSortLate_spec, doubleOrderLaws_real, cacheABK_object,
    filtrujStacjeWPromieniu_attaches_distance insertionSortLate insertionSortLate_spec
      doubleOrderLaws_real toDoubleReal cacheABK _ cacheABK_object 52 21 100⟩

/-! ## Theorems: the Warszawa-Kraków fixture -/

theorem sin_lower_bound {x : ℝ} (h0 : 0 ≤ x) (h1 : x ≤ 1) :
    x - x ^ 3 / 6 - x ^ 4 * (5 / 96) ≤ Real.sin x := by
  have h := @Real.sin_bound x (by rw [abs_of_nonneg h0]; exact h1)
  rw [abs_of_nonneg h0] at h
  have := (abs_le.mp h).1
  linarith

theorem cos_bounds {x : ℝ} (h0 : 0 ≤ x) (h1 : x ≤ 1) :
    1 - x ^ 2 / 2 - x ^ 4 * (5 / 96) ≤ Real.cos x ∧
      Real.cos x ≤ 1 - x ^ 2 / 2 + x ^ 4 * (5 / 96) := by
  have h := @Real.cos_bound x (by rw [abs_of_nonneg h0]; exact h1)
  rw [abs_of_nonneg h0] at h
  have := abs_le.mp h
  constructor <;> linarith [this.1, this.2]

/-- arg of the point built from the square roots. -/
theorem arg_sqrt_eq_arcsin {a : ℝ} (h0 : 0 ≤ a) (h1 : a ≤ 1) :
    Complex.arg ⟨Real.sqrt (1 - a), Real.sqrt a⟩ = Real.arcsin (Real.sqrt a) := by
  rw [Complex.arg_of_re_nonneg (by exact Real.sqrt_nonneg _)]
  have habs : Complex.abs ⟨Real.sqrt (1 - a), Real.sqrt a⟩ = 1 := by
    rw [Complex.abs_apply, Complex.normSq_mk, Real.mul_self_sqrt (by linarith),
      Real.mul_self_sqrt h0]
    simp
  rw [habs]
  simp

/-- The value a for the fixture, by the product-to-sum identity. -/
theorem fixture_a_eq :
    Real.sin ((50.0647 - 52.2297) * (Real.pi / 180) / 2) *
        Real.sin ((50.0647 - 52.2297) * (Real.pi / 180) / 2) +
      Real.cos (52.2297 * (Real.pi / 180)) * Real.cos (50.0647 * (Real.pi / 180)) *
        Real.sin ((19.9450 - 21.0122) * (Real.pi / 180) / 2) *
        Real.sin ((19.9450 - 21.0122) * (Real.pi / 180) / 2) =
    Real.sin (2.165 * Real.pi / 360) ^ 2 +
      (Real.cos (2.165 * Real.pi / 180) - Real.sin (12.2944 * Real.pi / 180)) / 2 *
        Real.sin (1.0672 * Real.pi / 360) ^ 2 := by
  have hu : (50.0647 - 52.2297) * (Real.pi / 180) / 2 = -(2.165 * Real.pi / 360) := by ring
  have hv : (19.9450 - 21.0122) * (Real.pi / 180) / 2 = -(1.0672 * Real.pi / 360) := by ring
  have hprod : Real.cos (52.2297 * (Real.pi / 180)) * Real.cos (50.0647 * (Real.pi / 180)) =
      (Real.cos (2.165 * Real.pi / 180) - Real.sin (12.2944 * Real.pi / 180)) / 2 := by
    have h1 : (2.165 * Real.pi / 180 : ℝ) = 52.2297 * (Real.pi / 180) - 50.0647 * (Real.pi / 180) := by
      ring
    have h2 : Real.sin (12.2944 * Real.pi / 180) =
        -Real.cos (52.2297 * (Real.pi / 180) + 50.0647 * (Real.pi / 180)) := by
      have : 52.2297 * (Real.pi / 180) + 50.0647 * (Real.pi / 180) =
          12.2944 * Real.pi / 180 + Real.pi / 2 := by ring
      rw [this, Real.cos_add_pi_div_two]
      ring
    rw [h1, h2, Real.cos_sub, Real.cos_add]
    ring
  rw [hu, hv, hprod, Real.sin_neg, Real.sin_neg]
  ring


theorem sin_between (x lo hi : ℝ) (h0 : 0 ≤ lo) (hlo : lo ≤ x) (hhi : x ≤ hi) (h1 : hi ≤ 1) :
    lo - hi ^ 3 / 6 - hi ^ 4 * (5 / 96) ≤ Real.sin x ∧ Real.sin x ≤ hi := by
  have hx0 : 0 ≤ x := le_trans h0 hlo
  have h3 : x ^ 3 ≤ hi ^ 3 := pow_le_pow_left₀ hx0 hhi 3
  have h4 : x ^ 4 ≤ hi ^ 4 := pow_le_pow_left₀ hx0 hhi 4
  have hs := sin_lower_bound hx0 (le_trans hhi h1)
  have hu := Real.sin_le hx0
  constructor <;> linarith

theorem cos_between (x lo hi : ℝ) (h0 : 0 ≤ lo) (hlo : lo ≤ x) (hhi : x ≤ hi) (h1 : hi ≤ 1) :
    1 - hi ^ 2 / 2 - hi ^ 4 * (5 / 96) ≤ Real.cos x ∧
      Real.cos x ≤ 1 - lo ^ 2 / 2 + hi ^ 4 * (5 / 96) := by
  have hx0 : 0 ≤ x := le_trans h0 hlo
  have h2 : x ^ 2 ≤ hi ^ 2 := pow_le_pow_left₀ hx0 hhi 2
  have h2l : lo ^ 2 ≤ x ^ 2 := pow_le_pow_left₀ h0 hlo 2
  have h4 : x ^ 4 ≤ hi ^ 4 := pow_le_pow_left₀ hx0 hhi 4
  have hc := cos_bounds hx0 (le_trans hhi h1)
  constructor <;> linarith [hc.1, hc.2]

/-- Bounds on the value a of the fixture. -/
theorem fixture_a_bounds :
    (0.00039093 : ℝ) ≤ Real.sin (2.165 * Real.pi / 360) ^ 2 +
      (Real.cos (2.165 * Real.pi / 180) - Real.sin (12.2944 * Real.pi / 180)) / 2 *
        Real.sin (1.0672 * Real.pi / 360) ^ 2 ∧
    Real.sin (2.165 * Real.pi / 360) ^ 2 +
      (Real.cos (2.165 * Real.pi / 180) - Real.sin (12.2944 * Real.pi / 180)) / 2 *
        Real.sin (1.0672 * Real.pi / 360) ^ 2 ≤ 0.00039105910 := by
  have hpl := Real.pi_gt_d6
  have hpu := Real.pi_lt_d6
  have hx := sin_between (2.165 * Real.pi / 360) 0.01889318522222
    0.01889319123612 (by norm_num) (by linarith) (by linarith) (by norm_num)
  have hy := sin_between (1.0672 * Real.pi / 360) 0.00931307495111
    0.00931307791556 (by norm_num) (by linarith) (by linarith) (by norm_num)
  have hs := sin_between (12.2944 * Real.pi / 180) 0.21457771491555
    0.21457778321778 (by norm_num) (by linarith) (by linarith) (by norm_num)
  have hd := cos_between (2.165 * Real.pi / 180) 0.03778637044444
    0.03778638247223 (by norm_num) (by linarith) (by linarith) (by norm_num)
  have hx1 : (0.01889205459015 : ℝ) ≤ Real.sin (2.165 * Real.pi / 360) := by
    refine le_trans ?_ hx.1
    norm_num
  have hy1 : (0.00931293993345 : ℝ) ≤ Real.sin (1.0672 * Real.pi / 360) := by
    refine le_trans ?_ hy.1
    norm_num
  have hX1 : (0.00035690972663 : ℝ) ≤ Real.sin (2.165 * Real.pi / 360) ^ 2 := by
    refine le_trans ?_ (pow_le_pow_left₀ (by norm_num) hx1 2)
    norm_num
  have hX2 : Real.sin (2.165 * Real.pi / 360) ^ 2 ≤ 0.00035695267509 := by
    refine le_trans (pow_le_pow_left₀ (le_trans (by norm_num) hx1) hx.2 2) ?_
    norm_num
  have hY1 : (0.0000867308502 : ℝ) ≤ Real.sin (1.0672 * Real.pi / 360) ^ 2 := by
    refine le_trans ?_ (pow_le_pow_left₀ (by norm_num) hy1 2)
    norm_num
  have hY2 : Real.sin (1.0672 * Real.pi / 360) ^ 2 ≤ 0.00008673342027 := by
    refine le_trans (pow_le_pow_left₀ (le_trans (by norm_num) hy1) hy.2 2) ?_
    norm_num
  have hC1 : (0.39235410262635 : ℝ) ≤
      (Real.cos (2.165 * Real.pi / 180) - Real.sin (12.2944 * Real.pi / 180)) / 2 := by
    have h1 := hd.1
    have h2 := hs.2
    norm_num at h1 ⊢
    linarith
  have hC2 : (Real.cos (2.165 * Real.pi / 180) - Real.sin (12.2944 * Real.pi / 180)) / 2 ≤
      0.3932327801682 := by
    have h1 := hd.2
    have h2 := hs.1
    norm_num at h1 h2 ⊢
    linarith
  constructor
  · have hm : (0.39235410262635 : ℝ) * 0.0000867308502 ≤
        (Real.cos (2.165 * Real.pi / 180) - Real.sin (12.2944 * Real.pi / 180)) / 2 *
          Real.sin (1.0672 * Real.pi / 360) ^ 2 :=
      mul_le_mul hC1 hY1 (by norm_num) (le_trans (by norm_num) hC1)
    norm_num at hm ⊢
    linarith
  · have hm : (Real.cos (2.165 * Real.pi / 180) - Real.sin (12.2944 * Real.pi / 180)) / 2 *
          Real.sin (1.0672 * Real.pi / 360) ^ 2 ≤ (0.3932327801682 : ℝ) * 0.00008673342027 :=
      mul_le_mul hC2 hY2 (le_trans (by norm_num) hY1) (by norm_num)
    norm_num at hm ⊢
    linarith

/-- The arc sine of the square root of a, between the two angles. -/
theorem arcsin_sqrt_bounds {a : ℝ} (hlo : (0.00039093 : ℝ) ≤ a) (hhi : a ≤ 0.00039105910) :
    (125.95 / 6371 : ℝ) < Real.arcsin (Real.sqrt a) ∧
      Real.arcsin (Real.sqrt a) < 126 / 6371 := by
  have hpl := Real.pi_gt_d6
  have ha0 : 0 ≤ a := le_trans (by norm_num) hlo
  have hs1 : Real.sqrt a ≤ 1 := by
    rw [Real.sqrt_le_left (by norm_num : (0 : ℝ) ≤ 1)]
    linarith
  have hmem : Real.sqrt a ∈ Set.Icc (-1 : ℝ) 1 :=
    ⟨le_trans (by norm_num) (Real.sqrt_nonneg a), hs1⟩
  constructor
  · rw [Real.lt_arcsin_iff_sin_lt ⟨by linarith, by linarith⟩ hmem]
    have h1 : Real.sin (125.95 / 6371) < 125.95 / 6371 := Real.sin_lt (by norm_num)
    have h2 : (125.95 / 6371 : ℝ) ≤ Real.sqrt a := by
      apply Real.le_sqrt_of_sq_le
      refine le_trans ?_ hlo
      norm_num
    linarith
  · rw [Real.arcsin_lt_iff_lt_sin hmem ⟨by linarith, by linarith⟩]
    have h1 := @sin_lower_bound (126 / 6371) (by norm_num) (by norm_num)
    have h2 : Real.sqrt a < 0.01977581783 := by
      rw [Real.sqrt_lt' (by norm_num)]
      refine lt_of_le_of_lt hhi ?_
      norm_num
    have h3 : (0.01977581783 : ℝ) ≤ 126 / 6371 - (126 / 6371) ^ 3 / 6 - (126 / 6371) ^ 4 * (5 / 96) := by
      norm_num
    linarith

/-- Over the reals the distance of the fixture lies strictly between 251.9 and
252. -/
theorem obliczOdleglosc_fixture_bounds :
    (251.9 : ℝ) < obliczOdleglosc 52.2297 21.0122 50.0647 19.9450 ∧
      obliczOdleglosc (52.2297 : ℝ) 21.0122 50.0647 19.9450 < 252 := by
  rw [obliczOdleglosc_real, fixture_a_eq]
  obtain ⟨hlo, hhi⟩ := fixture_a_bounds
  rw [arg_sqrt_eq_arcsin (le_trans (by norm_num) hlo) (le_trans hhi (by norm_num))]
  obtain ⟨h1, h2⟩ := arcsin_sqrt_bounds hlo hhi
  constructor
  · have : (251.9 : ℝ) = 6371 * (2 * (125.95 / 6371)) := by norm_num
    rw [this]
    gcongr
  · have : (252 : ℝ) = 6371 * (2 * (126 / 6371)) := by norm_num
    rw [this]
    gcongr

/-- C11, counterexample. Over the reals the distance `obliczOdleglosc` gives
for Warszawa (52.2297, 21.0122) and Kraków (50.0647, 19.9450) is not in the
range from 252 to 255: it is below 252. -/
theorem obliczOdleglosc_fixture_not_252_255 :
    ¬ ((252 : ℝ) ≤ obliczOdleglosc 52.2297 21.0122 50.0647 19.9450 ∧
        obliczOdleglosc (52.2297 : ℝ) 21.0122 50.0647 19.9450 ≤ 255) := by
  intro h
  have := obliczOdleglosc_fixture_bounds.2
  linarith [h.1]

/-- C11, amended. Over the reals the distance `obliczOdleglosc` gives for
Warszawa (52.2297, 21.0122) and Kraków (50.0647, 19.9450), with Earth radius
6371 km, lies between 251.9 and 252 km. -/
theorem obliczOdleglosc_fixture_251_9_252 :
    (251.9 : ℝ) < obliczOdleglosc 52.2297 21.0122 50.0647 19.9450 ∧
      obliczOdleglosc (52.2297 : ℝ) 21.0122 50.0647 19.9450 < 252 :=
  obliczOdleglosc_fixture_bounds

/-! ## Theorems: the cache -/

theorem lookup_isSome_iff {β : Type} (l : List (QString × β)) (k : QString) :
    (l.lookup k).isSome = true ↔ k ∈ l.map Prod.fst := by
  induction l with
  | nil => simp [List.lookup]
  | cons p rest ih =>
    obtain ⟨k2, v⟩ := p
    cases h : k == k2
    · have hne : k ≠ k2 := by simpa using h
      simp [List.lookup, h, ih, hne]
    · have heq : k = k2 := by simpa using h
      simp [List.lookup, h, heq]

theorem lookup_filter_ne {β : Type} (l : List (QString × β)) (k other : QString)
    (hne : other ≠ k) :
    List.lookup other (l.filter (fun e => e.1 != k)) = List.lookup other l := by
  induction l with
  | nil => rfl
  | cons p rest ih =>
    obtain ⟨k2, v⟩ := p
    by_cases h2 : k2 = k
    · subst h2
      have h3 : (other == k2) = false := by simpa using hne
      simp [List.filter_cons, List.lookup, h3, ih]
    · have h3 : (k2 != k) = true := by simpa using h2
      cases h4 : other == k2 <;> simp [List.filter_cons, h3, List.lookup, h4, ih]

theorem find_key_lookup {β : Type} (l : List (QString × β)) (k : QString) (e : QString × β)
    (h : l.find? (fun e => e.1 == k) = some e) : e.1 = k ∧ List.lookup k l = some e.2 := by
  induction l with
  | nil => simp at h
  | cons p rest ih =>
    obtain ⟨k2, v⟩ := p
    by_cases h2 : k2 = k
    · subst h2
      simp [List.find?_cons] at h
      subst h
      simp [List.lookup]
    · have h3 : (k2 == k) = false := by simpa using h2
      have h4 : (k == k2) = false := by simpa using fun h5 : k = k2 => h2 h5.symm
      simp only [List.find?_cons, h3] at h
      simpa [List.lookup, h4] using ih h

theorem find_key_none {β : Type} (l : List (QString × β)) (k : QString)
    (h : l.find? (fun e => e.1 == k) = none) : List.lookup k l = none := by
  induction l with
  | nil => rfl
  | cons p rest ih =>
    obtain ⟨k2, v⟩ := p
    by_cases h2 : k2 = k
    · subst h2
      simp [List.find?_cons] at h
    · have h3 : (k2 == k) = false := by simpa using h2
      have h4 : (k == k2) = false := by simpa using fun h5 : k = k2 => h2 h5.symm
      simp only [List.find?_cons, h3] at h
      simpa [List.lookup, h4] using ih h

/-- The lookup `cache[key]` changes the use order only: every key reads as
before. -/
theorem QCache.object_relink {α : Type} (cache : QCache α) (key other : QString) :
    (cache.relink key).object other = cache.object other := by
  unfold QCache.relink QCache.object
  cases hf : cache.entries.find? (fun e => e.1 == key) with
  | none => rfl
  | some e =>
    obtain ⟨he1, he2⟩ := find_key_lookup _ _ _ hf
    by_cases h : other = key
    · subst h
      have : (other == e.1) = true := by simp [he1]
      simp [List.lookup, this, he2]
    · have h2 : (other == e.1) = false := by simpa [he1] using h
      simp only [List.lookup, h2]
      exact lookup_filter_ne _ _ _ h

/-- After `insert` the key reads the inserted document, whatever was stored
under it before. -/
theorem QCache.object_insert_same {α : Type} (cache : QCache α) (key : QString)
    (doc : QJsonDocument α) (hcap : 1 ≤ cache.maxCost) :
    (cache.insert key doc).object key = some doc := by
  unfold QCache.insert QCache.object
  have : ¬ cache.maxCost < 1 := by omega
  simp [this, List.lookup]

theorem QCache.maxCost_insert {α : Type} (cache : QCache α) (key : QString)
    (doc : QJsonDocument α) : (cache.insert key doc).maxCost = cache.maxCost := by
  unfold QCache.insert
  split <;> rfl

/-- Inserting entries with pairwise different keys into the empty cache leaves
the most recent ones, as many as fit. -/
theorem QCache.insertAll_distinct {α : Type} (m : Nat) (hm : 1 ≤ m)
    (kvs : List (QString × QJsonDocument α)) (hnd : (kvs.map Prod.fst).Nodup) :
    QCache.insertAll { maxCost := m, entries := [] } kvs =
      { maxCost := m, entries := kvs.reverse.take m } := by
  induction kvs using List.reverseRecOn with
  | nil => simp [QCache.insertAll]
  | append_singleton l kv ih =>
    rw [List.map_append, List.nodup_append] at hnd
    obtain ⟨hl, _, hdis⟩ := hnd
    have hnot : kv.1 ∉ l.map Prod.fst := by
      intro hmem
      exact hdis hmem (by simp)
    unfold QCache.insertAll at ih ⊢
    rw [List.foldl_append, ih hl]
    have hcap : ¬ m < 1 := by omega
    have hfilter : (l.reverse.take m).filter (fun e => e.1 != kv.1) = l.reverse.take m := by
      apply List.filter_eq_self.mpr
      intro e he
      have he2 : e ∈ l := List.mem_reverse.mp (List.mem_of_mem_take he)
      have hne : e.1 ≠ kv.1 := by
        intro heq
        exact hnot (heq ▸ List.mem_map_of_mem Prod.fst he2)
      simpa using hne
    obtain ⟨m2, rfl⟩ : ∃ m2, m = m2 + 1 := ⟨m - 1, by omega⟩
    simp only [List.foldl_cons, List.foldl_nil, QCache.insert, hcap, if_false, hfilter,
      List.reverse_append, List.reverse_cons, List.reverse_nil, List.nil_append,
      List.singleton_append, List.take_succ_cons, Nat.add_sub_cancel, List.take_take]
    have : min m2 (m2 + 1) = m2 := by omega
    rw [this]

/-- C12. Starting from the empty cache of capacity 100, inserting 101 entries
with pairwise different keys, with no read in between, leaves exactly 100 keys
present, all different: the first key inserted is absent and every later one is
present. -/
theorem QCache.insert_101_evicts_first {α : Type} (pierwszy : QString × QJsonDocument α)
    (reszta : List (QString × QJsonDocument α)) (hlen : reszta.length = 100)
    (hnd : ((pierwszy :: reszta).map Prod.fst).Nodup) :
    (QCache.insertAll QCache.pusty (pierwszy :: reszta)).keys.length = 100 ∧
      (QCache.insertAll QCache.pusty (pierwszy :: reszta)).keys.Nodup ∧
      (QCache.insertAll QCache.pusty (pierwszy :: reszta)).contains pierwszy.1 = false ∧
      ∀ kv ∈ reszta,
        (QCache.insertAll QCache.pusty (pierwszy :: reszta)).contains kv.1 = true := by
  have heq : QCache.insertAll (QCache.pusty : QCache α) (pierwszy :: reszta) =
      { maxCost := 100, entries := reszta.reverse } := by
    unfold QCache.pusty
    rw [QCache.insertAll_distinct 100 (by norm_num) _ hnd, List.reverse_cons]
    have : (reszta.reverse ++ [pierwszy]).take 100 = reszta.reverse := by
      rw [List.take_append_of_le_length (by simp [hlen])]
      exact List.take_of_length_le (by simp [hlen])
    rw [this]
  rw [heq]
  rw [List.map_cons, List.nodup_cons] at hnd
  refine ⟨by simp [QCache.keys, hlen], ?_, ?_, ?_⟩
  · simp only [QCache.keys, List.map_reverse]
    exact List.nodup_reverse.mpr hnd.2
  · unfold QCache.contains QCache.object
    cases h : (List.lookup pierwszy.1 reszta.reverse).isSome
    · rfl
    · rw [lookup_isSome_iff] at h
      simp only [List.map_reverse, List.mem_reverse] at h
      exact absurd h hnd.1
  · intro kv hkv
    unfold QCache.contains QCache.object
    rw [lookup_isSome_iff]
    simp only [List.map_reverse, List.mem_reverse]
    exact List.mem_map_of_mem Prod.fst hkv

theorem kluczNr_injective : Function.Injective kluczNr := by
  intro a b h
  unfold kluczNr at h
  have h2 := congrArg (fun s => s.data.length) h
  simpa using h2

/-- C12: a run with the keys of 0, 1, ..., 100 letters. -/
theorem QCache.insert_101_evicts_first_witness :
    ((List.range 100).map (fun i => (kluczNr (i + 1), (QJsonDocument.null : QJsonDocument ℝ)))).length
        = 100 ∧
    (((kluczNr 0, (QJsonDocument.null : QJsonDocument ℝ)) ::
        (List.range 100).map (fun i => (kluczNr (i + 1), QJsonDocument.null))).map
          Prod.fst).Nodup ∧
    ((QCache.insertAll QCache.pusty ((kluczNr 0, (QJsonDocument.null : QJsonDocument ℝ)) ::
        (List.range 100).map (fun i => (kluczNr (i + 1), QJsonDocument.null)))).keys.length = 100 ∧
      (QCache.insertAll QCache.pusty ((kluczNr 0, (QJsonDocument.null : QJsonDocument ℝ)) ::
        (List.range 100).map (fun i => (kluczNr (i + 1), QJsonDocument.null)))).keys.Nodup ∧
      (QCache.insertAll QCache.pusty ((kluczNr 0, (QJsonDocument.null : QJsonDocument ℝ)) ::
        (List.range 100).map (fun i => (kluczNr (i + 1), QJsonDocument.null)))).contains
          (kluczNr 0, (QJsonDocument.null : QJsonDocument ℝ)).1 = false ∧
      ∀ kv ∈ (List.range 100).map (fun i => (kluczNr (i + 1), (QJsonDocument.null : QJsonDocument ℝ))),
        (QCache.insertAll QCache.pusty ((kluczNr 0, (QJsonDocument.null : QJsonDocument ℝ)) ::
          (List.range 100).map (fun i => (kluczNr (i + 1), QJsonDocument.null)))).contains kv.1
            = true) := by
  have hlen : ((List.range 100).map
      (fun i => (kluczNr (i + 1), (QJsonDocument.null : QJsonDocument ℝ)))).length = 100 := by
    simp
  have hnd : (((kluczNr 0, (QJsonDocument.null : QJsonDocument ℝ)) ::
      (List.range 100).map (fun i => (kluczNr (i + 1), QJsonDocument.null))).map
        Prod.fst).Nodup := by
    have h1 : ((kluczNr 0, (QJsonDocument.null : QJsonDocument ℝ)) ::
        (List.range 100).map (fun i => (kluczNr (i + 1), QJsonDocument.null))).map Prod.fst =
        (List.range 101).map kluczNr := by
      conv_rhs => rw [List.range_succ_eq_map]
      simp only [List.map_cons, List.map_map]
      rfl
    rw [h1]
    exact (List.nodup_range 101).map kluczNr_injective
  exact ⟨hlen, hnd, QCache.insert_101_evicts_first _ _ hlen hnd⟩

/-! ## Theorems: the handlers and the router -/

theorem QJsonObject.index_snd_toArray {α : Type} (o : QJsonObject α) (key : QString) :
    (QJsonObject.index o key).2.toArray = (QJsonObject.value o key).toArray := by
  unfold QJsonObject.index QJsonObject.value
  cases List.lookup key o <;> rfl

/-- A handler given a payload of the wrong shape emits one error signal and
does nothing else. -/
theorem Rodzaj.obsluga_wrong_shape {α : Type} (r : Rodzaj) (otwarty : Bool)
    (doc : QJsonDocument α) (s : APIService α) (hshape : r.ksztaltPoprawny doc = false) :
    ∃ opis, r.obsluga otwarty doc s = (s, [Efekt.sygnal (Sygnal.blad opis)]) := by
  cases r
  · refine ⟨"Oczekiwano tablicy JSON", ?_⟩
    simp only [Rodzaj.ksztaltPoprawny] at hshape
    simp [Rodzaj.obsluga, APIService.przetworzOdpowiedzStacje, hshape]
  · refine ⟨"Oczekiwano tablicy JSON", ?_⟩
    simp only [Rodzaj.ksztaltPoprawny] at hshape
    simp [Rodzaj.obsluga, APIService.przetworzOdpowiedzStanowiska, hshape]
  · simp only [Rodzaj.ksztaltPoprawny] at hshape
    cases hobj : doc.isObject
    · refine ⟨"Oczekiwano obiektu JSON", ?_⟩
      simp [Rodzaj.obsluga, APIService.przetworzOdpowiedzPomiary, hobj]
    · refine ⟨"Brak wymaganych danych pomiarowych", ?_⟩
      rw [hobj] at hshape
      cases h3 : QJsonObject.contains doc.toObject "key" <;>
        cases h4 : QJsonObject.contains doc.toObject "values" <;>
        first
          | (exfalso; simp [h3, h4] at hshape; done)
          | simp [Rodzaj.obsluga, APIService.przetworzOdpowiedzPomiary, hobj, h3, h4]
  · refine ⟨"Oczekiwano obiektu JSON", ?_⟩
    simp only [Rodzaj.ksztaltPoprawny] at hshape
    simp [Rodzaj.obsluga, APIService.przetworzOdpowiedzIndeks, hshape]

/-- A handler given a payload of the right shape stores the payload in its
field of `aktualneDane`, runs the autosave and emits its result signal. -/
theorem Rodzaj.obsluga_right_shape {α : Type} (r : Rodzaj) (otwarty : Bool)
    (doc : QJsonDocument α) (s : APIService α) (hshape : r.ksztaltPoprawny doc = true) :
    r.obsluga otwarty doc s =
      ({ s with aktualneDane := QJsonObject.insert s.aktualneDane r.pole (r.ladunek doc) },
        APIService.zapiszDaneAutomatycznie otwarty
            { s with aktualneDane := QJsonObject.insert s.aktualneDane r.pole (r.ladunek doc) } ++
          [Efekt.sygnal (r.zdarzenie doc)]) := by
  cases r
  · simp only [Rodzaj.ksztaltPoprawny] at hshape
    simp [Rodzaj.obsluga, APIService.przetworzOdpowiedzStacje, hshape, Rodzaj.pole,
      Rodzaj.ladunek, Rodzaj.zdarzenie]
  · simp only [Rodzaj.ksztaltPoprawny] at hshape
    simp [Rodzaj.obsluga, APIService.przetworzOdpowiedzStanowiska, hshape, Rodzaj.pole,
      Rodzaj.ladunek, Rodzaj.zdarzenie]
  · simp only [Rodzaj.ksztaltPoprawny, Bool.and_eq_true] at hshape
    obtain ⟨⟨hobj, hkey⟩, hval⟩ := hshape
    have hfst : (QJsonObject.index doc.toObject "key").1 = doc.toObject :=
      QJsonObject.index_fst_of_contains _ _ hkey
    simp only [Rodzaj.obsluga, APIService.przetworzOdpowiedzPomiary, hobj, hkey, hval, hfst,
      QJsonObject.index_snd_toQString, QJsonObject.index_snd_toArray, Rodzaj.pole,
      Rodzaj.ladunek, Rodzaj.zdarzenie]
    simp
  · simp only [Rodzaj.ksztaltPoprawny] at hshape
    simp [Rodzaj.obsluga, APIService.przetworzOdpowiedzIndeks, hshape, Rodzaj.pole,
      Rodzaj.ladunek, Rodzaj.zdarzenie]

/-- The router hands a radius-tagged reply to the radius filter, after the
insertion into the cache. -/
theorem APIService.onReplyFinished_zPromieniem {α : Type} [QDouble α]
    (toLower : QString → QString)
    (stdSort : (QJsonObject α → QJsonObject α → Bool) → List (QJsonObject α) → List (QJsonObject α))
    (toDouble : QString → α) (otwarty : Bool) (reply : QNetworkReply α) (s : APIService α)
    (herr : reply.error = none) (hdoc : reply.readAll.isNull = false)
    (hgeo : reply.request.naglowekGeoFiltr = "1") :
    APIService.onReplyFinished toLower stdSort toDouble otwarty reply s =
      some (APIService.filtrujStacjeWPromieniu stdSort toDouble
        (atrybutToDouble reply.request.atrybutUser)
        (atrybutToDouble reply.request.atrybutUserMax)
        (atrybutToDouble reply.request.atrybutHttpPipeliningAllowed)
        { s with cache := s.cache.insert reply.url reply.readAll }) := by
  unfold APIService.onReplyFinished
  simp [herr, hdoc, hgeo]

/-- The router hands a reply that is not radius-tagged and whose URL names a
kind other than the station list to the handler of that kind, whatever the
query of the request. -/
theorem APIService.onReplyFinished_obsluga_inne {α : Type} [QDouble α]
    (toLower : QString → QString)
    (stdSort : (QJsonObject α → QJsonObject α → Bool) → List (QJsonObject α) → List (QJsonObject α))
    (toDouble : QString → α) (otwarty : Bool) (reply : QNetworkReply α) (s : APIService α)
    (herr : reply.error = none) (hdoc : reply.readAll.isNull = false)
    (hgeo : reply.request.naglowekGeoFiltr ≠ "1")
    (r : Rodzaj) (hk : klasyfikuj reply.url = some r) (hr : r ≠ Rodzaj.stacje) :
    APIService.onReplyFinished toLower stdSort toDouble otwarty reply s =
      some (r.obsluga otwarty reply.readAll
        { s with cache := s.cache.insert reply.url reply.readAll }) := by
  unfold APIService.onReplyFinished
  simp only [herr, hdoc, hgeo, if_false, Bool.false_eq_true]
  unfold klasyfikuj at hk
  cases h1 : qContains reply.url "station/findAll"
  · cases h2 : qContains reply.url "station/sensors"
    · cases h3 : qContains reply.url "data/getData"
      · cases h4 : qContains reply.url "aqindex/getIndex"
        · simp [h1, h2, h3, h4] at hk
        · simp only [h1, h2, h3, h4, if_true, if_false, Bool.false_eq_true,
            Option.some.injEq] at hk
          subst hk
          simp [Rodzaj.obsluga]
      · simp only [h1, h2, h3, if_true, if_false, Bool.false_eq_true, Option.some.injEq] at hk
        subst hk
        simp [Rodzaj.obsluga]
    · simp only [h1, h2, if_true, if_false, Bool.false_eq_true, Option.some.injEq] at hk
      subst hk
      simp [Rodzaj.obsluga]
  · simp only [h1, if_true, Option.some.injEq] at hk
    exact absurd hk.symm hr

/-- The router hands a reply that is not radius-tagged to the handler of its
kind, after the insertion into the cache. For the station list the query of the
request must not mention `miasto`. -/
theorem APIService.onReplyFinished_obsluga {α : Type} [QDouble α]
    (toLower : QString → QString)
    (stdSort : (QJsonObject α → QJsonObject α → Bool) → List (QJsonObject α) → List (QJsonObject α))
    (toDouble : QString → α) (otwarty : Bool) (reply : QNetworkReply α) (s : APIService α)
    (herr : reply.error = none) (hdoc : reply.readAll.isNull = false)
    (hgeo : reply.request.naglowekGeoFiltr ≠ "1")
    (hq : qContains (zapytanieUrl reply.request.url) "miasto" = false)
    (r : Rodzaj) (hk : klasyfikuj reply.url = some r) :
    APIService.onReplyFinished toLower stdSort toDouble otwarty reply s =
      some (r.obsluga otwarty reply.readAll
        { s with cache := s.cache.insert reply.url reply.readAll }) := by
  unfold APIService.onReplyFinished
  simp only [herr, hdoc, hgeo, hq, if_false, Bool.false_eq_true]
  unfold klasyfikuj at hk
  cases h1 : qContains reply.url "station/findAll"
  · cases h2 : qContains reply.url "station/sensors"
    · cases h3 : qContains reply.url "data/getData"
      · cases h4 : qContains reply.url "aqindex/getIndex"
        · simp [h1, h2, h3, h4] at hk
        · simp only [h1, h2, h3, h4, if_true, if_false, Bool.false_eq_true,
            Option.some.injEq] at hk
          subst hk
          simp [Rodzaj.obsluga]
      · simp only [h1, h2, h3, if_true, if_false, Bool.false_eq_true, Option.some.injEq] at hk
        subst hk
        simp [Rodzaj.obsluga]
    · simp only [h1, h2, if_true, if_false, Bool.false_eq_true, Option.some.injEq] at hk
      subst hk
      simp [Rodzaj.obsluga]
  · simp only [h1, if_true, Option.some.injEq] at hk
    subst hk
    simp [Rodzaj.obsluga]

/-- The autosave always does something: it writes the file or logs a
warning. -/
theorem APIService.zapiszDaneAutomatycznie_ne_nil {α : Type} (otwarty : Bool)
    (s : APIService α) : s.zapiszDaneAutomatycznie otwarty ≠ [] := by
  unfold APIService.zapiszDaneAutomatycznie
  cases otwarty <;> simp

/-- The autosave emits no error signal. -/
theorem APIService.blad_not_mem_zapiszDaneAutomatycznie {α : Type} (otwarty : Bool)
    (s : APIService α) (opis : QString) :
    Efekt.sygnal (Sygnal.blad opis) ∉ s.zapiszDaneAutomatycznie otwarty := by
  unfold APIService.zapiszDaneAutomatycznie
  cases otwarty <;> simp

/-- C17. A reply that is not radius-tagged, is classified by its URL (with no
`miasto` in the query of its request) and carries a payload of the wrong shape
for its kind: `onReplyFinished` produces exactly one effect, an error signal;
no result signal, no autosave, and `aktualneDane` is as before. -/
theorem APIService.onReplyFinished_wrong_shape {α : Type} [QDouble α]
    (toLower : QString → QString)
    (stdSort : (QJsonObject α → QJsonObject α → Bool) → List (QJsonObject α) → List (QJsonObject α))
    (toDouble : QString → α) (otwarty : Bool) (reply : QNetworkReply α) (s : APIService α)
    (herr : reply.error = none) (hdoc : reply.readAll.isNull = false)
    (hgeo : reply.request.naglowekGeoFiltr ≠ "1")
    (hq : qContains (zapytanieUrl reply.request.url) "miasto" = false)
    (r : Rodzaj) (hk : klasyfikuj reply.url = some r)
    (hshape : r.ksztaltPoprawny reply.readAll = false) :
    ∃ opis s2,
      APIService.onReplyFinished toLower stdSort toDouble otwarty reply s =
        some (s2, [Efekt.sygnal (Sygnal.blad opis)]) ∧
      s2.aktualneDane = s.aktualneDane := by
  obtain ⟨opis, h⟩ := r.obsluga_wrong_shape otwarty reply.readAll
    { s with cache := s.cache.insert reply.url reply.readAll } hshape
  refine ⟨opis, { s with cache := s.cache.insert reply.url reply.readAll }, ?_, rfl⟩
  rw [APIService.onReplyFinished_obsluga toLower stdSort toDouble otwarty reply s herr hdoc
    hgeo hq r hk, h]

/-- C19. A reply that is not radius-tagged, is classified by its URL (with no
`miasto` in the query of its request) and carries a payload of the right shape
for its kind: after `onReplyFinished` the field of `aktualneDane` of that kind
holds the payload, every other field reads as before, the autosave has run, and
the last effect is the result signal carrying the payload. -/
theorem APIService.onReplyFinished_right_shape {α : Type} [QDouble α]
    (toLower : QString → QString)
    (stdSort : (QJsonObject α → QJsonObject α → Bool) → List (QJsonObject α) → List (QJsonObject α))
    (toDouble : QString → α) (otwarty : Bool) (reply : QNetworkReply α) (s : APIService α)
    (herr : reply.error = none) (hdoc : reply.readAll.isNull = false)
    (hgeo : reply.request.naglowekGeoFiltr ≠ "1")
    (hq : qContains (zapytanieUrl reply.request.url) "miasto" = false)
    (r : Rodzaj) (hk : klasyfikuj reply.url = some r)
    (hshape : r.ksztaltPoprawny reply.readAll = true) :
    ∃ s2,
      APIService.onReplyFinished toLower stdSort toDouble otwarty reply s =
        some (s2, s2.zapiszDaneAutomatycznie otwarty ++
          [Efekt.sygnal (r.zdarzenie reply.readAll)]) ∧
      QJsonObject.value s2.aktualneDane r.pole = r.ladunek reply.readAll ∧
      (∀ key : QString, key ≠ r.pole →
        QJsonObject.value s2.aktualneDane key = QJsonObject.value s.aktualneDane key) ∧
      s2.zapiszDaneAutomatycznie otwarty ≠ [] := by
  refine ⟨{ cache := s.cache.insert reply.url reply.readAll,
            aktualneDane := QJsonObject.insert s.aktualneDane r.pole (r.ladunek reply.readAll) },
    ?_, ?_, ?_, ?_⟩
  · rw [APIService.onReplyFinished_obsluga toLower stdSort toDouble otwarty reply s herr hdoc
      hgeo hq r hk, Rodzaj.obsluga_right_shape r otwarty reply.readAll _ hshape]
  · exact QJsonObject.value_insert_same _ _ _
  · intro key hkey
    exact QJsonObject.value_insert_other _ _ _ _ hkey
  · exact APIService.zapiszDaneAutomatycznie_ne_nil _ _

/-- C20. The routing of a reply with no error and a body that is valid JSON,
after its insertion into the cache: with the radius marker it goes to the
radius filter alone, whatever its URL; without the marker it goes to the
handler of the first path fragment its URL contains, `station/findAll` (with
no `miasto` in the query of the request) to the stations handler,
`station/sensors` to the sensors handler, `data/getData` to the measurements
handler, `aqindex/getIndex` to the index handler, and to no handler when it
contains none of them. -/
theorem APIService.onReplyFinished_routing {α : Type} [QDouble α]
    (toLower : QString → QString)
    (stdSort : (QJsonObject α → QJsonObject α → Bool) → List (QJsonObject α) → List (QJsonObject α))
    (toDouble : QString → α) (otwarty : Bool) (reply : QNetworkReply α) (s : APIService α)
    (herr : reply.error = none) (hdoc : reply.readAll.isNull = false) :
    (reply.request.naglowekGeoFiltr = "1" →
      APIService.onReplyFinished toLower stdSort toDouble otwarty reply s =
        some (APIService.filtrujStacjeWPromieniu stdSort toDouble
          (atrybutToDouble reply.request.atrybutUser)
          (atrybutToDouble reply.request.atrybutUserMax)
          (atrybutToDouble reply.request.atrybutHttpPipeliningAllowed)
          { s with cache := s.cache.insert reply.url reply.readAll })) ∧
    (reply.request.naglowekGeoFiltr ≠ "1" →
      (qContains reply.url "station/findAll" = true →
        qContains (zapytanieUrl reply.request.url) "miasto" = false →
        APIService.onReplyFinished toLower stdSort toDouble otwarty reply s =
          some (APIService.przetworzOdpowiedzStacje otwarty reply.readAll
            { s with cache := s.cache.insert reply.url reply.readAll })) ∧
      (qContains reply.url "station/findAll" = false →
        qContains reply.url "station/sensors" = true →
        APIService.onReplyFinished toLower stdSort toDouble otwarty reply s =
          some (APIService.przetworzOdpowiedzStanowiska otwarty reply.readAll
            { s with cache := s.cache.insert reply.url reply.readAll })) ∧
      (qContains reply.url "station/findAll" = false →
        qContains reply.url "station/sensors" = false →
        qContains reply.url "data/getData" = true →
        APIService.onReplyFinished toLower stdSort toDouble otwarty reply s =
          some (APIService.przetworzOdpowiedzPomiary otwarty reply.readAll
            { s with cache := s.cache.insert reply.url reply.readAll })) ∧
      (qContains reply.url "station/findAll" = false →
        qContains reply.url "station/sensors" = false →
        qContains reply.url "data/getData" = false →
        qContains reply.url "aqindex/getIndex" = true →
        APIService.onReplyFinished toLower stdSort toDouble otwarty reply s =
          some (APIService.przetworzOdpowiedzIndeks otwarty reply.readAll
            { s with cache := s.cache.insert reply.url reply.readAll })) ∧
      (qContains reply.url "station/findAll" = false →
        qContains reply.url "station/sensors" = false →
        qContains reply.url "data/getData" = false →
        qContains reply.url "aqindex/getIndex" = false →
        APIService.onReplyFinished toLower stdSort toDouble otwarty reply s =
          some ({ s with cache := s.cache.insert reply.url reply.readAll }, []))) := by
  refine ⟨?_, ?_⟩
  · intro hgeo
    unfold APIService.onReplyFinished
    simp [herr, hdoc, hgeo]
  · intro hgeo
    refine ⟨?_, ?_, ?_, ?_, ?_⟩
    · intro h1 hq
      unfold APIService.onReplyFinished
      simp [herr, hdoc, hgeo, h1, hq]
    · intro h1 h2
      unfold APIService.onReplyFinished
      simp [herr, hdoc, hgeo, h1, h2]
    · intro h1 h2 h3
      unfold APIService.onReplyFinished
      simp [herr, hdoc, hgeo, h1, h2, h3]
    · intro h1 h2 h3 h4
      unfold APIService.onReplyFinished
      simp [herr, hdoc, hgeo, h1, h2, h3, h4]
    · intro h1 h2 h3 h4
      unfold APIService.onReplyFinished
      simp [herr, hdoc, hgeo, h1, h2, h3, h4]

/-- A reply that is not radius-tagged and names none of the four fragments is
put into the cache and handled no further. -/
theorem APIService.onReplyFinished_unclassified {α : Type} [QDouble α]
    (toLower : QString → QString)
    (stdSort : (QJsonObject α → QJsonObject α → Bool) → List (QJsonObject α) → List (QJsonObject α))
    (toDouble : QString → α) (otwarty : Bool) (reply : QNetworkReply α) (s : APIService α)
    (herr : reply.error = none) (hdoc : reply.readAll.isNull = false)
    (hgeo : reply.request.naglowekGeoFiltr ≠ "1") (hk : klasyfikuj reply.url = none) :
    APIService.onReplyFinished toLower stdSort toDouble otwarty reply s =
      some ({ s with cache := s.cache.insert reply.url reply.readAll }, []) := by
  unfold klasyfikuj at hk
  unfold APIService.onReplyFinished
  cases h1 : qContains reply.url "station/findAll" <;>
    cases h2 : qContains reply.url "station/sensors" <;>
    cases h3 : qContains reply.url "data/getData" <;>
    cases h4 : qContains reply.url "aqindex/getIndex" <;>
    simp [h1, h2, h3, h4] at hk
  simp [herr, hdoc, hgeo, h1, h2, h3, h4]

/-- A handler leaves the cache as it is. -/
theorem Rodzaj.obsluga_cache {α : Type} (r : Rodzaj) (otwarty : Bool)
    (doc : QJsonDocument α) (s : APIService α) : (r.obsluga otwarty doc s).1.cache = s.cache := by
  cases h : r.ksztaltPoprawny doc
  · obtain ⟨opis, h2⟩ := r.obsluga_wrong_shape otwarty doc s h
    rw [h2]
  · rw [r.obsluga_right_shape otwarty doc s h]

/-- The radius filter as a member function changes the use order of the cache
only, leaves `aktualneDane` as it is and emits no error signal. -/
theorem APIService.filtrujStacjeWPromieniu_frame {α : Type} [QDouble α]
    (stdSort : (QJsonObject α → QJsonObject α → Bool) → List (QJsonObject α) → List (QJsonObject α))
    (toDouble : QString → α) (lat lon promienKm : α) (s : APIService α) :
    (∀ key, (s.filtrujStacjeWPromieniu stdSort toDouble lat lon promienKm).1.cache.object key =
        s.cache.object key) ∧
      (s.filtrujStacjeWPromieniu stdSort toDouble lat lon promienKm).1.aktualneDane =
        s.aktualneDane ∧
      ∀ opis, Efekt.sygnal (Sygnal.blad opis) ∉
        (s.filtrujStacjeWPromieniu stdSort toDouble lat lon promienKm).2 := by
  unfold APIService.filtrujStacjeWPromieniu
  cases WhetherApi.filtrujStacjeWPromieniu stdSort toDouble s.cache lat lon promienKm with
  | none => simp
  | some a =>
    refine ⟨fun key => QCache.object_relink _ _ _, rfl, ?_⟩
    intro opis
    simp

/-- C14. When the cache holds a station array under the station-list URL,
`pobierzWszystkieStacje` hands no request to the network manager, and the one
`daneStacjiPobrane` signal it emits, after the autosave, carries exactly the
cached array. -/
theorem APIService.pobierzWszystkieStacje_cache_hit {α : Type} (otwarty : Bool)
    (s : APIService α) (stacje : QJsonArray α)
    (hc : s.cache.object urlFindAll = some (QJsonDocument.array stacje)) :
    (∃ s2, s.pobierzWszystkieStacje otwarty =
        (s2, s2.zapiszDaneAutomatycznie otwarty ++
          [Efekt.sygnal (Sygnal.daneStacjiPobrane stacje)])) ∧
      (∀ request, Efekt.zadanie request ∉ (s.pobierzWszystkieStacje otwarty).2) ∧
      (∀ x, Efekt.sygnal (Sygnal.daneStacjiPobrane x) ∈ (s.pobierzWszystkieStacje otwarty).2 →
        x = stacje) := by
  have hrun : s.pobierzWszystkieStacje otwarty =
      ({ cache := s.cache.relink urlFindAll,
         aktualneDane := QJsonObject.insert s.aktualneDane "stacje" (QJsonValue.array stacje) },
       APIService.zapiszDaneAutomatycznie otwarty
          { cache := s.cache.relink urlFindAll,
            aktualneDane :=
              QJsonObject.insert s.aktualneDane "stacje" (QJsonValue.array stacje) } ++
        [Efekt.sygnal (Sygnal.daneStacjiPobrane stacje)]) := by
    unfold APIService.pobierzWszystkieStacje
    simp [QCache.contains, hc, APIService.przetworzOdpowiedzStacje, QJsonDocument.isArray,
      QJsonDocument.toArray]
  refine ⟨⟨_, hrun⟩, ?_, ?_⟩
  · intro request
    rw [hrun]
    unfold APIService.zapiszDaneAutomatycznie
    cases otwarty <;> simp
  · intro x
    rw [hrun]
    unfold APIService.zapiszDaneAutomatycznie
    cases otwarty <;> simp

/-- C15. After `onReplyFinished` on a reply with no error and a body that is
valid JSON (and no `miasto` in the query of its request), the cache of capacity
at least 1 maps the URL of the reply to the document, whatever it held under
that URL before; and when the cache holds nothing under the station-list URL,
in particular when it is empty, `pobierzWszystkieStacje` hands exactly one
request to the network manager, the plain request for that URL. -/
theorem APIService.onReplyFinished_caches_reply {α : Type} [QDouble α]
    (toLower : QString → QString)
    (stdSort : (QJsonObject α → QJsonObject α → Bool) → List (QJsonObject α) → List (QJsonObject α))
    (toDouble : QString → α) (otwarty : Bool) (reply : QNetworkReply α) (s : APIService α)
    (herr : reply.error = none) (hdoc : reply.readAll.isNull = false)
    (hq : qContains (zapytanieUrl reply.request.url) "miasto" = false)
    (hcap : 1 ≤ s.cache.maxCost) :
    (∃ s2 ef, APIService.onReplyFinished toLower stdSort toDouble otwarty reply s =
        some (s2, ef) ∧ s2.cache.object reply.url = some reply.readAll) ∧
      (s.cache.contains urlFindAll = false →
        s.pobierzWszystkieStacje otwarty =
          (s, [Efekt.zadanie (QNetworkRequest.prosty urlFindAll)])) := by
  constructor
  · have hins := QCache.object_insert_same s.cache reply.url reply.readAll hcap
    by_cases hgeo : reply.request.naglowekGeoFiltr = "1"
    · have hfr := (APIService.filtrujStacjeWPromieniu_frame stdSort toDouble
        (atrybutToDouble reply.request.atrybutUser)
        (atrybutToDouble reply.request.atrybutUserMax)
        (atrybutToDouble reply.request.atrybutHttpPipeliningAllowed)
        { s with cache := s.cache.insert reply.url reply.readAll }).1 reply.url
      exact ⟨_, _, APIService.onReplyFinished_zPromieniem toLower stdSort toDouble otwarty reply s
        herr hdoc hgeo, hfr.trans hins⟩
    · cases hk : klasyfikuj reply.url with
      | none =>
        exact ⟨_, _, APIService.onReplyFinished_unclassified toLower stdSort toDouble otwarty
          reply s herr hdoc hgeo hk, hins⟩
      | some r =>
        have hfr := congrArg (fun c => QCache.object c reply.url)
          (Rodzaj.obsluga_cache r otwarty reply.readAll
            { s with cache := s.cache.insert reply.url reply.readAll })
        exact ⟨_, _, APIService.onReplyFinished_obsluga toLower stdSort toDouble otwarty
          reply s herr hdoc hgeo hq r hk, hfr.trans hins⟩
  · intro hc
    unfold APIService.pobierzWszystkieStacje
    simp [hc]

/-! ## Theorems: requests of the service and concrete replies -/

theorem urlFindAll_contains_findAll : qContains urlFindAll "station/findAll" = true := by
  decide

theorem urlFindAll_bez_miasta : qContains (zapytanieUrl urlFindAll) "miasto" = false := by
  decide

theorem klasyfikuj_urlFindAll : klasyfikuj urlFindAll = some Rodzaj.stacje := by
  unfold klasyfikuj
  simp [urlFindAll_contains_findAll]

/-- The requests that `pobierzWszystkieStacje` and `pobierzStacjeWMiescie` hand
to the network manager carry no radius marker and no `miasto` in the query. -/
theorem APIService.zadania_bez_miasta {α : Type} (toLower : QString → QString)
    (otwarty : Bool) (miasto : QString) (s : APIService α) (request : QNetworkRequest α)
    (h : Efekt.zadanie request ∈ (s.pobierzWszystkieStacje otwarty).2 ∨
      Efekt.zadanie request ∈ (s.pobierzStacjeWMiescie toLower miasto).2) :
    request = QNetworkRequest.prosty urlFindAll ∧
      qContains (zapytanieUrl request.url) "miasto" = false := by
  have hreq : request = QNetworkRequest.prosty urlFindAll := by
    rcases h with h | h
    · unfold APIService.pobierzWszystkieStacje at h
      cases hc : s.cache.contains urlFindAll
      · simpa [hc] using h
      · simp only [hc, if_true] at h
        cases ho : s.cache.object urlFindAll with
        | none => simp [ho] at h
        | some doc =>
          simp only [ho, APIService.przetworzOdpowiedzStacje] at h
          cases ha : doc.isArray
          · simp [ha] at h
          · simp only [ha, Bool.true_eq_false, if_false, List.mem_append] at h
            rcases h with h | h
            · unfold APIService.zapiszDaneAutomatycznie at h
              cases otwarty <;> simp at h
            · simp at h
    · unfold APIService.pobierzStacjeWMiescie at h
      cases hc : s.cache.contains urlFindAll
      · simpa [hc] using h
      · simp only [hc, if_true] at h
        cases ho : s.cache.object urlFindAll with
        | none => simp [ho] at h
        | some doc => simp [ho] at h
  subst hreq
  exact ⟨rfl, urlFindAll_bez_miasta⟩

/-- C13, a run. The cache holds the station array `[stacjaA]` under the
station-list URL. `zapiszDaneDoPliku` writes the document
`{"cache": {url: {}}}`, the array being stored as `doc->object()`, the empty
object; `wczytajDaneZPliku` of that document into the new, empty service
leaves the empty object under the URL, not the array. -/
theorem APIService.zapisz_wczytaj_loses_array :
    (serwisA : APIService ℝ).cache.object urlFindAll =
        some (QJsonDocument.array [stacjaA]) ∧
    ((serwisA : APIService ℝ).zapiszDaneDoPliku true "cache.json").2.2 =
        [Efekt.zapis "cache.json"
            (QJsonDocument.object
              [("cache", QJsonValue.object [(urlFindAll, QJsonValue.object [])])]),
          Efekt.sygnal (Sygnal.daneZapisane true)] ∧
    ((serwisPusty : APIService ℝ).wczytajDaneZPliku
        (some (QJsonDocument.object
          [("cache", QJsonValue.object [(urlFindAll, QJsonValue.object [])])]))).2.1.cache.object
          urlFindAll = some (QJsonDocument.object []) := by
  refine ⟨cacheA_object, ?_, ?_⟩
  · have h1 : (serwisA : APIService ℝ).cache.keys = [urlFindAll] := rfl
    have h2 : (serwisA : APIService ℝ).cache.object urlFindAll =
        some (QJsonDocument.array [stacjaA]) := cacheA_object
    simp only [APIService.zapiszDaneDoPliku, if_true, h1, zbierzCache, h2,
      QJsonDocument.toObject, QJsonObject.insert]
  · have h3 : QJsonObject.contains
        ([("cache", QJsonValue.object [(urlFindAll, QJsonValue.object [])])] : QJsonObject ℝ)
        "cache" = true := by decide
    have h4 : (QJsonObject.index
        ([("cache", QJsonValue.object [(urlFindAll, QJsonValue.object [])])] : QJsonObject ℝ)
        "cache").2.toObject = [(urlFindAll, QJsonValue.object [])] := rfl
    have h5 : (QJsonObject.index ([(urlFindAll, QJsonValue.object [])] : QJsonObject ℝ)
        urlFindAll).2.toObject = [] := by
      have hl : List.lookup urlFindAll
          ([(urlFindAll, QJsonValue.object [])] : QJsonObject ℝ) =
          some (QJsonValue.object []) := by simp [List.lookup]
      simp only [QJsonObject.index, hl, QJsonValue.toObject]
    simp only [APIService.wczytajDaneZPliku, QJsonDocument.isNull, QJsonDocument.isObject,
      QJsonDocument.toObject, Bool.and_self, if_true, h3, h4, QJsonObject.keys, List.map_cons,
      List.map_nil, wstawZPliku, h5, decide_True]
    exact QCache.object_insert_same _ _ _ (by decide)

/-- C16, a run. With an empty cache `pobierzStacjeWMiescie("Warszawa")` hands
the plain station-list request to the network manager; on the reply to it,
with the stations `stacjaA` (Warszawa) and `stacjaK` (Kraków),
`onReplyFinished` emits `daneStacjiPobrane` with both stations, while the city
filter of the list for `Warszawa` is `stacjaA` alone. -/
theorem APIService.pobierzStacjeWMiescie_network_unfiltered :
    (serwisPusty : APIService ℝ).pobierzStacjeWMiescie toLowerAscii "Warszawa" =
        (serwisPusty, [Efekt.zadanie (QNetworkRequest.prosty urlFindAll)]) ∧
    (odpowiedzStacjeAK : QNetworkReply ℝ).request = QNetworkRequest.prosty urlFindAll ∧
    (∃ s2, APIService.onReplyFinished toLowerAscii insertionSortLate toDoubleReal true
          odpowiedzStacjeAK (serwisPusty : APIService ℝ) =
        some (s2, s2.zapiszDaneAutomatycznie true ++
          [Efekt.sygnal (Sygnal.daneStacjiPobrane [stacjaA, stacjaK])])) ∧
    filtrujStacjePoMiescie toLowerAscii ([stacjaA, stacjaK] : QJsonArray ℝ) "Warszawa" =
        [stacjaA] := by
  refine ⟨?_, rfl, ?_, ?_⟩
  · have hc : (serwisPusty : APIService ℝ).cache.contains urlFindAll = false := rfl
    unfold APIService.pobierzStacjeWMiescie
    simp [hc]
  · refine ⟨{ cache := QCache.insert QCache.pusty urlFindAll
                  (QJsonDocument.array [stacjaA, stacjaK]),
                aktualneDane := QJsonObject.insert [] "stacje"
                  (QJsonValue.array [stacjaA, stacjaK]) }, ?_⟩
    rw [APIService.onReplyFinished_obsluga toLowerAscii insertionSortLate toDoubleReal true
      odpowiedzStacjeAK serwisPusty rfl rfl (by decide) urlFindAll_bez_miasta Rodzaj.stacje
      klasyfikuj_urlFindAll,
      Rodzaj.obsluga_right_shape Rodzaj.stacje true
        (odpowiedzStacjeAK : QNetworkReply ℝ).readAll _ rfl]
    rfl
  · have hA : miastoPasuje toLowerAscii "Warszawa" (stacjaA : QJsonValue ℝ) = true := by decide
    have hK : miastoPasuje toLowerAscii "Warszawa" (stacjaK : QJsonValue ℝ) = false := by decide
    have hfst : (QJsonObject.index (stacjaA : QJsonValue ℝ).toObject "city").1 =
        (stacjaA : QJsonValue ℝ).toObject :=
      QJsonObject.index_fst_of_contains _ _ (by decide)
    simp only [filtrujStacjePoMiescie, List.filterMap_cons, List.filterMap_nil, hA, hK, hfst,
      if_true, Bool.false_eq_true, if_false]
    rfl

/-- C18, counterexample. A reply with no error whose body is the empty object,
valid JSON of the wrong shape for the station list: `onReplyFinished` emits the
error signal, and the cache, which held nothing under the URL before, holds the
object under it afterwards. -/
theorem APIService.onReplyFinished_error_changes_cache :
    (serwisPusty : APIService ℝ).cache.object urlFindAll = none ∧
    ∃ s2, APIService.onReplyFinished toLowerAscii insertionSortLate toDoubleReal true
          odpowiedzObiekt (serwisPusty : APIService ℝ) =
        some (s2, [Efekt.sygnal (Sygnal.blad "Oczekiwano tablicy JSON")]) ∧
      s2.cache.object urlFindAll = some (QJsonDocument.object []) ∧
      s2.cache ≠ (serwisPusty : APIService ℝ).cache := by
  refine ⟨rfl, { cache := QCache.insert QCache.pusty urlFindAll (QJsonDocument.object []),
                 aktualneDane := [] }, ?_, ?_, ?_⟩
  · rw [APIService.onReplyFinished_obsluga toLowerAscii insertionSortLate toDoubleReal true
      odpowiedzObiekt serwisPusty rfl rfl (by decide) urlFindAll_bez_miasta Rodzaj.stacje
      klasyfikuj_urlFindAll]
    rfl
  · exact QCache.object_insert_same _ _ _ (by decide)
  · intro h
    have h2 := congrArg (fun c => (QCache.object c urlFindAll).isSome) h
    simp only [QCache.object_insert_same _ _ _ (show 1 ≤ (QCache.pusty : QCache ℝ).maxCost by decide)] at h2
    exact absurd h2 (by decide)

/-- C18, amended. For every reply (with no `miasto` in the query of its
request) `onReplyFinished` returns, and when it has emitted an error signal
`aktualneDane` is as before; the cache is as before for a network error and for
a body that is not valid JSON, and otherwise it is the cache before with the
reply document inserted under the reply URL. -/
theorem APIService.onReplyFinished_error_frame {α : Type} [QDouble α]
    (toLower : QString → QString)
    (stdSort : (QJsonObject α → QJsonObject α → Bool) → List (QJsonObject α) → List (QJsonObject α))
    (toDouble : QString → α) (otwarty : Bool) (reply : QNetworkReply α) (s : APIService α)
    (hq : qContains (zapytanieUrl reply.request.url) "miasto" = false) :
    ∃ s2 ef, APIService.onReplyFinished toLower stdSort toDouble otwarty reply s = some (s2, ef) ∧
      ((∃ opis, Efekt.sygnal (Sygnal.blad opis) ∈ ef) →
        s2.aktualneDane = s.aktualneDane ∧
        ((reply.error ≠ none ∨ reply.readAll.isNull = true) → s2.cache = s.cache) ∧
        (reply.error = none → reply.readAll.isNull = false →
          s2.cache = s.cache.insert reply.url reply.readAll)) := by
  cases herr : reply.error with
  | some e =>
    refine ⟨s, [Efekt.sygnal (Sygnal.blad ("Błąd sieci: " ++ e))],
      by simp [APIService.onReplyFinished, herr], ?_⟩
    intro _
    exact ⟨rfl, fun _ => rfl, fun h => by simp at h⟩
  | none =>
    cases hdoc : reply.readAll.isNull with
    | true =>
      refine ⟨s, [Efekt.sygnal (Sygnal.blad "Nieprawidłowy format JSON")],
        by simp [APIService.onReplyFinished, herr, hdoc], ?_⟩
      intro _
      exact ⟨rfl, fun _ => rfl, fun _ h => by simp at h⟩
    | false =>
      by_cases hgeo : reply.request.naglowekGeoFiltr = "1"
      · have hfr := APIService.filtrujStacjeWPromieniu_frame stdSort toDouble
          (atrybutToDouble reply.request.atrybutUser)
          (atrybutToDouble reply.request.atrybutUserMax)
          (atrybutToDouble reply.request.atrybutHttpPipeliningAllowed)
          { s with cache := s.cache.insert reply.url reply.readAll }
        refine ⟨_, _, APIService.onReplyFinished_zPromieniem toLower stdSort toDouble otwarty
          reply s herr hdoc hgeo, ?_⟩
        rintro ⟨opis, hmem⟩
        exact absurd hmem (hfr.2.2 opis)
      · cases hk : klasyfikuj reply.url with
        | none =>
          refine ⟨_, _, APIService.onReplyFinished_unclassified toLower stdSort toDouble otwarty
            reply s herr hdoc hgeo hk, ?_⟩
          rintro ⟨opis, hmem⟩
          simp at hmem
        | some r =>
          have hrun := APIService.onReplyFinished_obsluga toLower stdSort toDouble otwarty
            reply s herr hdoc hgeo hq r hk
          cases hshape : r.ksztaltPoprawny reply.readAll with
          | false =>
            obtain ⟨opis, h2⟩ := r.obsluga_wrong_shape otwarty reply.readAll
              { s with cache := s.cache.insert reply.url reply.readAll } hshape
            rw [h2] at hrun
            refine ⟨_, _, hrun, ?_⟩
            intro _
            exact ⟨rfl, fun h => by simp at h, fun _ _ => rfl⟩
          | true =>
            rw [r.obsluga_right_shape otwarty reply.readAll _ hshape] at hrun
            refine ⟨_, _, hrun, ?_⟩
            rintro ⟨opis, hmem⟩
            rw [List.mem_append] at hmem
            rcases hmem with hmem | hmem
            · exact absurd hmem (APIService.blad_not_mem_zapiszDaneAutomatycznie _ _ _)
            · cases r <;> simp [Rodzaj.zdarzenie] at hmem

/-! ## Runs of the theorems on the service -/

/-- C14: a run on the service whose cache holds `[stacjaA]`. -/
theorem APIService.pobierzWszystkieStacje_cache_hit_witness :
    (serwisA : APIService ℝ).cache.object urlFindAll = some (QJsonDocument.array [stacjaA]) ∧
    ((∃ s2, (serwisA : APIService ℝ).pobierzWszystkieStacje true =
        (s2, s2.zapiszDaneAutomatycznie true ++
          [Efekt.sygnal (Sygnal.daneStacjiPobrane [stacjaA])])) ∧
      (∀ request, Efekt.zadanie request ∉
        ((serwisA : APIService ℝ).pobierzWszystkieStacje true).2) ∧
      (∀ x, Efekt.sygnal (Sygnal.daneStacjiPobrane x) ∈
          ((serwisA : APIService ℝ).pobierzWszystkieStacje true).2 → x = [stacjaA])) :=
  ⟨cacheA_object, APIService.pobierzWszystkieStacje_cache_hit true serwisA [stacjaA] cacheA_object⟩

/-- C15: a run on the new service and the reply with two stations. -/
theorem APIService.onReplyFinished_caches_reply_witness :
    (odpowiedzStacjeAK : QNetworkReply ℝ).error = none ∧
    (odpowiedzStacjeAK : QNetworkReply ℝ).readAll.isNull = false ∧
    qContains (zapytanieUrl (odpowiedzStacjeAK : QNetworkReply ℝ).request.url) "miasto" = false ∧
    1 ≤ (serwisPusty : APIService ℝ).cache.maxCost ∧
    ((∃ s2 ef, APIService.onReplyFinished toLowerAscii insertionSortLate toDoubleReal true
          odpowiedzStacjeAK (serwisPusty : APIService ℝ) = some (s2, ef) ∧
        s2.cache.object (odpowiedzStacjeAK : QNetworkReply ℝ).url =
          some (odpowiedzStacjeAK : QNetworkReply ℝ).readAll) ∧
      ((serwisPusty : APIService ℝ).cache.contains urlFindAll = false →
        (serwisPusty : APIService ℝ).pobierzWszystkieStacje true =
          (serwisPusty, [Efekt.zadanie (QNetworkRequest.prosty urlFindAll)]))) :=
  ⟨rfl, rfl, urlFindAll_bez_miasta, by decide,
    APIService.onReplyFinished_caches_reply toLowerAscii insertionSortLate toDoubleReal true
      odpowiedzStacjeAK serwisPusty rfl rfl urlFindAll_bez_miasta (by decide)⟩

/-- C17: a run on the reply whose body is an object where the station list is
expected. -/
theorem APIService.onReplyFinished_wrong_shape_witness :
    (odpowiedzObiekt : QNetworkReply ℝ).error = none ∧
    (odpowiedzObiekt : QNetworkReply ℝ).readAll.isNull = false ∧
    (odpowiedzObiekt : QNetworkReply ℝ).request.naglowekGeoFiltr ≠ "1" ∧
    qContains (zapytanieUrl (odpowiedzObiekt : QNetworkReply ℝ).request.url) "miasto" = false ∧
    klasyfikuj (odpowiedzObiekt : QNetworkReply ℝ).url = some Rodzaj.stacje ∧
    Rodzaj.stacje.ksztaltPoprawny (odpowiedzObiekt : QNetworkReply ℝ).readAll = false ∧
    ∃ opis s2,
      APIService.onReplyFinished toLowerAscii insertionSortLate toDoubleReal true
          odpowiedzObiekt (serwisPusty : APIService ℝ) =
        some (s2, [Efekt.sygnal (Sygnal.blad opis)]) ∧
      s2.aktualneDane = (serwisPusty : APIService ℝ).aktualneDane :=
  ⟨rfl, rfl, by decide, urlFindAll_bez_miasta, klasyfikuj_urlFindAll, rfl,
    APIService.onReplyFinished_wrong_shape toLowerAscii insertionSortLate toDoubleReal true
      odpowiedzObiekt serwisPusty rfl rfl (by decide) urlFindAll_bez_miasta Rodzaj.stacje
      klasyfikuj_urlFindAll rfl⟩

/-- C18, amended: a run on the reply whose body is an object where the station
list is expected. -/
theorem APIService.onReplyFinished_error_frame_witness :
    qContains (zapytanieUrl (odpowiedzObiekt : QNetworkReply ℝ).request.url) "miasto" = false ∧
    ∃ s2 ef, APIService.onReplyFinished toLowerAscii insertionSortLate toDoubleReal true
        odpowiedzObiekt (serwisPusty : APIService ℝ) = some (s2, ef) ∧
      ((∃ opis, Efekt.sygnal (Sygnal.blad opis) ∈ ef) →
        s2.aktualneDane = (serwisPusty : APIService ℝ).aktualneDane ∧
        (((odpowiedzObiekt : QNetworkReply ℝ).error ≠ none ∨
            (odpowiedzObiekt : QNetworkReply ℝ).readAll.isNull = true) →
          s2.cache = (serwisPusty : APIService ℝ).cache) ∧
        ((odpowiedzObiekt : QNetworkReply ℝ).error = none →
          (odpowiedzObiekt : QNetworkReply ℝ).readAll.isNull = false →
          s2.cache = (serwisPusty : APIService ℝ).cache.insert
            (odpowiedzObiekt : QNetworkReply ℝ).url
            (odpowiedzObiekt : QNetworkReply ℝ).readAll)) :=
  ⟨urlFindAll_bez_miasta,
    APIService.onReplyFinished_error_frame toLowerAscii insertionSortLate toDoubleReal true
      odpowiedzObiekt serwisPusty urlFindAll_bez_miasta⟩

/-- C19: a run on the new service and the reply with two stations. -/
theorem APIService.onReplyFinished_right_shape_witness :
    (odpowiedzStacjeAK : QNetworkReply ℝ).error = none ∧
    (odpowiedzStacjeAK : QNetworkReply ℝ).readAll.isNull = false ∧
    (odpowiedzStacjeAK : QNetworkReply ℝ).request.naglowekGeoFiltr ≠ "1" ∧
    qContains (zapytanieUrl (odpowiedzStacjeAK : QNetworkReply ℝ).request.url) "miasto" = false ∧
    klasyfikuj (odpowiedzStacjeAK : QNetworkReply ℝ).url = some Rodzaj.stacje ∧
    Rodzaj.stacje.ksztaltPoprawny (odpowiedzStacjeAK : QNetworkReply ℝ).readAll = true ∧
    ∃ s2,
      APIService.onReplyFinished toLowerAscii insertionSortLate toDoubleReal true
          odpowiedzStacjeAK (serwisPusty : APIService ℝ) =
        some (s2, s2.zapiszDaneAutomatycznie true ++
          [Efekt.sygnal (Rodzaj.stacje.zdarzenie (odpowiedzStacjeAK : QNetworkReply ℝ).readAll)]) ∧
      QJsonObject.value s2.aktualneDane Rodzaj.stacje.pole =
        Rodzaj.stacje.ladunek (odpowiedzStacjeAK : QNetworkReply ℝ).readAll ∧
      (∀ key : QString, key ≠ Rodzaj.stacje.pole →
        QJsonObject.value s2.aktualneDane key =
          QJsonObject.value (serwisPusty : APIService ℝ).aktualneDane key) ∧
      s2.zapiszDaneAutomatycznie true ≠ [] :=
  ⟨rfl, rfl, by decide, urlFindAll_bez_miasta, klasyfikuj_urlFindAll, rfl,
    APIService.onReplyFinished_right_shape toLowerAscii insertionSortLate toDoubleReal true
      odpowiedzStacjeAK serwisPusty rfl rfl (by decide) urlFindAll_bez_miasta Rodzaj.stacje
      klasyfikuj_urlFindAll rfl⟩

/-- C20: a run on the new service and the reply with two stations, which goes
to the stations handler. -/
theorem APIService.onReplyFinished_routing_witness :
    (odpowiedzStacjeAK : QNetworkReply ℝ).error = none ∧
    (odpowiedzStacjeAK : QNetworkReply ℝ).readAll.isNull = false ∧
    APIService.onReplyFinished toLowerAscii insertionSortLate toDoubleReal true
        odpowiedzStacjeAK (serwisPusty : APIService ℝ) =
      some (APIService.przetworzOdpowiedzStacje true
        (odpowiedzStacjeAK : QNetworkReply ℝ).readAll
        { (serwisPusty : APIService ℝ) with
          cache := (serwisPusty : APIService ℝ).cache.insert
            (odpowiedzStacjeAK : QNetworkReply ℝ).url
            (odpowiedzStacjeAK : QNetworkReply ℝ).readAll }) :=
  ⟨rfl, rfl,
    ((APIService.onReplyFinished_routing toLowerAscii insertionSortLate toDoubleReal true
      odpowiedzStacjeAK serwisPusty rfl rfl).2 (by decide)).1 urlFindAll_contains_findAll
      urlFindAll_bez_miasta⟩

/-! ## Theorems: the range of the distance -/

/-- The value `wartoscA` is the local `a` of `obliczOdleglosc`. -/
theorem obliczOdleglosc_eq_wartoscA {α : Type} [QDouble α] (lat1 lon1 lat2 lon2 : α) :
    obliczOdleglosc lat1 lon1 lat2 lon2 =
      lit 6371 * (lit 2 * qAtan2 (qSqrt (wartoscA lat1 lon1 lat2 lon2))
        (qSqrt (lit 1 - wartoscA lat1 lon1 lat2 lon2))) :=
  rfl

/-- The value `a` over the reals. -/
theorem wartoscA_real (lat1 lon1 lat2 lon2 : ℝ) :
    wartoscA lat1 lon1 lat2 lon2 =
      Real.sin ((lat2 - lat1) * (Real.pi / 180) / 2) *
          Real.sin ((lat2 - lat1) * (Real.pi / 180) / 2) +
        Real.cos (lat1 * (Real.pi / 180)) * Real.cos (lat2 * (Real.pi / 180)) *
          Real.sin ((lon2 - lon1) * (Real.pi / 180) / 2) *
          Real.sin ((lon2 - lon1) * (Real.pi / 180) / 2) := by
  show Real.sin ((lat2 - lat1) * (Real.pi / ((180 : ℕ) : ℝ)) / ((2 : ℕ) : ℝ)) *
          Real.sin ((lat2 - lat1) * (Real.pi / ((180 : ℕ) : ℝ)) / ((2 : ℕ) : ℝ)) +
        Real.cos (lat1 * (Real.pi / ((180 : ℕ) : ℝ))) * Real.cos (lat2 * (Real.pi / ((180 : ℕ) : ℝ))) *
          Real.sin ((lon2 - lon1) * (Real.pi / ((180 : ℕ) : ℝ)) / ((2 : ℕ) : ℝ)) *
          Real.sin ((lon2 - lon1) * (Real.pi / ((180 : ℕ) : ℝ)) / ((2 : ℕ) : ℝ)) = _
  simp only [Nat.cast_ofNat]

/-- The distance over the reals in terms of `wartoscA`. -/
theorem obliczOdleglosc_real_wartoscA (lat1 lon1 lat2 lon2 : ℝ) :
    obliczOdleglosc lat1 lon1 lat2 lon2 =
      6371 * (2 * Complex.arg ⟨Real.sqrt (1 - wartoscA lat1 lon1 lat2 lon2),
        Real.sqrt (wartoscA lat1 lon1 lat2 lon2)⟩) := by
  rw [obliczOdleglosc_real, wartoscA_real]

/-- Over the reals the value `a` lies between 0 and 1. -/
theorem wartoscA_real_bounds (lat1 lon1 lat2 lon2 : ℝ) :
    0 ≤ wartoscA lat1 lon1 lat2 lon2 ∧ wartoscA lat1 lon1 lat2 lon2 ≤ 1 := by
  rw [wartoscA_real]
  set x := (lat2 - lat1) * (Real.pi / 180) / 2 with hx
  set u := lat1 * (Real.pi / 180) with hu
  set v := lat2 * (Real.pi / 180) with hv
  set w := (lon2 - lon1) * (Real.pi / 180) / 2 with hw
  have hvu : v - u = 2 * x := by rw [hx, hu, hv]; ring
  have h1 : Real.cos (v - u) = 1 - 2 * Real.sin x ^ 2 := by
    rw [hvu, Real.cos_two_mul]
    have := Real.sin_sq_add_cos_sq x
    linarith
  have h2 : Real.cos (v - u) = Real.cos v * Real.cos u + Real.sin v * Real.sin u :=
    Real.cos_sub v u
  have h3 : Real.cos (u + v) = Real.cos u * Real.cos v - Real.sin u * Real.sin v :=
    Real.cos_add u v
  have hprod : Real.cos u * Real.cos v = (1 - 2 * Real.sin x ^ 2 + Real.cos (u + v)) / 2 := by
    linarith
  have hA0 : 0 ≤ Real.sin x ^ 2 := sq_nonneg _
  have hA1 : Real.sin x ^ 2 ≤ 1 := Real.sin_sq_le_one x
  have hS0 : 0 ≤ Real.sin w ^ 2 := sq_nonneg _
  have hS1 : Real.sin w ^ 2 ≤ 1 := Real.sin_sq_le_one w
  have hC0 : -1 ≤ Real.cos (u + v) := Real.neg_one_le_cos _
  have hC1 : Real.cos (u + v) ≤ 1 := Real.cos_le_one _
  have ha : Real.sin x * Real.sin x + Real.cos u * Real.cos v * Real.sin w * Real.sin w =
      Real.sin x ^ 2 + (1 - 2 * Real.sin x ^ 2 + Real.cos (u + v)) / 2 * Real.sin w ^ 2 := by
    rw [← hprod]
    ring
  rw [ha]
  have p1 : 0 ≤ Real.sin x ^ 2 * (1 - Real.sin w ^ 2) := mul_nonneg hA0 (by linarith)
  have p2 : 0 ≤ Real.sin w ^ 2 * (1 + Real.cos (u + v)) := mul_nonneg hS0 (by linarith)
  have p3 : 0 ≤ (1 - Real.sin x ^ 2) * (1 - Real.sin w ^ 2) :=
    mul_nonneg (by linarith) (by linarith)
  have p4 : 0 ≤ Real.sin w ^ 2 * (1 - Real.cos (u + v)) := mul_nonneg hS0 (by linarith)
  constructor <;> nlinarith [p1, p2, p3, p4]

/-- C28. Over the reals, for all latitudes and longitudes the intermediate
value `a` of `obliczOdleglosc` (the value `wartoscA`, from which the function
computes its result) lies in [0, 1], so both `a` and `1 - a` have a square
root, and the returned distance lies in [0, 6371 * pi]. -/
theorem obliczOdleglosc_range (lat1 lon1 lat2 lon2 : ℝ) :
    (0 ≤ wartoscA lat1 lon1 lat2 lon2 ∧ wartoscA lat1 lon1 lat2 lon2 ≤ 1) ∧
    (0 ≤ wartoscA lat1 lon1 lat2 lon2 ∧ 0 ≤ 1 - wartoscA lat1 lon1 lat2 lon2) ∧
    obliczOdleglosc lat1 lon1 lat2 lon2 =
      lit 6371 * (lit 2 * qAtan2 (qSqrt (wartoscA lat1 lon1 lat2 lon2))
        (qSqrt (lit 1 - wartoscA lat1 lon1 lat2 lon2))) ∧
    0 ≤ obliczOdleglosc lat1 lon1 lat2 lon2 ∧
    obliczOdleglosc lat1 lon1 lat2 lon2 ≤ 6371 * Real.pi := by
  have hb := wartoscA_real_bounds lat1 lon1 lat2 lon2
  refine ⟨hb, ⟨hb.1, by linarith [hb.2]⟩, rfl, obliczOdleglosc_real_nonneg _ _ _ _, ?_⟩
  rw [obliczOdleglosc_real_wartoscA, arg_sqrt_eq_arcsin hb.1 hb.2]
  have h := Real.arcsin_le_pi_div_two (Real.sqrt (wartoscA lat1 lon1 lat2 lon2))
  linarith

/-! ## Theorems: the fetches by identifier -/

/-- C21. For every identifier and every state of the service, so for every
cache, also one that holds the URL of the request, each of
`pobierzStanowiskaDlaStacji`, `pobierzDanePomiarowe` and
`pobierzIndeksJakosciPowietrza` leaves the state as it is and has exactly one
effect: the plain request to `station/sensors/{id}`, `data/getData/{id}` and
`aqindex/getIndex/{id}` handed to the network manager. No signal is emitted, so
nothing is answered from the cache. -/
theorem APIService.pobierz_po_id_always_requests {α : Type} (id : Int) (s : APIService α) :
    s.pobierzStanowiskaDlaStacji id =
        (s, [Efekt.zadanie (QNetworkRequest.prosty
          ("https://api.gios.gov.pl/pjp-api/rest/station/sensors/" ++ argInt id))]) ∧
      s.pobierzDanePomiarowe id =
        (s, [Efekt.zadanie (QNetworkRequest.prosty
          ("https://api.gios.gov.pl/pjp-api/rest/data/getData/" ++ argInt id))]) ∧
      s.pobierzIndeksJakosciPowietrza id =
        (s, [Efekt.zadanie (QNetworkRequest.prosty
          ("https://api.gios.gov.pl/pjp-api/rest/aqindex/getIndex/" ++ argInt id))]) ∧
      (∀ sygnal : Sygnal α,
        Efekt.sygnal sygnal ∉ (s.pobierzStanowiskaDlaStacji id).2 ∧
        Efekt.sygnal sygnal ∉ (s.pobierzDanePomiarowe id).2 ∧
        Efekt.sygnal sygnal ∉ (s.pobierzIndeksJakosciPowietrza id).2) := by
  refine ⟨rfl, rfl, rfl, ?_⟩
  intro sygnal
  simp [APIService.pobierzStanowiskaDlaStacji, APIService.pobierzDanePomiarowe,
    APIService.pobierzIndeksJakosciPowietrza]

/-! ## Theorems: the radius filter and the state of the service -/

/-- The lookup of a key tells the same after the use order changed. -/
theorem QCache.contains_relink {α : Type} (cache : QCache α) (key other : QString) :
    (cache.relink key).contains other = cache.contains other := by
  unfold QCache.contains
  rw [QCache.object_relink]

/-- The change of the use order leaves the capacity as it is. -/
theorem QCache.maxCost_relink {α : Type} (cache : QCache α) (key : QString) :
    (cache.relink key).maxCost = cache.maxCost := by
  unfold QCache.relink
  cases cache.entries.find? (fun e => e.1 == key) <;> rfl

/-- C22. For every state and all arguments, after `filtrujStacjeWPromieniu`
the cache holds under every key the document it held before (so the cached
station list has gained no `distance`), with the same keys and the same
capacity, `aktualneDane` is as before, and every effect is a
`daneStacjiPobrane` signal, at most one: no effect of an autosave occurs,
neither the file write, nor a log line, nor `daneAutomatycznieZapisane`. -/
theorem APIService.filtrujStacjeWPromieniu_persists_nothing {α : Type} [QDouble α]
    (stdSort : (QJsonObject α → QJsonObject α → Bool) → List (QJsonObject α) → List (QJsonObject α))
    (toDouble : QString → α) (lat lon promienKm : α) (s : APIService α) :
    (∀ key, (s.filtrujStacjeWPromieniu stdSort toDouble lat lon promienKm).1.cache.object key =
        s.cache.object key) ∧
      (∀ key, (s.filtrujStacjeWPromieniu stdSort toDouble lat lon promienKm).1.cache.contains key =
        s.cache.contains key) ∧
      (s.filtrujStacjeWPromieniu stdSort toDouble lat lon promienKm).1.cache.maxCost =
        s.cache.maxCost ∧
      (s.filtrujStacjeWPromieniu stdSort toDouble lat lon promienKm).1.aktualneDane =
        s.aktualneDane ∧
      (∀ e ∈ (s.filtrujStacjeWPromieniu stdSort toDouble lat lon promienKm).2,
        ∃ stacje, e = Efekt.sygnal (Sygnal.daneStacjiPobrane stacje)) ∧
      (s.filtrujStacjeWPromieniu stdSort toDouble lat lon promienKm).2.length ≤ 1 ∧
      (∀ (otwarty : Bool) (s2 : APIService α), ∀ e ∈ s2.zapiszDaneAutomatycznie otwarty,
        e ∉ (s.filtrujStacjeWPromieniu stdSort toDouble lat lon promienKm).2) := by
  unfold APIService.filtrujStacjeWPromieniu
  cases WhetherApi.filtrujStacjeWPromieniu stdSort toDouble s.cache lat lon promienKm with
  | none => simp
  | some a =>
    refine ⟨fun key => QCache.object_relink _ _ _, fun key => QCache.contains_relink _ _ _,
      QCache.maxCost_relink _ _, rfl, ?_, ?_, ?_⟩
    · intro e he
      exact ⟨a, by simpa using he⟩
    · simp
    · intro otwarty s2 e he
      unfold APIService.zapiszDaneAutomatycznie at he
      cases otwarty
      · simp only [if_true, List.mem_singleton] at he
        subst he
        simp
      · simp only [Bool.true_eq_false, if_false, List.mem_cons, List.mem_singleton,
          List.not_mem_nil, or_false] at he
        rcases he with he | he | he <;> subst he <;> simp

/-! ## Theorems: the autosave and the foreground fetch -/

/-- C23. A reply that is not radius-tagged, is classified by its URL (for the
station list with no `miasto` in the query of its request) and carries a
payload of the right shape for its kind: whether or not the autosave can open its file, `onReplyFinished`
returns, the result signal with the payload is among the effects and no error
signal is; the state afterwards is the same in both cases, with the payload in
the field of `aktualneDane` of that kind. When the file cannot be opened the
effects are the logged warning and the result signal, nothing else. -/
theorem APIService.onReplyFinished_autosave_failure {α : Type} [QDouble α]
    (toLower : QString → QString)
    (stdSort : (QJsonObject α → QJsonObject α → Bool) → List (QJsonObject α) → List (QJsonObject α))
    (toDouble : QString → α) (reply : QNetworkReply α) (s : APIService α)
    (herr : reply.error = none) (hdoc : reply.readAll.isNull = false)
    (hgeo : reply.request.naglowekGeoFiltr ≠ "1")
    (r : Rodzaj) (hk : klasyfikuj reply.url = some r)
    (hq : r = Rodzaj.stacje → qContains (zapytanieUrl reply.request.url) "miasto" = false)
    (hshape : r.ksztaltPoprawny reply.readAll = true) :
    ∃ s2 : APIService α,
      (∀ otwarty : Bool, ∃ efekty,
        APIService.onReplyFinished toLower stdSort toDouble otwarty reply s =
          some (s2, efekty) ∧
        Efekt.sygnal (r.zdarzenie reply.readAll) ∈ efekty ∧
        ∀ opis, Efekt.sygnal (Sygnal.blad opis) ∉ efekty) ∧
      APIService.onReplyFinished toLower stdSort toDouble false reply s =
        some (s2, [Efekt.qWarning "Nie można otworzyć pliku do zapisu:" sciezkaPliku,
          Efekt.sygnal (r.zdarzenie reply.readAll)]) ∧
      QJsonObject.value s2.aktualneDane r.pole = r.ladunek reply.readAll := by
  have hrun : ∀ otwarty : Bool,
      APIService.onReplyFinished toLower stdSort toDouble otwarty reply s =
        some ({ cache := s.cache.insert reply.url reply.readAll,
                aktualneDane := QJsonObject.insert s.aktualneDane r.pole
                  (r.ladunek reply.readAll) },
          APIService.zapiszDaneAutomatycznie otwarty
              { cache := s.cache.insert reply.url reply.readAll,
                aktualneDane := QJsonObject.insert s.aktualneDane r.pole
                  (r.ladunek reply.readAll) } ++
            [Efekt.sygnal (r.zdarzenie reply.readAll)]) := by
    intro otwarty
    by_cases hr : r = Rodzaj.stacje
    · rw [APIService.onReplyFinished_obsluga toLower stdSort toDouble otwarty reply s herr hdoc
        hgeo (hq hr) r hk, Rodzaj.obsluga_right_shape r otwarty reply.readAll _ hshape]
    · rw [APIService.onReplyFinished_obsluga_inne toLower stdSort toDouble otwarty reply s herr
        hdoc hgeo r hk hr, Rodzaj.obsluga_right_shape r otwarty reply.readAll _ hshape]
  refine ⟨{ cache := s.cache.insert reply.url reply.readAll,
            aktualneDane := QJsonObject.insert s.aktualneDane r.pole
              (r.ladunek reply.readAll) }, ?_, ?_, ?_⟩
  · intro otwarty
    refine ⟨_, hrun otwarty, by simp, ?_⟩
    intro opis hmem
    rw [List.mem_append] at hmem
    rcases hmem with hmem | hmem
    · exact APIService.blad_not_mem_zapiszDaneAutomatycznie _ _ _ hmem
    · cases r <;> simp [Rodzaj.zdarzenie] at hmem
  · rw [hrun false]
    rfl
  · exact QJsonObject.value_insert_same _ _ _

/-- C23: a run on the new service and the reply with two stations. -/
theorem APIService.onReplyFinished_autosave_failure_witness :
    (odpowiedzStacjeAK : QNetworkReply ℝ).error = none ∧
    (odpowiedzStacjeAK : QNetworkReply ℝ).readAll.isNull = false ∧
    (odpowiedzStacjeAK : QNetworkReply ℝ).request.naglowekGeoFiltr ≠ "1" ∧
    klasyfikuj (odpowiedzStacjeAK : QNetworkReply ℝ).url = some Rodzaj.stacje ∧
    qContains (zapytanieUrl (odpowiedzStacjeAK : QNetworkReply ℝ).request.url) "miasto" = false ∧
    Rodzaj.stacje.ksztaltPoprawny (odpowiedzStacjeAK : QNetworkReply ℝ).readAll = true ∧
    ∃ s2 : APIService ℝ,
      (∀ otwarty : Bool, ∃ efekty,
        APIService.onReplyFinished toLowerAscii insertionSortLate toDoubleReal otwarty
          odpowiedzStacjeAK (serwisPusty : APIService ℝ) = some (s2, efekty) ∧
        Efekt.sygnal (Rodzaj.stacje.zdarzenie (odpowiedzStacjeAK : QNetworkReply ℝ).readAll)
          ∈ efekty ∧
        ∀ opis, Efekt.sygnal (Sygnal.blad opis) ∉ efekty) ∧
      APIService.onReplyFinished toLowerAscii insertionSortLate toDoubleReal false
          odpowiedzStacjeAK (serwisPusty : APIService ℝ) =
        some (s2, [Efekt.qWarning "Nie można otworzyć pliku do zapisu:" sciezkaPliku,
          Efekt.sygnal (Rodzaj.stacje.zdarzenie (odpowiedzStacjeAK : QNetworkReply ℝ).readAll)]) ∧
      QJsonObject.value s2.aktualneDane Rodzaj.stacje.pole =
        Rodzaj.stacje.ladunek (odpowiedzStacjeAK : QNetworkReply ℝ).readAll :=
  ⟨rfl, rfl, by decide, klasyfikuj_urlFindAll, urlFindAll_bez_miasta, rfl,
    APIService.onReplyFinished_autosave_failure toLowerAscii insertionSortLate toDoubleReal
      odpowiedzStacjeAK serwisPusty rfl rfl (by decide) Rodzaj.stacje klasyfikuj_urlFindAll
      (fun _ => urlFindAll_bez_miasta) rfl⟩

/-! ## Theorems: the three error events -/

/-- The message of a transport error differs from the two fixed messages,
whatever the error text: it starts with `Bł`, they start with `N` and `Br`. -/
theorem bladSieci_ne (errorString : QString) :
    "Błąd sieci: " ++ errorString ≠ "Nieprawidłowy format JSON" ∧
      "Błąd sieci: " ++ errorString ≠ "Brak wymaganych danych pomiarowych" := by
  constructor
  · intro h
    have h2 := congrArg (fun t : String => t.data.head?) h
    simp [String.data_append] at h2
  · intro h
    have h2 := congrArg (fun t : String => (t.data.drop 1).head?) h
    simp [String.data_append] at h2

theorem klasyfikuj_odpowiedzPomiarBezValues {α : Type} :
    klasyfikuj (odpowiedzPomiarBezValues : QNetworkReply α).url = some Rodzaj.pomiary := by
  show klasyfikuj "https://api.gios.gov.pl/pjp-api/rest/data/getData/92" = some Rodzaj.pomiary
  have h1 : qContains "https://api.gios.gov.pl/pjp-api/rest/data/getData/92" "station/findAll"
      = false := by decide
  have h2 : qContains "https://api.gios.gov.pl/pjp-api/rest/data/getData/92" "station/sensors"
      = false := by decide
  have h3 : qContains "https://api.gios.gov.pl/pjp-api/rest/data/getData/92" "data/getData"
      = true := by decide
  unfold klasyfikuj
  simp [h1, h2, h3]

/-- C24. A reply with a transport error, a reply whose body is not valid JSON,
and a measurement reply (not radius-tagged) whose object misses `key` or
`values` each make `onReplyFinished` emit exactly one effect, an error signal:
`Błąd sieci: ` followed by the error text, `Nieprawidłowy format JSON`, and
`Brak wymaganych danych pomiarowych`. For every error text the three messages
are pairwise different. -/
theorem APIService.onReplyFinished_three_errors {α : Type} [QDouble α]
    (toLower : QString → QString)
    (stdSort : (QJsonObject α → QJsonObject α → Bool) → List (QJsonObject α) → List (QJsonObject α))
    (toDouble : QString → α) (otwarty : Bool) (s : APIService α)
    (siec zly pomiar : QNetworkReply α) (errorString : QString)
    (hsiec : siec.error = some errorString)
    (hzly : zly.error = none) (hzlyDoc : zly.readAll.isNull = true)
    (herr : pomiar.error = none) (hdoc : pomiar.readAll.isNull = false)
    (hgeo : pomiar.request.naglowekGeoFiltr ≠ "1")
    (hk : klasyfikuj pomiar.url = some Rodzaj.pomiary)
    (hobj : pomiar.readAll.isObject = true)
    (hbrak : QJsonObject.contains pomiar.readAll.toObject "key" = false ∨
      QJsonObject.contains pomiar.readAll.toObject "values" = false) :
    APIService.onReplyFinished toLower stdSort toDouble otwarty siec s =
        some (s, [Efekt.sygnal (Sygnal.blad ("Błąd sieci: " ++ errorString))]) ∧
      APIService.onReplyFinished toLower stdSort toDouble otwarty zly s =
        some (s, [Efekt.sygnal (Sygnal.blad "Nieprawidłowy format JSON")]) ∧
      APIService.onReplyFinished toLower stdSort toDouble otwarty pomiar s =
        some ({ s with cache := s.cache.insert pomiar.url pomiar.readAll },
          [Efekt.sygnal (Sygnal.blad "Brak wymaganych danych pomiarowych")]) ∧
      "Błąd sieci: " ++ errorString ≠ "Nieprawidłowy format JSON" ∧
      "Błąd sieci: " ++ errorString ≠ "Brak wymaganych danych pomiarowych" ∧
      ("Nieprawidłowy format JSON" : QString) ≠ "Brak wymaganych danych pomiarowych" := by
  refine ⟨?_, ?_, ?_, (bladSieci_ne errorString).1, (bladSieci_ne errorString).2, by decide⟩
  · unfold APIService.onReplyFinished
    simp [hsiec]
  · unfold APIService.onReplyFinished
    simp [hzly, hzlyDoc]
  · rw [APIService.onReplyFinished_obsluga_inne toLower stdSort toDouble otwarty pomiar s herr
      hdoc hgeo Rodzaj.pomiary hk (fun h => Rodzaj.noConfusion h)]
    rcases hbrak with h | h
    · simp [Rodzaj.obsluga, APIService.przetworzOdpowiedzPomiary, hobj, h]
    · simp [Rodzaj.obsluga, APIService.przetworzOdpowiedzPomiary, hobj, h]

/-- C24: a run on a transport error, on a body that is not JSON and on a
measurement object without `values`. -/
theorem APIService.onReplyFinished_three_errors_witness :
    (odpowiedzBladSieci : QNetworkReply ℝ).error = some "Host not found" ∧
    (odpowiedzNieJson : QNetworkReply ℝ).readAll.isNull = true ∧
    QJsonObject.contains (odpowiedzPomiarBezValues : QNetworkReply ℝ).readAll.toObject "values"
      = false ∧
    APIService.onReplyFinished toLowerAscii insertionSortLate toDoubleReal true
        odpowiedzBladSieci (serwisPusty : APIService ℝ) =
      some (serwisPusty, [Efekt.sygnal (Sygnal.blad ("Błąd sieci: " ++ "Host not found"))]) ∧
    APIService.onReplyFinished toLowerAscii insertionSortLate toDoubleReal true
        odpowiedzNieJson (serwisPusty : APIService ℝ) =
      some (serwisPusty, [Efekt.sygnal (Sygnal.blad "Nieprawidłowy format JSON")]) ∧
    APIService.onReplyFinished toLowerAscii insertionSortLate toDoubleReal true
        odpowiedzPomiarBezValues (serwisPusty : APIService ℝ) =
      some ({ (serwisPusty : APIService ℝ) with
          cache := (serwisPusty : APIService ℝ).cache.insert
            (odpowiedzPomiarBezValues : QNetworkReply ℝ).url
            (odpowiedzPomiarBezValues : QNetworkReply ℝ).readAll },
        [Efekt.sygnal (Sygnal.blad "Brak wymaganych danych pomiarowych")]) ∧
    "Błąd sieci: " ++ "Host not found" ≠ "Nieprawidłowy format JSON" ∧
    "Błąd sieci: " ++ "Host not found" ≠ "Brak wymaganych danych pomiarowych" ∧
    ("Nieprawidłowy format JSON" : QString) ≠ "Brak wymaganych danych pomiarowych" :=
  ⟨rfl, rfl, rfl,
    APIService.onReplyFinished_three_errors toLowerAscii insertionSortLate toDoubleReal true
      serwisPusty odpowiedzBladSieci odpowiedzNieJson odpowiedzPomiarBezValues "Host not found"
      rfl rfl rfl rfl rfl (by decide) klasyfikuj_odpowiedzPomiarBezValues rfl (Or.inr rfl)⟩

/-! ## Theorems: the value returned by saving and loading -/

/-- C25. What the code does: `zapiszDaneDoPliku` and `wczytajDaneZPliku` return
`true` on every input. When the file cannot be opened for writing the save
returns `true` and reports the failure by the signal `daneZapisane(false)`
alone; when the file cannot be opened for reading, or holds no JSON object, the
load returns `true` and reports `daneWczytane(false)`. -/
theorem APIService.zapisz_wczytaj_return_true {α : Type} (sciezka : QString)
    (s : APIService α) :
    (∀ otwarty, (s.zapiszDaneDoPliku otwarty sciezka).1 = true) ∧
      (∀ plik, (s.wczytajDaneZPliku plik).1 = true) ∧
      s.zapiszDaneDoPliku false sciezka =
        (true, s, [Efekt.sygnal (Sygnal.daneZapisane false)]) ∧
      s.wczytajDaneZPliku none = (true, s, [Efekt.sygnal (Sygnal.daneWczytane false)]) ∧
      s.wczytajDaneZPliku (some QJsonDocument.null) =
        (true, s, [Efekt.sygnal (Sygnal.daneWczytane false)]) := by
  refine ⟨?_, ?_, rfl, rfl, rfl⟩
  · intro otwarty
    cases otwarty <;> rfl
  · intro plik
    unfold APIService.wczytajDaneZPliku
    cases plik with
    | none => rfl
    | some doc =>
      simp only
      split
      · split <;> rfl
      · rfl

/-! ## Theorems: the value of a measurement -/

/-- C26, counterexample. The measurement decoded from the object whose `value`
is `null` equals the measurement decoded from the same object with `value` 0:
the two cannot be told apart. The date is kept as its text and the conversion
to `float` is taken exact. -/
theorem DanePomiarowe.fromJson_null_eq_zero :
    (QJsonObject.value (pomiarNull : QJsonObject ℝ) "value").isNull = true ∧
      (pomiarZero : QJsonObject ℝ) =
        QJsonObject.insert pomiarNull "value" (QJsonValue.double (QDouble.lit 0)) ∧
      DanePomiarowe.fromJson (fun t : QString => t) (fun x : ℝ => x) pomiarNull =
        DanePomiarowe.fromJson (fun t : QString => t) (fun x : ℝ => x) pomiarZero :=
  ⟨rfl, by simp [pomiarZero, pomiarNull, QJsonObject.insert], rfl⟩

/-- C26, amended. For every measurement object whose `value` is `null`,
`fromJson` yields the measurement with the value 0, which is the measurement it
yields for the same object with `value` set to 0 (the conversion to `float`
maps 0 to 0): the absence of a reading is not recorded. -/
theorem DanePomiarowe.fromJson_null_is_zero {δ α : Type} [QDouble α]
    (fromStringISO : QString → δ) (naFloat : α → α) (json : QJsonObject α)
    (hnull : QJsonObject.value json "value" = QJsonValue.null)
    (hzero : naFloat (QDouble.lit 0) = QDouble.lit 0) :
    (DanePomiarowe.fromJson fromStringISO naFloat json).m_wartosc = QDouble.lit 0 ∧
      DanePomiarowe.fromJson fromStringISO naFloat json =
        DanePomiarowe.fromJson fromStringISO naFloat
          (QJsonObject.insert json "value" (QJsonValue.double (QDouble.lit 0))) := by
  have hd : QJsonObject.value
      (QJsonObject.insert json "value" (QJsonValue.double (QDouble.lit 0))) "date" =
      QJsonObject.value json "date" :=
    QJsonObject.value_insert_other _ _ _ _ (by decide)
  have hk : QJsonObject.value
      (QJsonObject.insert json "value" (QJsonValue.double (QDouble.lit 0))) "key" =
      QJsonObject.value json "key" :=
    QJsonObject.value_insert_other _ _ _ _ (by decide)
  have hv : QJsonObject.value
      (QJsonObject.insert json "value" (QJsonValue.double (QDouble.lit 0))) "value" =
      QJsonValue.double (QDouble.lit 0) :=
    QJsonObject.value_insert_same _ _ _
  unfold DanePomiarowe.fromJson
  simp only [hnull, hd, hk, hv, QJsonValue.isNull, QJsonValue.toDouble, if_true, hzero,
    Bool.false_eq_true, if_false, and_self]

/-- C26, amended: a run on the measurement with `value` `null`. -/
theorem DanePomiarowe.fromJson_null_is_zero_witness :
    QJsonObject.value (pomiarNull : QJsonObject ℝ) "value" = QJsonValue.null ∧
    (fun x : ℝ => x) (QDouble.lit 0) = QDouble.lit 0 ∧
    (DanePomiarowe.fromJson (fun t : QString => t) (fun x : ℝ => x)
        (pomiarNull : QJsonObject ℝ)).m_wartosc = QDouble.lit 0 ∧
      DanePomiarowe.fromJson (fun t : QString => t) (fun x : ℝ => x)
          (pomiarNull : QJsonObject ℝ) =
        DanePomiarowe.fromJson (fun t : QString => t) (fun x : ℝ => x)
          (QJsonObject.insert pomiarNull "value" (QJsonValue.double (QDouble.lit 0))) :=
  ⟨rfl, rfl,
    DanePomiarowe.fromJson_null_is_zero (fun t : QString => t) (fun x : ℝ => x) pomiarNull
      rfl rfl⟩

/-! ## Theorems: a station-list reply of the wrong shape, and the radius-tagged reply -/

/-- C29. A reply with no error for the station-list URL whose body is valid
JSON but not an array (with no `miasto` in the query of its request), given to
a service whose cache has capacity at least 1: `onReplyFinished` returns and
the cache then holds the document under the station-list URL. In every state
whose cache holds that document under the URL, `pobierzWszystkieStacje` has
exactly one effect, the error signal `Oczekiwano tablicy JSON` (no request to
the network, no `daneStacjiPobrane`), and the document is still cached
afterwards. -/
theorem APIService.wrong_shape_poisons_cache {α : Type} [QDouble α]
    (toLower : QString → QString)
    (stdSort : (QJsonObject α → QJsonObject α → Bool) → List (QJsonObject α) → List (QJsonObject α))
    (toDouble : QString → α) (otwarty : Bool) (reply : QNetworkReply α) (s : APIService α)
    (herr : reply.error = none) (hdoc : reply.readAll.isNull = false)
    (harr : reply.readAll.isArray = false) (hurl : reply.url = urlFindAll)
    (hq : qContains (zapytanieUrl reply.request.url) "miasto" = false)
    (hcap : 1 ≤ s.cache.maxCost) :
    (∃ s2 ef, APIService.onReplyFinished toLower stdSort toDouble otwarty reply s =
        some (s2, ef) ∧ s2.cache.object urlFindAll = some reply.readAll) ∧
      ∀ (s3 : APIService α) (otwarty3 : Bool),
        s3.cache.object urlFindAll = some reply.readAll →
        s3.pobierzWszystkieStacje otwarty3 =
          ({ s3 with cache := s3.cache.relink urlFindAll },
            [Efekt.sygnal (Sygnal.blad "Oczekiwano tablicy JSON")]) ∧
        (s3.pobierzWszystkieStacje otwarty3).1.cache.object urlFindAll = some reply.readAll := by
  constructor
  · have hins := QCache.object_insert_same s.cache reply.url reply.readAll hcap
    by_cases hgeo : reply.request.naglowekGeoFiltr = "1"
    · have hfr := (APIService.filtrujStacjeWPromieniu_frame stdSort toDouble
        (atrybutToDouble reply.request.atrybutUser)
        (atrybutToDouble reply.request.atrybutUserMax)
        (atrybutToDouble reply.request.atrybutHttpPipeliningAllowed)
        { s with cache := s.cache.insert reply.url reply.readAll }).1 reply.url
      rw [← hurl]
      exact ⟨_, _, APIService.onReplyFinished_zPromieniem toLower stdSort toDouble otwarty reply s
        herr hdoc hgeo, hfr.trans hins⟩
    · have hk : klasyfikuj reply.url = some Rodzaj.stacje := by
        rw [hurl]
        exact klasyfikuj_urlFindAll
      have hfr := congrArg (fun c => QCache.object c reply.url)
        (Rodzaj.obsluga_cache Rodzaj.stacje otwarty reply.readAll
          { s with cache := s.cache.insert reply.url reply.readAll })
      rw [← hurl]
      exact ⟨_, _, APIService.onReplyFinished_obsluga toLower stdSort toDouble otwarty
        reply s herr hdoc hgeo hq Rodzaj.stacje hk, hfr.trans hins⟩
  · intro s3 otwarty3 hc
    have hrun : s3.pobierzWszystkieStacje otwarty3 =
        ({ s3 with cache := s3.cache.relink urlFindAll },
          [Efekt.sygnal (Sygnal.blad "Oczekiwano tablicy JSON")]) := by
      unfold APIService.pobierzWszystkieStacje
      simp [QCache.contains, hc, APIService.przetworzOdpowiedzStacje, harr]
    refine ⟨hrun, ?_⟩
    rw [hrun]
    exact (QCache.object_relink _ _ _).trans hc

/-- C29: a run on the new service and the reply whose body is the empty
object. -/
theorem APIService.wrong_shape_poisons_cache_witness :
    (odpowiedzObiekt : QNetworkReply ℝ).error = none ∧
    (odpowiedzObiekt : QNetworkReply ℝ).readAll.isNull = false ∧
    (odpowiedzObiekt : QNetworkReply ℝ).readAll.isArray = false ∧
    (odpowiedzObiekt : QNetworkReply ℝ).url = urlFindAll ∧
    qContains (zapytanieUrl (odpowiedzObiekt : QNetworkReply ℝ).request.url) "miasto" = false ∧
    1 ≤ (serwisPusty : APIService ℝ).cache.maxCost ∧
    ((∃ s2 ef, APIService.onReplyFinished toLowerAscii insertionSortLate toDoubleReal true
          odpowiedzObiekt (serwisPusty : APIService ℝ) = some (s2, ef) ∧
        s2.cache.object urlFindAll = some (odpowiedzObiekt : QNetworkReply ℝ).readAll) ∧
      ∀ (s3 : APIService ℝ) (otwarty3 : Bool),
        s3.cache.object urlFindAll = some (odpowiedzObiekt : QNetworkReply ℝ).readAll →
        s3.pobierzWszystkieStacje otwarty3 =
          ({ s3 with cache := s3.cache.relink urlFindAll },
            [Efekt.sygnal (Sygnal.blad "Oczekiwano tablicy JSON")]) ∧
        (s3.pobierzWszystkieStacje otwarty3).1.cache.object urlFindAll =
          some (odpowiedzObiekt : QNetworkReply ℝ).readAll) :=
  ⟨rfl, rfl, rfl, rfl, urlFindAll_bez_miasta, by decide,
    APIService.wrong_shape_poisons_cache toLowerAscii insertionSortLate toDoubleReal true
      odpowiedzObiekt serwisPusty rfl rfl rfl rfl urlFindAll_bez_miasta (by decide)⟩

/-- C30. A reply with no error and a valid JSON body for the station-list URL
whose request carries the radius marker, given to a service whose cache has
capacity at least 1: `onReplyFinished` has exactly one effect, the signal
`daneStacjiPobrane` with the list the radius filter computes from the cache
that holds the reply (so no autosave and no error signal); afterwards the cache
holds the document under the URL and `aktualneDane`, the field `stacje`
included, is as before. When the body is not an array the list emitted is
empty. -/
theorem APIService.onReplyFinished_radius_reply {α : Type} [QDouble α]
    (toLower : QString → QString)
    (stdSort : (QJsonObject α → QJsonObject α → Bool) → List (QJsonObject α) → List (QJsonObject α))
    (hsort : StdSortSpec stdSort)
    (toDouble : QString → α) (otwarty : Bool) (reply : QNetworkReply α) (s : APIService α)
    (herr : reply.error = none) (hdoc : reply.readAll.isNull = false)
    (hgeo : reply.request.naglowekGeoFiltr = "1") (hurl : reply.url = urlFindAll)
    (hcap : 1 ≤ s.cache.maxCost) :
    ∃ s2 stacje,
      APIService.onReplyFinished toLower stdSort toDouble otwarty reply s =
        some (s2, [Efekt.sygnal (Sygnal.daneStacjiPobrane stacje)]) ∧
      WhetherApi.filtrujStacjeWPromieniu stdSort toDouble
          (s.cache.insert urlFindAll reply.readAll)
          (atrybutToDouble reply.request.atrybutUser)
          (atrybutToDouble reply.request.atrybutUserMax)
          (atrybutToDouble reply.request.atrybutHttpPipeliningAllowed) = some stacje ∧
      s2.cache.object urlFindAll = some reply.readAll ∧
      s2.aktualneDane = s.aktualneDane ∧
      QJsonObject.value s2.aktualneDane "stacje" = QJsonObject.value s.aktualneDane "stacje" ∧
      (reply.readAll.isArray = false → stacje = []) := by
  have hins : (s.cache.insert urlFindAll reply.readAll).object urlFindAll = some reply.readAll :=
    QCache.object_insert_same s.cache urlFindAll reply.readAll hcap
  have hpure := filtrujStacjeWPromieniu_eq stdSort toDouble
    (s.cache.insert urlFindAll reply.readAll) reply.readAll hins
    (atrybutToDouble reply.request.atrybutUser)
    (atrybutToDouble reply.request.atrybutUserMax)
    (atrybutToDouble reply.request.atrybutHttpPipeliningAllowed)
  have hrun := APIService.onReplyFinished_zPromieniem toLower stdSort toDouble otwarty reply s
    herr hdoc hgeo
  rw [hurl] at hrun
  unfold APIService.filtrujStacjeWPromieniu at hrun
  simp only [hpure] at hrun
  refine ⟨_, _, hrun, hpure, ?_, rfl, rfl, ?_⟩
  · exact (QCache.object_relink _ _ _).trans hins
  · intro harr
    have hempty : reply.readAll.toArray = [] := by
      cases hd : reply.readAll with
      | null => rfl
      | object o => rfl
      | array items => rw [hd] at harr; simp [QJsonDocument.isArray] at harr
    have hsw : StrictWeakOn (mniejszaOdleglosc : QJsonObject α → QJsonObject α → Bool) [] :=
      ⟨fun a ha => absurd ha (List.not_mem_nil a), fun a ha => absurd ha (List.not_mem_nil a),
        fun a ha => absurd ha (List.not_mem_nil a)⟩
    have hnil := (hsort mniejszaOdleglosc [] hsw).1.eq_nil
    rw [hempty]
    simp only [List.filter_nil, List.map_nil]
    rw [hnil]
    rfl

/-- C30: a run on the new service and the radius-tagged reply whose body is the
empty object. -/
theorem APIService.onReplyFinished_radius_reply_witness :
    StdSortSpec (insertionSortLate :
      (QJsonObject ℝ → QJsonObject ℝ → Bool) → List (QJsonObject ℝ) → List (QJsonObject ℝ)) ∧
    (odpowiedzZPromieniemObiekt : QNetworkReply ℝ).error = none ∧
    (odpowiedzZPromieniemObiekt : QNetworkReply ℝ).readAll.isNull = false ∧
    (odpowiedzZPromieniemObiekt : QNetworkReply ℝ).request.naglowekGeoFiltr = "1" ∧
    (odpowiedzZPromieniemObiekt : QNetworkReply ℝ).url = urlFindAll ∧
    1 ≤ (serwisPusty : APIService ℝ).cache.maxCost ∧
    ∃ s2 stacje,
      APIService.onReplyFinished toLowerAscii insertionSortLate toDoubleReal true
          odpowiedzZPromieniemObiekt (serwisPusty : APIService ℝ) =
        some (s2, [Efekt.sygnal (Sygnal.daneStacjiPobrane stacje)]) ∧
      WhetherApi.filtrujStacjeWPromieniu insertionSortLate toDoubleReal
          ((serwisPusty : APIService ℝ).cache.insert urlFindAll
            (odpowiedzZPromieniemObiekt : QNetworkReply ℝ).readAll)
          (atrybutToDouble (odpowiedzZPromieniemObiekt : QNetworkReply ℝ).request.atrybutUser)
          (atrybutToDouble (odpowiedzZPromieniemObiekt : QNetworkReply ℝ).request.atrybutUserMax)
          (atrybutToDouble
            (odpowiedzZPromieniemObiekt : QNetworkReply ℝ).request.atrybutHttpPipeliningAllowed)
          = some stacje ∧
      s2.cache.object urlFindAll = some (odpowiedzZPromieniemObiekt : QNetworkReply ℝ).readAll ∧
      s2.aktualneDane = (serwisPusty : APIService ℝ).aktualneDane ∧
      QJsonObject.value s2.aktualneDane "stacje" =
        QJsonObject.value (serwisPusty : APIService ℝ).aktualneDane "stacje" ∧
      ((odpowiedzZPromieniemObiekt : QNetworkReply ℝ).readAll.isArray = false → stacje = []) :=
  ⟨insertionSortLate_spec, rfl, rfl, rfl, rfl, by decide,
    APIService.onReplyFinished_radius_reply toLowerAscii insertionSortLate insertionSortLate_spec
      toDoubleReal true odpowiedzZPromieniemObiekt serwisPusty rfl rfl rfl rfl (by decide)⟩

/-! ## Theorems: the requests of the radius search -/

/-- Every effect of the radius filter is a `daneStacjiPobrane` signal. -/
theorem APIService.filtrujStacjeWPromieniu_efekty {α : Type} [QDouble α]
    (stdSort : (QJsonObject α → QJsonObject α → Bool) → List (QJsonObject α) → List (QJsonObject α))
    (toDouble : QString → α) (lat lon promienKm : α) (s : APIService α) :
    ∀ e ∈ (s.filtrujStacjeWPromieniu stdSort toDouble lat lon promienKm).2,
      ∃ stacje, e = Efekt.sygnal (Sygnal.daneStacjiPobrane stacje) := by
  unfold APIService.filtrujStacjeWPromieniu
  cases WhetherApi.filtrujStacjeWPromieniu stdSort toDouble s.cache lat lon promienKm with
  | none => simp
  | some a =>
    intro e he
    exact ⟨a, by simpa using he⟩

/-- A request that `znajdzStacjeWPromieniu` hands to the network manager is the
radius-tagged request for the station list: the marker is `1`, the URL is the
station-list URL, whose query has no `miasto`, and the attributes carry the
first location found and the radius. -/
theorem APIService.znajdzStacjeWPromieniu_zadanie {α : Type} [QDouble α]
    (stdSort : (QJsonObject α → QJsonObject α → Bool) → List (QJsonObject α) → List (QJsonObject α))
    (toDouble : QString → α) (geo : WynikGeokodowania α) (promienKm : α) (s : APIService α)
    (request : QNetworkRequest α)
    (h : Efekt.zadanie request ∈ (s.znajdzStacjeWPromieniu stdSort toDouble geo promienKm).2) :
    request.naglowekGeoFiltr = "1" ∧ request.url = urlFindAll ∧
      qContains (zapytanieUrl request.url) "miasto" = false ∧
      atrybutToDouble request.atrybutHttpPipeliningAllowed = promienKm := by
  unfold APIService.znajdzStacjeWPromieniu at h
  cases geo with
  | brakUslugi => simp at h
  | blad errorString => simp at h
  | lokalizacje locations =>
    cases locations with
    | nil => simp at h
    | cons coord rest =>
      simp only at h
      split at h
      · have hf := (APIService.filtrujStacjeWPromieniu_efekty stdSort toDouble
          coord.1 coord.2 promienKm s) _ h
        obtain ⟨stacje, hst⟩ := hf
        cases hst
      · simp only [List.mem_singleton, Efekt.zadanie.injEq] at h
        subst h
        exact ⟨rfl, rfl, urlFindAll_bez_miasta, rfl⟩

/-! ## Theorems: the sort of libstdc++ and maps -/

theorem Gnu.porownaj_map {β γ : Type} (comp : β → β → Bool) (f : γ → β) (l : List γ)
    (a b : Nat) :
    Gnu.porownaj comp (l.map f) a b = Gnu.porownaj (fun x y => comp (f x) (f y)) l a b := by
  simp only [Gnu.porownaj, List.getElem?_map]
  cases l[a]? <;> cases l[b]? <;> rfl

theorem Gnu.iterSwap_map {β γ : Type} (f : γ → β) (l : List γ) (a b : Nat) :
    Gnu.iterSwap (l.map f) a b = (Gnu.iterSwap l a b).map f := by
  simp only [Gnu.iterSwap, List.getElem?_map]
  cases l[a]? <;> cases l[b]? <;> simp [List.map_set]

theorem Gnu.moveMedianToFirst_map {β γ : Type} (comp : β → β → Bool) (f : γ → β) (l : List γ)
    (result a b c : Nat) :
    Gnu.moveMedianToFirst comp (l.map f) result a b c =
      (Gnu.moveMedianToFirst (fun x y => comp (f x) (f y)) l result a b c).map f := by
  simp only [Gnu.moveMedianToFirst, Gnu.porownaj_map, Gnu.iterSwap_map]
  split_ifs <;> rfl

theorem Gnu.unguardedLinearInsertLoop_map {β γ : Type} (comp : β → β → Bool) (f : γ → β)
    (val : γ) (fuel : Nat) (l : List γ) (last : Nat) :
    Gnu.unguardedLinearInsertLoop comp (f val) fuel (l.map f) last =
      (Gnu.unguardedLinearInsertLoop (fun x y => comp (f x) (f y)) val fuel l last).map f := by
  induction fuel generalizing l last with
  | zero => simp [Gnu.unguardedLinearInsertLoop, List.map_set]
  | succ fuel ih =>
    simp only [Gnu.unguardedLinearInsertLoop, List.getElem?_map]
    split_ifs with h0
    · simp [List.map_set]
    · cases hy : l[last - 1]? with
      | none => simp [List.map_set]
      | some y =>
        simp only [Option.map_some']
        split_ifs
        · rw [← ih, List.map_set]
        · simp [List.map_set]

theorem Gnu.unguardedLinearInsert_map {β γ : Type} (comp : β → β → Bool) (f : γ → β)
    (l : List γ) (last : Nat) :
    Gnu.unguardedLinearInsert comp (l.map f) last =
      (Gnu.unguardedLinearInsert (fun x y => comp (f x) (f y)) l last).map f := by
  simp only [Gnu.unguardedLinearInsert, List.getElem?_map]
  cases l[last]? with
  | none => rfl
  | some val => exact Gnu.unguardedLinearInsertLoop_map comp f val last l last

theorem Gnu.moveToFront_map {β γ : Type} (f : γ → β) (l : List γ) (first i : Nat) :
    Gnu.moveToFront (l.map f) first i = (Gnu.moveToFront l first i).map f := by
  simp only [Gnu.moveToFront, List.getElem?_map]
  cases l[i]? with
  | none => rfl
  | some val => simp [List.map_take, List.map_drop]

theorem Gnu.insertionSortLoop_map {β γ : Type} (comp : β → β → Bool) (f : γ → β)
    (first fuel : Nat) (l : List γ) (i : Nat) :
    Gnu.insertionSortLoop comp first fuel (l.map f) i =
      (Gnu.insertionSortLoop (fun x y => comp (f x) (f y)) first fuel l i).map f := by
  induction fuel generalizing l i with
  | zero => rfl
  | succ fuel ih =>
    simp only [Gnu.insertionSortLoop, Gnu.porownaj_map, Gnu.moveToFront_map,
      Gnu.unguardedLinearInsert_map, ih]
    split_ifs <;> rfl

theorem Gnu.insertionSort_map {β γ : Type} (comp : β → β → Bool) (f : γ → β)
    (l : List γ) (first last : Nat) :
    Gnu.insertionSort comp (l.map f) first last =
      (Gnu.insertionSort (fun x y => comp (f x) (f y)) l first last).map f := by
  simp only [Gnu.insertionSort, Gnu.insertionSortLoop_map]
  split_ifs <;> rfl

theorem Gnu.unguardedInsertionSort_map {β γ : Type} (comp : β → β → Bool) (f : γ → β)
    (fuel : Nat) (l : List γ) (i : Nat) :
    Gnu.unguardedInsertionSort comp fuel (l.map f) i =
      (Gnu.unguardedInsertionSort (fun x y => comp (f x) (f y)) fuel l i).map f := by
  induction fuel generalizing l i with
  | zero => rfl
  | succ fuel ih => simp only [Gnu.unguardedInsertionSort, Gnu.unguardedLinearInsert_map, ih]

theorem Gnu.finalInsertionSort_map {β γ : Type} (comp : β → β → Bool) (f : γ → β)
    (l : List γ) (first last : Nat) :
    Gnu.finalInsertionSort comp (l.map f) first last =
      (Gnu.finalInsertionSort (fun x y => comp (f x) (f y)) l first last).map f := by
  simp only [Gnu.finalInsertionSort, Gnu.insertionSort_map, Gnu.unguardedInsertionSort_map]
  split_ifs <;> rfl

theorem Gnu.naprzod_map {β γ : Type} (comp : β → β → Bool) (f : γ → β) (l : List γ)
    (pivot fuel first : Nat) :
    Gnu.naprzod comp (l.map f) pivot fuel first =
      Gnu.naprzod (fun x y => comp (f x) (f y)) l pivot fuel first := by
  induction fuel generalizing first with
  | zero => rfl
  | succ fuel ih => simp only [Gnu.naprzod, Gnu.porownaj_map, ih]

theorem Gnu.wstecz_map {β γ : Type} (comp : β → β → Bool) (f : γ → β) (l : List γ)
    (pivot fuel last : Nat) :
    Gnu.wstecz comp (l.map f) pivot fuel last =
      Gnu.wstecz (fun x y => comp (f x) (f y)) l pivot fuel last := by
  induction fuel generalizing last with
  | zero => rfl
  | succ fuel ih => simp only [Gnu.wstecz, Gnu.porownaj_map, ih]

theorem Gnu.unguardedPartition_map {β γ : Type} (comp : β → β → Bool) (f : γ → β)
    (pivot fuel : Nat) (l : List γ) (first last : Nat) :
    Gnu.unguardedPartition comp pivot fuel (l.map f) first last =
      ((Gnu.unguardedPartition (fun x y => comp (f x) (f y)) pivot fuel l first last).1.map f,
        (Gnu.unguardedPartition (fun x y => comp (f x) (f y)) pivot fuel l first last).2) := by
  induction fuel generalizing l first last with
  | zero => rfl
  | succ fuel ih =>
    simp only [Gnu.unguardedPartition, Gnu.naprzod_map, Gnu.wstecz_map, List.length_map,
      Gnu.iterSwap_map, ih]
    split_ifs <;> rfl

theorem Gnu.unguardedPartitionPivot_map {β γ : Type} (comp : β → β → Bool) (f : γ → β)
    (l : List γ) (first last : Nat) :
    Gnu.unguardedPartitionPivot comp (l.map f) first last =
      ((Gnu.unguardedPartitionPivot (fun x y => comp (f x) (f y)) l first last).1.map f,
        (Gnu.unguardedPartitionPivot (fun x y => comp (f x) (f y)) l first last).2) := by
  simp only [Gnu.unguardedPartitionPivot, Gnu.moveMedianToFirst_map, List.length_map,
    Gnu.unguardedPartition_map]

theorem Gnu.pushHeapLoop_map {β γ : Type} (comp : β → β → Bool) (f : γ → β)
    (first topIndex : Nat) (value : γ) (fuel : Nat) (l : List γ) (holeIndex : Nat) :
    Gnu.pushHeapLoop comp first topIndex (f value) fuel (l.map f) holeIndex =
      (Gnu.pushHeapLoop (fun x y => comp (f x) (f y)) first topIndex value fuel l
        holeIndex).map f := by
  induction fuel generalizing l holeIndex with
  | zero => simp [Gnu.pushHeapLoop, List.map_set]
  | succ fuel ih =>
    simp only [Gnu.pushHeapLoop, List.getElem?_map]
    cases hp : l[first + (holeIndex - 1) / 2]? with
    | none => simp [List.map_set]
    | some p =>
      simp only [Option.map_some']
      split_ifs
      · rw [← ih, List.map_set]
      · simp [List.map_set]

theorem Gnu.pushHeap_map {β γ : Type} (comp : β → β → Bool) (f : γ → β)
    (l : List γ) (first holeIndex topIndex : Nat) (value : γ) :
    Gnu.pushHeap comp (l.map f) first holeIndex topIndex (f value) =
      (Gnu.pushHeap (fun x y => comp (f x) (f y)) l first holeIndex topIndex value).map f :=
  Gnu.pushHeapLoop_map comp f first topIndex value (holeIndex + 1) l holeIndex

theorem Gnu.adjustHeapLoop_map {β γ : Type} (comp : β → β → Bool) (f : γ → β)
    (first len fuel : Nat) (l : List γ) (holeIndex secondChild : Nat) :
    Gnu.adjustHeapLoop comp first len fuel (l.map f) holeIndex secondChild =
      ((Gnu.adjustHeapLoop (fun x y => comp (f x) (f y)) first len fuel l holeIndex
          secondChild).1.map f,
        (Gnu.adjustHeapLoop (fun x y => comp (f x) (f y)) first len fuel l holeIndex
          secondChild).2) := by
  induction fuel generalizing l holeIndex secondChild with
  | zero => rfl
  | succ fuel ih =>
    simp only [Gnu.adjustHeapLoop, Gnu.porownaj_map, List.getElem?_map]
    split_ifs with h1 h2
    · cases hx : l[first + (2 * (secondChild + 1) - 1)]? with
      | none => rfl
      | some x =>
        simp only [Option.map_some']
        rw [← List.map_set, ih]
    · cases hx : l[first + 2 * (secondChild + 1)]? with
      | none => rfl
      | some x =>
        simp only [Option.map_some']
        rw [← List.map_set, ih]
    · rfl

theorem Gnu.adjustHeap_map {β γ : Type} (comp : β → β → Bool) (f : γ → β)
    (l : List γ) (first holeIndex len : Nat) (value : γ) :
    Gnu.adjustHeap comp (l.map f) first holeIndex len (f value) =
      (Gnu.adjustHeap (fun x y => comp (f x) (f y)) l first holeIndex len value).map f := by
  simp only [Gnu.adjustHeap, Gnu.adjustHeapLoop_map, List.getElem?_map]
  split_ifs with h1
  · cases hx : (Gnu.adjustHeapLoop (fun x y => comp (f x) (f y)) first len len l holeIndex
        holeIndex).1[first + (2 * ((Gnu.adjustHeapLoop (fun x y => comp (f x) (f y)) first len
          len l holeIndex holeIndex).2.2 + 1) - 1)]? with
    | none => rfl
    | some x =>
      simp only [Option.map_some']
      rw [← List.map_set, Gnu.pushHeap_map]
  · rw [Gnu.pushHeap_map]

theorem Gnu.popHeap_map {β γ : Type} (comp : β → β → Bool) (f : γ → β)
    (l : List γ) (first last result : Nat) :
    Gnu.popHeap comp (l.map f) first last result =
      (Gnu.popHeap (fun x y => comp (f x) (f y)) l first last result).map f := by
  simp only [Gnu.popHeap, List.getElem?_map]
  cases l[result]? with
  | none => rfl
  | some value =>
    cases l[first]? with
    | none => rfl
    | some x =>
      simp only [Option.map_some']
      rw [← List.map_set, Gnu.adjustHeap_map]

theorem Gnu.makeHeapLoop_map {β γ : Type} (comp : β → β → Bool) (f : γ → β)
    (first len parent : Nat) (l : List γ) :
    Gnu.makeHeapLoop comp first len parent (l.map f) =
      (Gnu.makeHeapLoop (fun x y => comp (f x) (f y)) first len parent l).map f := by
  induction parent generalizing l with
  | zero =>
    simp only [Gnu.makeHeapLoop, List.getElem?_map]
    cases l[first]? with
    | none => rfl
    | some value => exact Gnu.adjustHeap_map comp f l first 0 len value
  | succ parent ih =>
    simp only [Gnu.makeHeapLoop, List.getElem?_map]
    cases l[first + (parent + 1)]? with
    | none => rfl
    | some value =>
      simp only [Option.map_some']
      rw [Gnu.adjustHeap_map, ih]

theorem Gnu.makeHeap_map {β γ : Type} (comp : β → β → Bool) (f : γ → β)
    (l : List γ) (first last : Nat) :
    Gnu.makeHeap comp (l.map f) first last =
      (Gnu.makeHeap (fun x y => comp (f x) (f y)) l first last).map f := by
  simp only [Gnu.makeHeap, Gnu.makeHeapLoop_map]
  split_ifs <;> rfl

theorem Gnu.sortHeap_map {β γ : Type} (comp : β → β → Bool) (f : γ → β)
    (first fuel : Nat) (l : List γ) (last : Nat) :
    Gnu.sortHeap comp first fuel (l.map f) last =
      (Gnu.sortHeap (fun x y => comp (f x) (f y)) first fuel l last).map f := by
  induction fuel generalizing l last with
  | zero => rfl
  | succ fuel ih =>
    simp only [Gnu.sortHeap, Gnu.popHeap_map, ih]
    split_ifs <;> rfl

theorem Gnu.heapSelectLoop_map {β γ : Type} (comp : β → β → Bool) (f : γ → β)
    (first middle fuel : Nat) (l : List γ) (i : Nat) :
    Gnu.heapSelectLoop comp first middle fuel (l.map f) i =
      (Gnu.heapSelectLoop (fun x y => comp (f x) (f y)) first middle fuel l i).map f := by
  induction fuel generalizing l i with
  | zero => rfl
  | succ fuel ih =>
    simp only [Gnu.heapSelectLoop, Gnu.porownaj_map, Gnu.popHeap_map, ih]
    split_ifs <;> rfl

theorem Gnu.heapSelect_map {β γ : Type} (comp : β → β → Bool) (f : γ → β)
    (l : List γ) (first middle last : Nat) :
    Gnu.heapSelect comp (l.map f) first middle last =
      (Gnu.heapSelect (fun x y => comp (f x) (f y)) l first middle last).map f := by
  simp only [Gnu.heapSelect, Gnu.makeHeap_map, Gnu.heapSelectLoop_map]

theorem Gnu.partialSort_map {β γ : Type} (comp : β → β → Bool) (f : γ → β)
    (l : List γ) (first middle last : Nat) :
    Gnu.partialSort comp (l.map f) first middle last =
      (Gnu.partialSort (fun x y => comp (f x) (f y)) l first middle last).map f := by
  simp only [Gnu.partialSort, Gnu.heapSelect_map, Gnu.sortHeap_map]

theorem Gnu.introsortLoop_map {β γ : Type} (comp : β → β → Bool) (f : γ → β)
    (depthLimit : Nat) (l : List γ) (first last : Nat) :
    Gnu.introsortLoop comp depthLimit (l.map f) first last =
      (Gnu.introsortLoop (fun x y => comp (f x) (f y)) depthLimit l first last).map f := by
  induction depthLimit generalizing l first last with
  | zero =>
    simp only [Gnu.introsortLoop, Gnu.partialSort_map]
    split_ifs <;> rfl
  | succ depthLimit ih =>
    simp only [Gnu.introsortLoop, Gnu.unguardedPartitionPivot_map, ih]
    split_ifs <;> rfl

/-- The sort of libstdc++ moves the elements of a range by what `comp` tells of
them alone: sorting the images under `f` gives the images of sorting with
`comp` read through `f`. -/
theorem Gnu.sort_map {β γ : Type} (comp : β → β → Bool) (f : γ → β) (l : List γ) :
    Gnu.sort comp (l.map f) = (Gnu.sort (fun x y => comp (f x) (f y)) l).map f := by
  simp only [Gnu.sort, List.length_map, Gnu.introsortLoop_map, Gnu.finalInsertionSort_map]
  split_ifs <;> rfl

/-- The sort of libstdc++ on 17 elements none of which is less than another:
the order it leaves them in. -/
theorem Gnu.sort_17_rownych {β : Type} (comp : β → β → Bool) (f : Nat → β)
    (h : ∀ i j, comp (f i) (f j) = false) :
    Gnu.sort comp ((List.range 17).map f) =
      [8, 16, 15, 14, 13, 12, 11, 10, 9, 0, 7, 6, 5, 4, 3, 2, 1].map f := by
  rw [Gnu.sort_map]
  have hc : (fun x y => comp (f x) (f y)) = (fun _ _ : Nat => false) := by
    funext x y
    exact h x y
  rw [hc]
  rfl

/-! ## Theorems: seventeen stations at one place, sorted by libstdc++ -/

theorem cache17_object :
    (cache17 : QCache ℝ).object urlFindAll =
      some (QJsonDocument.array ((List.range 17).map stacjaNr)) := by
  simp [cache17, QCache.object, List.lookup]

theorem odlegloscStacji_stacjaNr (nr : Nat) :
    odlegloscStacji toDoubleReal 52 21 (stacjaNr nr) = 0 := by
  have h1 : (QJsonObject.value (stacjaNr nr : QJsonValue ℝ).toObject "gegrLat").toQString
      = "52.0" := by
    simp [stacjaNr, QJsonValue.toObject, QJsonObject.value, List.lookup, QJsonValue.toQString]
  have h2 : (QJsonObject.value (stacjaNr nr : QJsonValue ℝ).toObject "gegrLon").toQString
      = "21.0" := by
    simp [stacjaNr, QJsonValue.toObject, QJsonObject.value, List.lookup, QJsonValue.toQString]
  rw [odlegloscStacji_eq, h1, h2, toDoubleReal_52, toDoubleReal_21]
  exact obliczOdleglosc_real_self 52 21

/-- Two of the stations with their distance attached are equal only when they
have the same number. -/
theorem zOdlegloscia_stacjaNr_injective :
    Function.Injective (fun nr : Nat => zOdlegloscia toDoubleReal 52 21 (stacjaNr nr)) := by
  intro i j h
  have h2 := congrArg (fun e => (QJsonObject.value e.toObject "id").toDouble) h
  simp only [zOdlegloscia, QJsonValue.toObject] at h2
  rw [QJsonObject.value_insert_other _ _ _ _ (by decide),
    QJsonObject.value_insert_other _ _ _ _ (by decide)] at h2
  have hi : ∀ nr : Nat, (QJsonObject.value (stacjaPoOdczycie (stacjaNr nr : QJsonValue ℝ))
      "id").toDouble = (nr : ℝ) := by
    intro nr
    rw [value_stacjaPoOdczycie _ _ (Or.inr ⟨by decide, by decide⟩)]
    simp [stacjaNr, QJsonValue.toObject, QJsonObject.value, List.lookup, QJsonValue.toDouble]
    rfl
  rw [hi i, hi j] at h2
  exact_mod_cast h2

/-- The run of the radius filter on `cache17` from the place of its stations,
sorted by the `std::sort` of libstdc++: all seventeen stations are retained, at
distance 0, and station 8 is emitted first. -/
theorem filtrujStacjeWPromieniu_cache17 :
    filtrujStacjeWPromieniu Gnu.sort toDoubleReal cache17 52 21 1 =
      some ([8, 16, 15, 14, 13, 12, 11, 10, 9, 0, 7, 6, 5, 4, 3, 2, 1].map
        (fun nr => zOdlegloscia toDoubleReal 52 21 (stacjaNr nr))) := by
  rw [filtrujStacjeWPromieniu_eq Gnu.sort toDoubleReal cache17 _ cache17_object]
  have hall : ((QJsonDocument.array ((List.range 17).map stacjaNr)).toArray.filter
      (fun v => QDouble.le (odlegloscStacji toDoubleReal 52 21 v) (1 : ℝ))) =
      (List.range 17).map stacjaNr := by
    apply List.filter_eq_self.mpr
    intro v hv
    obtain ⟨nr, _, rfl⟩ := List.mem_map.mp hv
    rw [odlegloscStacji_stacjaNr]
    show decide ((0 : ℝ) ≤ 1) = true
    simp
  rw [hall, List.map_map]
  have hlt : ∀ i j : Nat,
      mniejszaOdleglosc (zOdlegloscia toDoubleReal 52 21 (stacjaNr i)).toObject
        (zOdlegloscia toDoubleReal 52 21 (stacjaNr j)).toObject = false := by
    intro i j
    have hi := poleDistance_zOdlegloscia toDoubleReal 52 21 (stacjaNr i)
    have hj := poleDistance_zOdlegloscia toDoubleReal 52 21 (stacjaNr j)
    unfold poleDistance at hi hj
    unfold mniejszaOdleglosc
    rw [hi, hj, odlegloscStacji_stacjaNr, odlegloscStacji_stacjaNr]
    show decide ((0 : ℝ) < 0) = false
    simp
  have hsort := Gnu.sort_17_rownych mniejszaOdleglosc
    (fun nr => (zOdlegloscia toDoubleReal 52 21 (stacjaNr nr)).toObject) hlt
  have hf : ((fun v => (zOdlegloscia toDoubleReal 52 21 v).toObject) ∘ stacjaNr) =
      (fun nr => (zOdlegloscia toDoubleReal 52 21 (stacjaNr nr)).toObject) := rfl
  rw [hf, hsort, List.map_map]
  rfl

/-- C6, counterexample. Seventeen stations are cached at one place, so all are
at distance 0 from it; station 0 stands before station 8 in the cache. Sorted
by `std::sort` as libstdc++ implements it, the emitted list starts with
station 8 and has station 0 as its tenth element: the two are not in the order
they have in the cache. -/
theorem filtrujStacjeWPromieniu_libstdcxx_not_stable :
    (cache17 : QCache ℝ).object urlFindAll =
      some (QJsonDocument.array ((List.range 17).map stacjaNr)) ∧
    List.Sublist [stacjaNr 0, stacjaNr 8] ((List.range 17).map (stacjaNr : Nat → QJsonValue ℝ)) ∧
    odlegloscStacji toDoubleReal 52 21 (stacjaNr 0) =
      odlegloscStacji toDoubleReal 52 21 (stacjaNr 8) ∧
    filtrujStacjeWPromieniu Gnu.sort toDoubleReal cache17 52 21 1 =
      some ([8, 16, 15, 14, 13, 12, 11, 10, 9, 0, 7, 6, 5, 4, 3, 2, 1].map
        (fun nr => zOdlegloscia toDoubleReal 52 21 (stacjaNr nr))) ∧
    ¬ List.Sublist
        [zOdlegloscia toDoubleReal 52 21 (stacjaNr 0), zOdlegloscia toDoubleReal 52 21 (stacjaNr 8)]
        ([8, 16, 15, 14, 13, 12, 11, 10, 9, 0, 7, 6, 5, 4, 3, 2, 1].map
          (fun nr => zOdlegloscia toDoubleReal 52 21 (stacjaNr nr))) := by
  refine ⟨cache17_object, ?_, ?_, filtrujStacjeWPromieniu_cache17, ?_⟩
  · have h : List.Sublist [0, 8] (List.range 17) := by decide
    exact h.map stacjaNr
  · rw [odlegloscStacji_stacjaNr, odlegloscStacji_stacjaNr]
  · intro hsub
    have h2 : List.Sublist
        ([0, 8].map (fun nr => zOdlegloscia toDoubleReal 52 21 (stacjaNr nr)))
        ([8, 16, 15, 14, 13, 12, 11, 10, 9, 0, 7, 6, 5, 4, 3, 2, 1].map
          (fun nr => zOdlegloscia toDoubleReal 52 21 (stacjaNr nr))) := hsub
    obtain ⟨l2, hl2, hmap⟩ := List.sublist_map_iff.mp h2
    have heq : l2 = [0, 8] :=
      (List.map_injective_iff.mpr zOdlegloscia_stacjaNr_injective hmap).symm
    rw [heq] at hl2
    revert hl2
    decide

/-! ## Theorems: rounding to binary64 -/

theorem doParzystej_eq {x : ℝ} {m : ℤ} (h1 : (m : ℝ) - 1 / 2 < x) (h2 : x < (m : ℝ) + 1 / 2) :
    doParzystej x = m := by
  unfold doParzystej
  by_cases hx : (m : ℝ) ≤ x
  · have hf : ⌊x⌋ = m := by
      rw [Int.floor_eq_iff]
      constructor
      · exact hx
      · linarith
    rw [hf]
    have : x - (m : ℝ) < 1 / 2 := by linarith
    rw [if_pos this]
  · push_neg at hx
    have hf : ⌊x⌋ = m - 1 := by
      rw [Int.floor_eq_iff]
      push_cast
      constructor
      · linarith
      · linarith
    rw [hf]
    push_cast
    have h3 : ¬ (x - ((m : ℝ) - 1) < 1 / 2) := by
      push_neg
      linarith
    have h4 : 1 / 2 < x - ((m : ℝ) - 1) := by linarith
    simp only [h3, h4, if_false, if_true]
    ring

/-- The value of the rounding of a positive real: `m * 2 ^ (e - 52)` when the
real lies in the binade of `e` and within half a unit in the last place of that
number. -/
theorem zaokraglij_eq {r : ℝ} (e m : ℤ) (hr : 0 < r) (he : -1022 ≤ e)
    (hlo : (2 : ℝ) ^ e ≤ r) (hhi : r < (2 : ℝ) ^ (e + 1))
    (hm1 : ((m : ℝ) - 1 / 2) * (2 : ℝ) ^ (e - 52) < r)
    (hm2 : r < ((m : ℝ) + 1 / 2) * (2 : ℝ) ^ (e - 52))
    (hfin : (m : ℚ) * (2 : ℚ) ^ (e - 52) < (2 : ℚ) ^ (1024 : ℕ)) :
    zaokraglij r = Binary64.liczba ((m : ℚ) * (2 : ℚ) ^ (e - 52)) := by
  unfold zaokraglij
  have hr0 : r ≠ 0 := ne_of_gt hr
  have habs : |r| = r := abs_of_pos hr
  have hlog : Int.log 2 r = e := by
    apply le_antisymm
    · have := (Int.lt_zpow_iff_log_lt (b := 2) (by norm_num) (x := e + 1) hr).mp
        (by exact_mod_cast hhi)
      omega
    · exact (Int.zpow_le_iff_le_log (b := 2) (by norm_num) (x := e) hr).mp (by exact_mod_cast hlo)
  have hu : (0 : ℝ) < (2 : ℝ) ^ (e - 52) := zpow_pos (by norm_num) _
  have hm : doParzystej (r / (2 : ℝ) ^ (e - 52)) = m := by
    apply doParzystej_eq
    · rw [lt_div_iff₀ hu]
      exact hm1
    · rw [div_lt_iff₀ hu]
      exact hm2
  have hneg : ¬ r < 0 := not_lt.mpr hr.le
  simp only [hr0, if_false, habs, hlog, max_eq_left he, hm, not_le.mpr hfin, hneg]

/-- Rounding is odd. -/
theorem zaokraglij_neg (r : ℝ) : zaokraglij (-r) = (zaokraglij r).neg := by
  unfold zaokraglij
  by_cases h0 : r = 0
  · simp [h0, Binary64.neg]
  · have h0n : -r ≠ 0 := neg_ne_zero.mpr h0
    simp only [h0, h0n, if_false, abs_neg]
    by_cases hinf : (2 : ℚ) ^ (1024 : ℕ) ≤
        (doParzystej (|r| / (2 : ℝ) ^ (max (Int.log 2 |r|) (-1022) - 52)) : ℚ) *
          (2 : ℚ) ^ (max (Int.log 2 |r|) (-1022) - 52)
    · simp only [hinf, if_true, Binary64.neg]
      congr 1
      by_cases hneg : r < 0
      · have : ¬ (-r < 0) := by
          simp only [neg_lt_zero, not_lt]
          exact hneg.le
        simp [hneg, this]
      · have hpos : 0 < r := lt_of_le_of_ne (not_lt.mp hneg) (Ne.symm h0)
        have : -r < 0 := neg_lt_zero.mpr hpos
        simp [hneg, this]
    · simp only [hinf, if_false, Binary64.neg]
      congr 1
      by_cases hneg : r < 0
      · have : ¬ (-r < 0) := by
          simp only [neg_lt_zero, not_lt]
          exact hneg.le
        simp [hneg, this]
      · have hpos : 0 < r := lt_of_le_of_ne (not_lt.mp hneg) (Ne.symm h0)
        have : -r < 0 := neg_lt_zero.mpr hpos
        simp [hneg, this]

/-- A number with a mantissa of 53 bits in the normal range is its own
rounding. -/
theorem zaokraglij_exact (m e : ℤ) (hm1 : 2 ^ 52 ≤ m) (hm2 : m < 2 ^ 53) (he : -1022 ≤ e)
    (he2 : e ≤ 1023) :
    zaokraglij (((m : ℚ) * (2 : ℚ) ^ (e - 52) : ℚ) : ℝ) =
      Binary64.liczba ((m : ℚ) * (2 : ℚ) ^ (e - 52)) := by
  have hu : (0 : ℝ) < (2 : ℝ) ^ (e - 52) := zpow_pos (by norm_num) _
  have hmr1 : (2 : ℝ) ^ (52 : ℤ) ≤ (m : ℝ) := by exact_mod_cast hm1
  have hmr2 : (m : ℝ) < (2 : ℝ) ^ (53 : ℤ) := by exact_mod_cast hm2
  have hcast : (((m : ℚ) * (2 : ℚ) ^ (e - 52) : ℚ) : ℝ) = (m : ℝ) * (2 : ℝ) ^ (e - 52) := by
    push_cast
    rfl
  rw [hcast]
  have hsplit : (2 : ℝ) ^ e = (2 : ℝ) ^ (52 : ℤ) * (2 : ℝ) ^ (e - 52) := by
    rw [← zpow_add₀ (by norm_num : (2 : ℝ) ≠ 0)]
    congr 1
    ring
  have hsplit2 : (2 : ℝ) ^ (e + 1) = (2 : ℝ) ^ (53 : ℤ) * (2 : ℝ) ^ (e - 52) := by
    rw [← zpow_add₀ (by norm_num : (2 : ℝ) ≠ 0)]
    congr 1
    ring
  apply zaokraglij_eq e m
  · have : (0 : ℝ) < (m : ℝ) := lt_of_lt_of_le (by positivity) hmr1
    positivity
  · exact he
  · rw [hsplit]
    exact mul_le_mul_of_nonneg_right hmr1 hu.le
  · rw [hsplit2]
    exact mul_lt_mul_of_pos_right hmr2 hu
  · apply mul_lt_mul_of_pos_right _ hu
    linarith
  · apply mul_lt_mul_of_pos_right _ hu
    linarith
  · have hq : (m : ℚ) < (2 : ℚ) ^ (53 : ℕ) := by exact_mod_cast hm2
    have hu2 : (2 : ℚ) ^ (e - 52) ≤ (2 : ℚ) ^ ((971 : ℕ) : ℤ) :=
      zpow_le_zpow_right₀ (by norm_num) (by omega)
    have hupos : (0 : ℚ) < (2 : ℚ) ^ (e - 52) := zpow_pos (by norm_num) _
    calc (m : ℚ) * (2 : ℚ) ^ (e - 52) < (2 : ℚ) ^ (53 : ℕ) * (2 : ℚ) ^ (e - 52) :=
          mul_lt_mul_of_pos_right hq hupos
      _ ≤ (2 : ℚ) ^ (53 : ℕ) * (2 : ℚ) ^ ((971 : ℕ) : ℤ) :=
          mul_le_mul_of_nonneg_left hu2 (by positivity)
      _ = (2 : ℚ) ^ (1024 : ℕ) := by
          rw [zpow_natCast, ← pow_add]

/-- The rounding of a positive rational, with the side conditions over the
rationals. -/
theorem zaokraglij_rat (q v : ℚ) (e m : ℤ) (hv : v = (m : ℚ) * (2 : ℚ) ^ (e - 52))
    (hq : 0 < q) (he : -1022 ≤ e) (hlo : (2 : ℚ) ^ e ≤ q) (hhi : q < (2 : ℚ) ^ (e + 1))
    (hm1 : ((m : ℚ) - 1 / 2) * (2 : ℚ) ^ (e - 52) < q)
    (hm2 : q < ((m : ℚ) + 1 / 2) * (2 : ℚ) ^ (e - 52))
    (hfin : v < (2 : ℚ) ^ (1024 : ℕ)) :
    zaokraglij (q : ℝ) = Binary64.liczba v := by
  rw [hv]
  apply zaokraglij_eq e m
  · exact_mod_cast hq
  · exact he
  · have h : (((2 : ℚ) ^ e : ℚ) : ℝ) ≤ (q : ℝ) := by exact_mod_cast hlo
    simpa using h
  · have h : (q : ℝ) < (((2 : ℚ) ^ (e + 1) : ℚ) : ℝ) := by exact_mod_cast hhi
    simpa using h
  · have h : ((((m : ℚ) - 1 / 2) * (2 : ℚ) ^ (e - 52) : ℚ) : ℝ) < (q : ℝ) := by
      exact_mod_cast hm1
    simpa using h
  · have h : (q : ℝ) < ((((m : ℚ) + 1 / 2) * (2 : ℚ) ^ (e - 52) : ℚ) : ℝ) := by
      exact_mod_cast hm2
    simpa using h
  · rw [← hv]
    exact hfin

/-- The rounding of a negative rational. -/
theorem zaokraglij_rat_neg (q v : ℚ) (e m : ℤ) (hv : -v = (m : ℚ) * (2 : ℚ) ^ (e - 52))
    (hq : 0 < -q) (he : -1022 ≤ e) (hlo : (2 : ℚ) ^ e ≤ -q) (hhi : -q < (2 : ℚ) ^ (e + 1))
    (hm1 : ((m : ℚ) - 1 / 2) * (2 : ℚ) ^ (e - 52) < -q)
    (hm2 : -q < ((m : ℚ) + 1 / 2) * (2 : ℚ) ^ (e - 52))
    (hfin : -v < (2 : ℚ) ^ (1024 : ℕ)) :
    zaokraglij (q : ℝ) = Binary64.liczba v := by
  have h := zaokraglij_rat (-q) (-v) e m hv hq he hlo hhi hm1 hm2 hfin
  have h2 : (q : ℝ) = -(((-q : ℚ)) : ℝ) := by
    push_cast
    ring
  rw [h2, zaokraglij_neg, h]
  simp [Binary64.neg]

/-! ## Theorems: sine and cosine by their series -/

/-- The partial sum of the cosine series. -/
theorem exp_series_split (x : ℝ) (n : ℕ) :
    (∑ m ∈ Finset.range (2 * n), ((x : ℂ) * Complex.I) ^ m / (m.factorial : ℂ)) =
      ((∑ j ∈ Finset.range n, (-1 : ℝ) ^ j * x ^ (2 * j) / ((2 * j).factorial : ℝ) : ℝ) : ℂ) +
      ((∑ j ∈ Finset.range n, (-1 : ℝ) ^ j * x ^ (2 * j + 1) / ((2 * j + 1).factorial : ℝ) : ℝ) : ℂ)
        * Complex.I := by
  induction n with
  | zero => simp
  | succ n ih =>
    have h2 : 2 * (n + 1) = 2 * n + 1 + 1 := by ring
    rw [h2, Finset.sum_range_succ, Finset.sum_range_succ, ih, Finset.sum_range_succ,
      Finset.sum_range_succ]
    have hI : (Complex.I) ^ (2 * n) = (-1 : ℂ) ^ n := by
      rw [pow_mul, Complex.I_sq]
    have e1 : ((x : ℂ) * Complex.I) ^ (2 * n) = ((-1 : ℂ) ^ n * (x : ℂ) ^ (2 * n)) := by
      rw [mul_pow, hI]
      ring
    have e2 : ((x : ℂ) * Complex.I) ^ (2 * n + 1) =
        ((-1 : ℂ) ^ n * (x : ℂ) ^ (2 * n + 1)) * Complex.I := by
      rw [pow_succ, e1]
      ring
    rw [e1, e2]
    push_cast
    ring

theorem cos_sin_series_bound (x : ℝ) (hx : |x| ≤ 1) (n : ℕ) (hn : 0 < n) :
    |Real.cos x - ∑ j ∈ Finset.range n, (-1 : ℝ) ^ j * x ^ (2 * j) / ((2 * j).factorial : ℝ)| ≤
        |x| ^ (2 * n) * (((2 * n).succ : ℝ) * (((2 * n).factorial : ℝ) * ((2 * n : ℕ) : ℝ))⁻¹) ∧
      |Real.sin x - ∑ j ∈ Finset.range n,
          (-1 : ℝ) ^ j * x ^ (2 * j + 1) / ((2 * j + 1).factorial : ℝ)| ≤
        |x| ^ (2 * n) * (((2 * n).succ : ℝ) * (((2 * n).factorial : ℝ) * ((2 * n : ℕ) : ℝ))⁻¹) := by
  have habs : Complex.abs ((x : ℂ) * Complex.I) = |x| := by
    rw [map_mul, Complex.abs_I, mul_one, Complex.abs_ofReal]
  have hb := Complex.exp_bound (x := (x : ℂ) * Complex.I) (by rw [habs]; exact hx)
    (n := 2 * n) (by omega)
  rw [habs, exp_series_split, Complex.exp_mul_I, ← Complex.ofReal_cos, ← Complex.ofReal_sin] at hb
  set C := ∑ j ∈ Finset.range n, (-1 : ℝ) ^ j * x ^ (2 * j) / ((2 * j).factorial : ℝ)
  set S := ∑ j ∈ Finset.range n, (-1 : ℝ) ^ j * x ^ (2 * j + 1) / ((2 * j + 1).factorial : ℝ)
  have hw : ((Real.cos x : ℂ) + (Real.sin x : ℂ) * Complex.I - ((C : ℂ) + (S : ℂ) * Complex.I)) =
      ((Real.cos x - C : ℝ) : ℂ) + ((Real.sin x - S : ℝ) : ℂ) * Complex.I := by
    push_cast
    ring
  rw [hw] at hb
  constructor
  · refine le_trans ?_ hb
    have := Complex.abs_re_le_abs (((Real.cos x - C : ℝ) : ℂ) + ((Real.sin x - S : ℝ) : ℂ) * Complex.I)
    simpa using this
  · refine le_trans ?_ hb
    have := Complex.abs_im_le_abs (((Real.cos x - C : ℝ) : ℂ) + ((Real.sin x - S : ℝ) : ℂ) * Complex.I)
    simpa using this

theorem sin_8k_bounds :
    (172287954069971608245922797 : ℝ) / 1237940039285380274899124224 ≤ Real.sin ((5030569068109113 / 36028797018963968 : ℚ) : ℝ) ∧
      Real.sin ((5030569068109113 / 36028797018963968 : ℚ) : ℝ) ≤ (172287954069971608245955369 : ℝ) / 1237940039285380274899124224 := by
  have hx : |((5030569068109113 / 36028797018963968 : ℚ) : ℝ)| ≤ 1 := by
    rw [abs_le]
    constructor <;> norm_num
  have hb := (cos_sin_series_bound _ hx 7 (by norm_num)).2
  rw [abs_le] at hb
  have hpos : |((5030569068109113 / 36028797018963968 : ℚ) : ℝ)| =
      (5030569068109113 / 36028797018963968 : ℝ) := by
    rw [abs_of_pos (by norm_num)]
    norm_num
  rw [hpos] at hb
  simp only [Finset.sum_range_succ, Finset.sum_range_zero] at hb
  norm_num [Nat.factorial] at hb
  constructor <;> linarith [hb.1, hb.2]

theorem cos_8k_bounds :
    (612946245960498605431878727 : ℝ) / 618970019642690137449562112 ≤ Real.cos ((5030569068109113 / 36028797018963968 : ℚ) : ℝ) ∧
      Real.cos ((5030569068109113 / 36028797018963968 : ℚ) : ℝ) ≤ (612946245960498605431895013 : ℝ) / 618970019642690137449562112 := by
  have hx : |((5030569068109113 / 36028797018963968 : ℚ) : ℝ)| ≤ 1 := by
    rw [abs_le]
    constructor <;> norm_num
  have hb := (cos_sin_series_bound _ hx 7 (by norm_num)).1
  rw [abs_le] at hb
  have hpos : |((5030569068109113 / 36028797018963968 : ℚ) : ℝ)| =
      (5030569068109113 / 36028797018963968 : ℝ) := by
    rw [abs_of_pos (by norm_num)]
    norm_num
  rw [hpos] at hb
  simp only [Finset.sum_range_succ, Finset.sum_range_zero] at hb
  norm_num [Nat.factorial] at hb
  constructor <;> linarith [hb.1, hb.2]

/-! ## Theorems: the distance from (8, 0) to (-8, 180) on doubles -/

theorem b64_lit_180 : (QDouble.lit 180 : Binary64) = Binary64.liczba 180 := by
  show zaokraglij ((180 : ℕ) : ℝ) = _
  have h : (((180 : ℕ)) : ℝ) = (((180 : ℚ)) : ℝ) := by norm_num
  rw [h]
  exact zaokraglij_rat _ _ (7) 6333186975989760 (by norm_num) (by norm_num) (by norm_num) (by norm_num) (by norm_num) (by norm_num) (by norm_num) (by norm_num)

theorem b64_lit_2 : (QDouble.lit 2 : Binary64) = Binary64.liczba 2 := by
  show zaokraglij ((2 : ℕ) : ℝ) = _
  have h : (((2 : ℕ)) : ℝ) = (((2 : ℚ)) : ℝ) := by norm_num
  rw [h]
  exact zaokraglij_rat _ _ (1) 4503599627370496 (by norm_num) (by norm_num) (by norm_num) (by norm_num) (by norm_num) (by norm_num) (by norm_num) (by norm_num)

theorem b64_lit_1 : (QDouble.lit 1 : Binary64) = Binary64.liczba 1 := by
  show zaokraglij ((1 : ℕ) : ℝ) = _
  have h : (((1 : ℕ)) : ℝ) = (((1 : ℚ)) : ℝ) := by norm_num
  rw [h]
  exact zaokraglij_rat _ _ (0) 4503599627370496 (by norm_num) (by norm_num) (by norm_num) (by norm_num) (by norm_num) (by norm_num) (by norm_num) (by norm_num)

/-- The constant `M_PI` as a double. -/
theorem b64_pi : (QDouble.pi : Binary64) = Binary64.liczba (884279719003555 / 281474976710656) := by
  show zaokraglij (314159265358979323846 / 100000000000000000000) = _
  have h : (314159265358979323846 / 100000000000000000000 : ℝ) =
      (((314159265358979323846 / 100000000000000000000 : ℚ)) : ℝ) := by norm_num
  rw [h]
  exact zaokraglij_rat _ _ (1) 7074237752028440 (by norm_num) (by norm_num) (by norm_num) (by norm_num) (by norm_num) (by norm_num) (by norm_num) (by norm_num)

/-- The quotient `M_PI / 180`. -/
theorem b64_k_raw :
    (Binary64.liczba (884279719003555 / 281474976710656) / Binary64.liczba 180 : Binary64) = Binary64.liczba (5030569068109113 / 288230376151711744) := by
  show zaokraglij ((((884279719003555 / 281474976710656) / 180 : ℚ)) : ℝ) = _
  exact zaokraglij_rat _ _ (-6) 5030569068109113 (by norm_num) (by norm_num) (by norm_num) (by norm_num) (by norm_num) (by norm_num) (by norm_num) (by norm_num)

/-- The difference of the latitudes. -/
theorem b64_sub_lat :
    (Binary64.liczba (-8) - Binary64.liczba 8 : Binary64) = Binary64.liczba (-16) := by
  show zaokraglij ((((-8) + -8 : ℚ)) : ℝ) = _
  exact zaokraglij_rat_neg _ _ (4) 4503599627370496 (by norm_num) (by norm_num) (by norm_num) (by norm_num) (by norm_num) (by norm_num) (by norm_num) (by norm_num)

/-- The difference of the longitudes. -/
theorem b64_sub_lon :
    (Binary64.liczba 180 - Binary64.liczba 0 : Binary64) = Binary64.liczba 180 := by
  show zaokraglij (((180 + -0 : ℚ)) : ℝ) = _
  exact zaokraglij_rat _ _ (7) 6333186975989760 (by norm_num) (by norm_num) (by norm_num) (by norm_num) (by norm_num) (by norm_num) (by norm_num) (by norm_num)

/-- The value `dLat`. -/
theorem b64_dLat :
    (Binary64.liczba (-16) * Binary64.liczba (5030569068109113 / 288230376151711744) : Binary64) = Binary64.liczba (-(5030569068109113 / 18014398509481984)) := by
  show zaokraglij ((((-16) * (5030569068109113 / 288230376151711744) : ℚ)) : ℝ) = _
  exact zaokraglij_rat_neg _ _ (-2) 5030569068109113 (by norm_num) (by norm_num) (by norm_num) (by norm_num) (by norm_num) (by norm_num) (by norm_num) (by norm_num)

/-- The value `dLon`. -/
theorem b64_dLon :
    (Binary64.liczba 180 * Binary64.liczba (5030569068109113 / 288230376151711744) : Binary64) = Binary64.liczba (884279719003555 / 281474976710656) := by
  show zaokraglij (((180 * (5030569068109113 / 288230376151711744) : ℚ)) : ℝ) = _
  exact zaokraglij_rat _ _ (1) 7074237752028440 (by norm_num) (by norm_num) (by norm_num) (by norm_num) (by norm_num) (by norm_num) (by norm_num) (by norm_num)

/-- The value `dLat / 2`. -/
theorem b64_dLat_2 :
    (Binary64.liczba (-(5030569068109113 / 18014398509481984)) / Binary64.liczba 2 : Binary64) = Binary64.liczba (-(5030569068109113 / 36028797018963968)) := by
  show zaokraglij ((((-(5030569068109113 / 18014398509481984)) / 2 : ℚ)) : ℝ) = _
  exact zaokraglij_rat_neg _ _ (-3) 5030569068109113 (by norm_num) (by norm_num) (by norm_num) (by norm_num) (by norm_num) (by norm_num) (by norm_num) (by norm_num)

/-- The value `dLon / 2`. -/
theorem b64_dLon_2 :
    (Binary64.liczba (884279719003555 / 281474976710656) / Binary64.liczba 2 : Binary64) = Binary64.liczba (884279719003555 / 562949953421312) := by
  show zaokraglij ((((884279719003555 / 281474976710656) / 2 : ℚ)) : ℝ) = _
  exact zaokraglij_rat _ _ (0) 7074237752028440 (by norm_num) (by norm_num) (by norm_num) (by norm_num) (by norm_num) (by norm_num) (by norm_num) (by norm_num)

/-- The latitude 8 in radians. -/
theorem b64_lat1 :
    (Binary64.liczba 8 * Binary64.liczba (5030569068109113 / 288230376151711744) : Binary64) = Binary64.liczba (5030569068109113 / 36028797018963968) := by
  show zaokraglij (((8 * (5030569068109113 / 288230376151711744) : ℚ)) : ℝ) = _
  exact zaokraglij_rat _ _ (-3) 5030569068109113 (by norm_num) (by norm_num) (by norm_num) (by norm_num) (by norm_num) (by norm_num) (by norm_num) (by norm_num)

/-- The latitude -8 in radians. -/
theorem b64_lat2 :
    (Binary64.liczba (-8) * Binary64.liczba (5030569068109113 / 288230376151711744) : Binary64) = Binary64.liczba (-(5030569068109113 / 36028797018963968)) := by
  show zaokraglij ((((-8) * (5030569068109113 / 288230376151711744) : ℚ)) : ℝ) = _
  exact zaokraglij_rat_neg _ _ (-3) 5030569068109113 (by norm_num) (by norm_num) (by norm_num) (by norm_num) (by norm_num) (by norm_num) (by norm_num) (by norm_num)

/-- The product `qSin(dLat / 2) * qSin(dLat / 2)`. -/
theorem b64_sin_sq :
    (Binary64.liczba (-(5014239404989977 / 36028797018963968)) * Binary64.liczba (-(5014239404989977 / 36028797018963968)) : Binary64) = Binary64.liczba (1395694493897217 / 72057594037927936) := by
  show zaokraglij ((((-(5014239404989977 / 36028797018963968)) * (-(5014239404989977 / 36028797018963968)) : ℚ)) : ℝ) = _
  exact zaokraglij_rat _ _ (-6) 5582777975588868 (by norm_num) (by norm_num) (by norm_num) (by norm_num) (by norm_num) (by norm_num) (by norm_num) (by norm_num)

/-- The product of the two cosines. -/
theorem b64_cos_cos :
    (Binary64.liczba (4459770905381437 / 4503599627370496) * Binary64.liczba (4459770905381437 / 4503599627370496) : Binary64) = Binary64.liczba (8832737443003841 / 9007199254740992) := by
  show zaokraglij ((((4459770905381437 / 4503599627370496) * (4459770905381437 / 4503599627370496) : ℚ)) : ℝ) = _
  exact zaokraglij_rat _ _ (-1) 8832737443003841 (by norm_num) (by norm_num) (by norm_num) (by norm_num) (by norm_num) (by norm_num) (by norm_num) (by norm_num)

/-- The product with `qSin(dLon / 2)`, which is 1. -/
theorem b64_cos_cos_1 :
    (Binary64.liczba (8832737443003841 / 9007199254740992) * Binary64.liczba 1 : Binary64) = Binary64.liczba (8832737443003841 / 9007199254740992) := by
  show zaokraglij ((((8832737443003841 / 9007199254740992) * 1 : ℚ)) : ℝ) = _
  exact zaokraglij_rat _ _ (-1) 8832737443003841 (by norm_num) (by norm_num) (by norm_num) (by norm_num) (by norm_num) (by norm_num) (by norm_num) (by norm_num)

/-- The value `a`: above 1 by one unit in the last place. -/
theorem b64_a :
    (Binary64.liczba (1395694493897217 / 72057594037927936) + Binary64.liczba (8832737443003841 / 9007199254740992) : Binary64) = Binary64.liczba (4503599627370497 / 4503599627370496) := by
  show zaokraglij ((((1395694493897217 / 72057594037927936) + (8832737443003841 / 9007199254740992) : ℚ)) : ℝ) = _
  exact zaokraglij_rat _ _ (0) 4503599627370497 (by norm_num) (by norm_num) (by norm_num) (by norm_num) (by norm_num) (by norm_num) (by norm_num) (by norm_num)

/-- The value `1 - a`: negative. -/
theorem b64_one_sub_a :
    (Binary64.liczba 1 - Binary64.liczba (4503599627370497 / 4503599627370496) : Binary64) = Binary64.liczba (-(1 / 4503599627370496)) := by
  show zaokraglij (((1 + -(4503599627370497 / 4503599627370496) : ℚ)) : ℝ) = _
  exact zaokraglij_rat_neg _ _ (-52) 4503599627370496 (by norm_num) (by norm_num) (by norm_num) (by norm_num) (by norm_num) (by norm_num) (by norm_num) (by norm_num)

/-- The sine of `8 * (M_PI / 180)`, rounded. -/
theorem zaokraglij_sin_8k :
    zaokraglij (Real.sin (((5030569068109113 / 36028797018963968) : ℚ) : ℝ)) = Binary64.liczba (5014239404989977 / 36028797018963968) := by
  obtain ⟨hlo, hhi⟩ := sin_8k_bounds
  have h := zaokraglij_eq (r := Real.sin (((5030569068109113 / 36028797018963968) : ℚ) : ℝ)) (-3) 5014239404989977
    (by linarith) (by norm_num) (by norm_num; linarith) (by norm_num; linarith)
    (by norm_num; linarith) (by norm_num; linarith) (by norm_num)
  rw [h]
  congr 1
  norm_num

/-- The cosine of `8 * (M_PI / 180)`, rounded. -/
theorem zaokraglij_cos_8k :
    zaokraglij (Real.cos (((5030569068109113 / 36028797018963968) : ℚ) : ℝ)) = Binary64.liczba (4459770905381437 / 4503599627370496) := by
  obtain ⟨hlo, hhi⟩ := cos_8k_bounds
  have h := zaokraglij_eq (r := Real.cos (((5030569068109113 / 36028797018963968) : ℚ) : ℝ)) (-1) 8919541810762874
    (by linarith) (by norm_num) (by norm_num; linarith) (by norm_num; linarith)
    (by norm_num; linarith) (by norm_num; linarith) (by norm_num)
  rw [h]
  congr 1
  norm_num

/-- The value `qSin(dLat / 2)`. -/
theorem b64_sin_dLat :
    (QDouble.qSin (Binary64.liczba (-(5030569068109113 / 36028797018963968))) : Binary64) = Binary64.liczba (-(5014239404989977 / 36028797018963968)) := by
  show zaokraglij (Real.sin (((-(5030569068109113 / 36028797018963968)) : ℚ) : ℝ)) = _
  have h : (((-(5030569068109113 / 36028797018963968)) : ℚ) : ℝ) = -(((5030569068109113 / 36028797018963968) : ℚ) : ℝ) := by
    push_cast
    ring
  rw [h, Real.sin_neg, zaokraglij_neg, zaokraglij_sin_8k]
  rfl

/-- The value `qCos(qDegreesToRadians(lat1))`. -/
theorem b64_cos_lat1 :
    (QDouble.qCos (Binary64.liczba (5030569068109113 / 36028797018963968)) : Binary64) = Binary64.liczba (4459770905381437 / 4503599627370496) :=
  zaokraglij_cos_8k

/-- The value `qCos(qDegreesToRadians(lat2))`. -/
theorem b64_cos_lat2 :
    (QDouble.qCos (Binary64.liczba (-(5030569068109113 / 36028797018963968))) : Binary64) = Binary64.liczba (4459770905381437 / 4503599627370496) := by
  show zaokraglij (Real.cos (((-(5030569068109113 / 36028797018963968)) : ℚ) : ℝ)) = _
  have h : (((-(5030569068109113 / 36028797018963968)) : ℚ) : ℝ) = -(((5030569068109113 / 36028797018963968) : ℚ) : ℝ) := by
    push_cast
    ring
  rw [h, Real.cos_neg, zaokraglij_cos_8k]

/-- The sine of half of `M_PI` lies within a quarter of a unit in the last
place below 1. -/
theorem sin_pol_pi_bounds :
    1 - (2 : ℝ) ^ (-54 : ℤ) < Real.sin (((884279719003555 / 562949953421312) : ℚ) : ℝ) ∧
      Real.sin (((884279719003555 / 562949953421312) : ℚ) : ℝ) ≤ 1 := by
  refine ⟨?_, Real.sin_le_one _⟩
  have h1 := Real.pi_gt_d20
  have h2 := Real.pi_lt_d20
  rw [← Real.cos_pi_div_two_sub]
  have hcos := Real.one_sub_sq_div_two_le_cos
    (x := Real.pi / 2 - (((884279719003555 / 562949953421312) : ℚ) : ℝ))
  have hd1 : 0 ≤ Real.pi / 2 - (((884279719003555 / 562949953421312) : ℚ) : ℝ) := by
    push_cast
    norm_num at h1 ⊢
    linarith
  have hd2 : Real.pi / 2 - (((884279719003555 / 562949953421312) : ℚ) : ℝ) ≤ 1 / 1000000000000000 := by
    push_cast
    norm_num at h2 ⊢
    linarith
  have hsq : (Real.pi / 2 - (((884279719003555 / 562949953421312) : ℚ) : ℝ)) ^ 2 ≤
      (1 / 1000000000000000) ^ 2 := pow_le_pow_left₀ hd1 hd2 2
  have hnum : (1 / 1000000000000000 : ℝ) ^ 2 / 2 < (2 : ℝ) ^ (-54 : ℤ) := by norm_num
  linarith

/-- The value `qSin(dLon / 2)`. -/
theorem b64_sin_dLon :
    (QDouble.qSin (Binary64.liczba (884279719003555 / 562949953421312)) : Binary64) = Binary64.liczba 1 := by
  show zaokraglij (Real.sin (((884279719003555 / 562949953421312) : ℚ) : ℝ)) = _
  obtain ⟨hlo, hhi⟩ := sin_pol_pi_bounds
  rcases eq_or_lt_of_le hhi with h1 | h1
  · rw [h1]
    have h := zaokraglij_rat 1 1 0 4503599627370496 (by norm_num) (by norm_num) (by norm_num)
      (by norm_num) (by norm_num) (by norm_num) (by norm_num) (by norm_num)
    simpa using h
  · have h := zaokraglij_eq (r := Real.sin (((884279719003555 / 562949953421312) : ℚ) : ℝ)) (-1) 9007199254740992
      (by norm_num at hlo ⊢; linarith) (by norm_num) (by norm_num at hlo ⊢; linarith)
      (by norm_num; linarith) (by norm_num at hlo ⊢; linarith) (by norm_num; linarith)
      (by norm_num)
    rw [h]
    congr 1
    norm_num

theorem Binary64.mul_nan (x : Binary64) : Binary64.mul x Binary64.nan = Binary64.nan := by
  cases x <;> rfl

theorem Binary64.atan2_nan (y : Binary64) :
    Binary64.atan2 y Binary64.nan = Binary64.nan := by
  cases y <;> rfl

/-- The square root of the negative `1 - a` is not a number. -/
theorem b64_sqrt_one_sub_a :
    (QDouble.qSqrt (Binary64.liczba (-(1 / 4503599627370496))) : Binary64) = Binary64.nan := by
  show (if ((-(1 / 4503599627370496)) : ℚ) < 0 then Binary64.nan else _) = _
  rw [if_pos (by norm_num)]

/-- On doubles the value `a` for the points (8, 0) and (-8, 180) is
`1 + 2 ^ (-52)`. -/
theorem wartoscA_binary64 :
    wartoscA (Binary64.liczba 8) (Binary64.liczba 0) (Binary64.liczba (-8))
      (Binary64.liczba 180) = Binary64.liczba (4503599627370497 / 4503599627370496) := by
  simp only [wartoscA, qDegreesToRadians, b64_pi, b64_lit_180, b64_lit_2, b64_k_raw,
    b64_sub_lat, b64_sub_lon, b64_dLat, b64_dLon, b64_dLat_2, b64_dLon_2, b64_lat1, b64_lat2,
    b64_sin_dLat, b64_cos_lat1, b64_cos_lat2, b64_sin_dLon, b64_sin_sq, b64_cos_cos,
    b64_cos_cos_1, b64_a]

/-- On doubles the distance from (8, 0) to (-8, 180) is not a number. -/
theorem obliczOdleglosc_binary64_nan :
    obliczOdleglosc (Binary64.liczba 8) (Binary64.liczba 0) (Binary64.liczba (-8))
      (Binary64.liczba 180) = Binary64.nan := by
  have ha := wartoscA_binary64
  have hd : obliczOdleglosc (Binary64.liczba 8) (Binary64.liczba 0) (Binary64.liczba (-8))
      (Binary64.liczba 180) =
      QDouble.lit 6371 * (QDouble.lit 2 * QDouble.qAtan2
        (QDouble.qSqrt (wartoscA (Binary64.liczba 8) (Binary64.liczba 0) (Binary64.liczba (-8))
          (Binary64.liczba 180)))
        (QDouble.qSqrt (QDouble.lit 1 - wartoscA (Binary64.liczba 8) (Binary64.liczba 0)
          (Binary64.liczba (-8)) (Binary64.liczba 180)))) := rfl
  rw [hd, ha, b64_lit_1, b64_one_sub_a, b64_sqrt_one_sub_a]
  show Binary64.mul _ (Binary64.mul _ (Binary64.atan2 _ Binary64.nan)) = _
  rw [Binary64.atan2_nan, Binary64.mul_nan, Binary64.mul_nan]

/-! ## Theorems: the two orders of the arguments on doubles -/

theorem Binary64.neg_involutive (x : Binary64) : x.neg.neg = x := by
  cases x <;> simp [Binary64.neg]

theorem Binary64.add_swap (x y : Binary64) : Binary64.add x y = Binary64.add y x := by
  cases x with
  | nan => cases y <;> rfl
  | inf s =>
    cases y with
    | nan => rfl
    | inf t => cases s <;> cases t <;> rfl
    | liczba q => rfl
  | liczba p =>
    cases y with
    | nan => rfl
    | inf t => rfl
    | liczba q =>
      show zaokraglij ((p + q : ℚ) : ℝ) = zaokraglij ((q + p : ℚ) : ℝ)
      rw [show p + q = q + p by ring]

theorem Binary64.neg_add_neg (x y : Binary64) :
    (Binary64.add x y).neg = Binary64.add x.neg y.neg := by
  cases x with
  | nan => cases y <;> rfl
  | inf s =>
    cases y with
    | nan => rfl
    | inf t => cases s <;> cases t <;> rfl
    | liczba q => rfl
  | liczba p =>
    cases y with
    | nan => rfl
    | inf t => rfl
    | liczba q =>
      show (zaokraglij ((p + q : ℚ) : ℝ)).neg = zaokraglij ((-p + -q : ℚ) : ℝ)
      rw [← zaokraglij_neg]
      congr 1
      push_cast
      ring

/-- The difference in the other order is the negation. -/
theorem Binary64.sub_swap (x y : Binary64) :
    Binary64.add x y.neg = (Binary64.add y x.neg).neg := by
  rw [Binary64.neg_add_neg, Binary64.neg_involutive, Binary64.add_swap]

theorem Binary64.mul_swap (x y : Binary64) : Binary64.mul x y = Binary64.mul y x := by
  cases x with
  | nan => cases y <;> rfl
  | inf s =>
    cases y with
    | nan => rfl
    | inf t => cases s <;> cases t <;> rfl
    | liczba q =>
      show (if q = 0 then Binary64.nan else Binary64.inf (s != decide (q < 0))) =
        (if q = 0 then Binary64.nan else Binary64.inf (decide (q < 0) != s))
      by_cases h : q = 0
      · simp [h]
      · simp only [h, if_false]
        cases s <;> cases decide (q < 0) <;> rfl
  | liczba p =>
    cases y with
    | nan => rfl
    | inf t =>
      show (if p = 0 then Binary64.nan else Binary64.inf (decide (p < 0) != t)) =
        (if p = 0 then Binary64.nan else Binary64.inf (t != decide (p < 0)))
      by_cases h : p = 0
      · simp [h]
      · simp only [h, if_false]
        cases t <;> cases decide (p < 0) <;> rfl
    | liczba q =>
      show zaokraglij ((p * q : ℚ) : ℝ) = zaokraglij ((q * p : ℚ) : ℝ)
      rw [show p * q = q * p by ring]

theorem decide_neg_lt_zero {p : ℚ} (h : p ≠ 0) : decide (-p < 0) = !decide (p < 0) := by
  rcases lt_or_gt_of_ne h with h1 | h1
  · have : ¬ (-p < 0) := by
      simp only [neg_lt_zero, not_lt]
      exact h1.le
    simp [h1, this]
  · have h2 : -p < 0 := neg_lt_zero.mpr h1
    have h3 : ¬ p < 0 := not_lt.mpr h1.le
    simp [h2, h3]

theorem Binary64.neg_mul_left (x y : Binary64) :
    Binary64.mul x.neg y = (Binary64.mul x y).neg := by
  cases x with
  | nan => cases y <;> rfl
  | inf s =>
    cases y with
    | nan => rfl
    | inf t => cases s <;> cases t <;> rfl
    | liczba q =>
      show (if q = 0 then Binary64.nan else Binary64.inf ((!s) != decide (q < 0))) =
        (if q = 0 then Binary64.nan else Binary64.inf (s != decide (q < 0))).neg
      by_cases h : q = 0
      · simp [h, Binary64.neg]
      · simp only [h, if_false, Binary64.neg]
        cases s <;> cases decide (q < 0) <;> rfl
  | liczba p =>
    cases y with
    | nan => rfl
    | inf t =>
      show (if -p = 0 then Binary64.nan else Binary64.inf (decide (-p < 0) != t)) =
        (if p = 0 then Binary64.nan else Binary64.inf (decide (p < 0) != t)).neg
      by_cases h : p = 0
      · simp [h, Binary64.neg]
      · have h2 : -p ≠ 0 := neg_ne_zero.mpr h
        simp only [h, h2, if_false, Binary64.neg, decide_neg_lt_zero h]
        cases t <;> cases decide (p < 0) <;> rfl
    | liczba q =>
      show zaokraglij ((-p * q : ℚ) : ℝ) = (zaokraglij ((p * q : ℚ) : ℝ)).neg
      rw [← zaokraglij_neg]
      congr 1
      push_cast
      ring

theorem Binary64.neg_mul_right (x y : Binary64) :
    Binary64.mul x y.neg = (Binary64.mul x y).neg := by
  rw [Binary64.mul_swap, Binary64.neg_mul_left, Binary64.mul_swap]

theorem Binary64.neg_div_left (x y : Binary64) :
    Binary64.div x.neg y = (Binary64.div x y).neg := by
  cases x with
  | nan => cases y <;> rfl
  | inf s =>
    cases y with
    | nan => rfl
    | inf t => rfl
    | liczba q =>
      show Binary64.inf ((!s) != decide (q < 0)) = (Binary64.inf (s != decide (q < 0))).neg
      simp only [Binary64.neg]
      cases s <;> cases decide (q < 0) <;> rfl
  | liczba p =>
    cases y with
    | nan => rfl
    | inf t =>
      show Binary64.liczba 0 = (Binary64.liczba 0).neg
      simp [Binary64.neg]
    | liczba q =>
      show (if q = 0 then (if -p = 0 then Binary64.nan else Binary64.inf (decide (-p < 0)))
          else zaokraglij ((-p / q : ℚ) : ℝ)) =
        (if q = 0 then (if p = 0 then Binary64.nan else Binary64.inf (decide (p < 0)))
          else zaokraglij ((p / q : ℚ) : ℝ)).neg
      by_cases hq : q = 0
      · simp only [hq, if_true]
        by_cases h : p = 0
        · simp [h, Binary64.neg]
        · have h2 : -p ≠ 0 := neg_ne_zero.mpr h
          simp only [h, h2, if_false, Binary64.neg, decide_neg_lt_zero h]
      · simp only [hq, if_false]
        rw [← zaokraglij_neg]
        congr 1
        push_cast
        ring

theorem Binary64.sin_neg (x : Binary64) : Binary64.sin x.neg = (Binary64.sin x).neg := by
  cases x with
  | nan => rfl
  | inf s => rfl
  | liczba q =>
    show zaokraglij (Real.sin ((-q : ℚ) : ℝ)) = (zaokraglij (Real.sin (q : ℝ))).neg
    rw [← zaokraglij_neg]
    congr 1
    push_cast
    exact Real.sin_neg _

/-- The product of a double with itself is that of its negation. -/
theorem Binary64.neg_mul_neg (x : Binary64) : Binary64.mul x.neg x.neg = Binary64.mul x x := by
  rw [Binary64.neg_mul_left, Binary64.neg_mul_right, Binary64.neg_involutive]

/-- On doubles the value `a` is the same double for the two orders of the
points. -/
theorem wartoscA_binary64_swap (lat1 lon1 lat2 lon2 : Binary64) :
    wartoscA lat1 lon1 lat2 lon2 = wartoscA lat2 lon2 lat1 lon1 := by
  have hs : ∀ x y k t : Binary64,
      Binary64.mul (Binary64.sin (Binary64.div (Binary64.mul (Binary64.add x y.neg) k) t))
          (Binary64.sin (Binary64.div (Binary64.mul (Binary64.add x y.neg) k) t)) =
        Binary64.mul (Binary64.sin (Binary64.div (Binary64.mul (Binary64.add y x.neg) k) t))
          (Binary64.sin (Binary64.div (Binary64.mul (Binary64.add y x.neg) k) t)) := by
    intro x y k t
    rw [Binary64.sub_swap x y, Binary64.neg_mul_left, Binary64.neg_div_left, Binary64.sin_neg,
      Binary64.neg_mul_neg]
  have hc : ∀ c x y k t : Binary64,
      Binary64.mul (Binary64.mul c
          (Binary64.sin (Binary64.div (Binary64.mul (Binary64.add x y.neg) k) t)))
          (Binary64.sin (Binary64.div (Binary64.mul (Binary64.add x y.neg) k) t)) =
        Binary64.mul (Binary64.mul c
          (Binary64.sin (Binary64.div (Binary64.mul (Binary64.add y x.neg) k) t)))
          (Binary64.sin (Binary64.div (Binary64.mul (Binary64.add y x.neg) k) t)) := by
    intro c x y k t
    rw [Binary64.sub_swap x y, Binary64.neg_mul_left, Binary64.neg_div_left, Binary64.sin_neg,
      Binary64.neg_mul_right, Binary64.neg_mul_right, Binary64.neg_mul_left,
      Binary64.neg_involutive]
  show Binary64.add
      (Binary64.mul
        (Binary64.sin (Binary64.div (Binary64.mul (Binary64.add lat2 lat1.neg)
          (Binary64.div QDouble.pi (QDouble.lit 180))) (QDouble.lit 2)))
        (Binary64.sin (Binary64.div (Binary64.mul (Binary64.add lat2 lat1.neg)
          (Binary64.div QDouble.pi (QDouble.lit 180))) (QDouble.lit 2))))
      (Binary64.mul (Binary64.mul
        (Binary64.mul (Binary64.cos (Binary64.mul lat1 (Binary64.div QDouble.pi (QDouble.lit 180))))
          (Binary64.cos (Binary64.mul lat2 (Binary64.div QDouble.pi (QDouble.lit 180)))))
        (Binary64.sin (Binary64.div (Binary64.mul (Binary64.add lon2 lon1.neg)
          (Binary64.div QDouble.pi (QDouble.lit 180))) (QDouble.lit 2))))
        (Binary64.sin (Binary64.div (Binary64.mul (Binary64.add lon2 lon1.neg)
          (Binary64.div QDouble.pi (QDouble.lit 180))) (QDouble.lit 2)))) =
    Binary64.add
      (Binary64.mul
        (Binary64.sin (Binary64.div (Binary64.mul (Binary64.add lat1 lat2.neg)
          (Binary64.div QDouble.pi (QDouble.lit 180))) (QDouble.lit 2)))
        (Binary64.sin (Binary64.div (Binary64.mul (Binary64.add lat1 lat2.neg)
          (Binary64.div QDouble.pi (QDouble.lit 180))) (QDouble.lit 2))))
      (Binary64.mul (Binary64.mul
        (Binary64.mul (Binary64.cos (Binary64.mul lat2 (Binary64.div QDouble.pi (QDouble.lit 180))))
          (Binary64.cos (Binary64.mul lat1 (Binary64.div QDouble.pi (QDouble.lit 180)))))
        (Binary64.sin (Binary64.div (Binary64.mul (Binary64.add lon1 lon2.neg)
          (Binary64.div QDouble.pi (QDouble.lit 180))) (QDouble.lit 2))))
        (Binary64.sin (Binary64.div (Binary64.mul (Binary64.add lon1 lon2.neg)
          (Binary64.div QDouble.pi (QDouble.lit 180))) (QDouble.lit 2))))
  rw [hs lat2 lat1, hc _ lon2 lon1,
    Binary64.mul_swap (Binary64.cos (Binary64.mul lat1 _)) (Binary64.cos (Binary64.mul lat2 _))]

/-- On doubles the two orders of the points give the same double. -/
theorem obliczOdleglosc_binary64_swap (lat1 lon1 lat2 lon2 : Binary64) :
    obliczOdleglosc lat1 lon1 lat2 lon2 = obliczOdleglosc lat2 lon2 lat1 lon1 := by
  have h : ∀ a b c d : Binary64, obliczOdleglosc a b c d =
      QDouble.lit 6371 * (QDouble.lit 2 * QDouble.qAtan2 (QDouble.qSqrt (wartoscA a b c d))
        (QDouble.qSqrt (QDouble.lit 1 - wartoscA a b c d))) := fun _ _ _ _ => rfl
  rw [h, h, wartoscA_binary64_swap]

/-- The comparison `x == x` of a double with itself fails exactly for NaN. -/
theorem Binary64.rowne_self_iff (x : Binary64) :
    Binary64.rowne x x = true ↔ x ≠ Binary64.nan := by
  cases x with
  | nan => simp [Binary64.rowne]
  | inf s => cases s <;> simp [Binary64.rowne]
  | liczba q => simp [Binary64.rowne]

/-! ## Theorems: the symmetry of the distance on doubles -/

/-- C9, counterexample. On IEEE doubles the points (8, 0) and (-8, 180), which
lie opposite each other on the globe, give `a = 1 + 2 ^ (-52)`, so `1 - a` is
negative, its square root is NaN and `obliczOdleglosc` returns NaN for both
orders of the points: the comparison `==` of the two results is false. -/
theorem obliczOdleglosc_binary64_not_equal :
    wartoscA (Binary64.liczba 8) (Binary64.liczba 0) (Binary64.liczba (-8))
        (Binary64.liczba 180) = Binary64.liczba (4503599627370497 / 4503599627370496) ∧
    obliczOdleglosc (Binary64.liczba 8) (Binary64.liczba 0) (Binary64.liczba (-8))
        (Binary64.liczba 180) = Binary64.nan ∧
    obliczOdleglosc (Binary64.liczba (-8)) (Binary64.liczba 180) (Binary64.liczba 8)
        (Binary64.liczba 0) = Binary64.nan ∧
    Binary64.rowne
        (obliczOdleglosc (Binary64.liczba 8) (Binary64.liczba 0) (Binary64.liczba (-8))
          (Binary64.liczba 180))
        (obliczOdleglosc (Binary64.liczba (-8)) (Binary64.liczba 180) (Binary64.liczba 8)
          (Binary64.liczba 0)) = false := by
  have h1 := obliczOdleglosc_binary64_nan
  have h2 : obliczOdleglosc (Binary64.liczba (-8)) (Binary64.liczba 180) (Binary64.liczba 8)
      (Binary64.liczba 0) = Binary64.nan := by
    rw [obliczOdleglosc_binary64_swap]
    exact h1
  refine ⟨wartoscA_binary64, h1, h2, ?_⟩
  rw [h1, h2]
  rfl

/-- C9, amended. In exact real arithmetic `obliczOdleglosc` is symmetric for all
coordinates. On IEEE doubles the two orders of the points give the same double,
and the two results compare equal with `==` exactly when that double is not
NaN. -/
theorem obliczOdleglosc_symmetric_up_to_nan :
    (∀ lat1 lon1 lat2 lon2 : ℝ,
      obliczOdleglosc lat1 lon1 lat2 lon2 = obliczOdleglosc lat2 lon2 lat1 lon1) ∧
    (∀ lat1 lon1 lat2 lon2 : Binary64,
      obliczOdleglosc lat1 lon1 lat2 lon2 = obliczOdleglosc lat2 lon2 lat1 lon1 ∧
      (Binary64.rowne (obliczOdleglosc lat1 lon1 lat2 lon2)
          (obliczOdleglosc lat2 lon2 lat1 lon1) = true ↔
        obliczOdleglosc lat1 lon1 lat2 lon2 ≠ Binary64.nan)) := by
  refine ⟨obliczOdleglosc_real_symmetric, ?_⟩
  intro lat1 lon1 lat2 lon2
  refine ⟨obliczOdleglosc_binary64_swap lat1 lon1 lat2 lon2, ?_⟩
  rw [← obliczOdleglosc_binary64_swap lat1 lon1 lat2 lon2]
  exact Binary64.rowne_self_iff _

end WhetherApi
